import Mathlib

/-!
Verification of the PDF invoice parsing engine (pdfParsing.server.ts and the
PythonTableParser listed in PDF_PARSING_README.md) against its natural-language
specification.

Modelling conventions (shallow embedding):
* JavaScript numbers are modelled as exact rationals.  To keep every embedded
  function executable by the kernel, arithmetic is performed on `JsNum`
  (definitionally `ℚ`) through `mkRat`-based operations that the kernel can
  reduce; bridge lemmas relate them to ordinary `ℚ` arithmetic.
  `Math.round` is modelled by `jsRound` (round half toward +∞, as in
  JavaScript) and the `Math.round(x * 100) / 100` idiom by `round2`.
* JavaScript strings are Lean `String`s; the handful of regular expressions
  used by the code are modelled by explicit scanning functions whose semantics
  follow the specific pattern they embed (documented at each definition).
* `Date` values are modelled by the string handed to the `Date` constructor.
* Asynchronous wrappers (`async`/`await`, try/catch) carry no behaviour of
  their own in the pure fragment modelled here: every embedded parser is a
  total Lean function returning the `PdfExtractionResult` envelope.
-/

/-! ### Kernel-computable rational arithmetic -/

/-- JavaScript numbers, modelled as exact rationals.  A type synonym of `ℚ`
carrying kernel-reducible arithmetic instances. -/
def JsNum := ℚ

/-- View a `JsNum` as a plain rational (the identity; used to state bridge
lemmas and value-level theorems). -/
def JsNum.q (a : JsNum) : ℚ := a

/-- The inverse view (also the identity). -/
def JsNum.ofQ (a : ℚ) : JsNum := a

/-- Embed an integer as a `JsNum` (kernel-reducible). -/
def JsNum.ofInt (i : ℤ) : JsNum := mkRat i 1

instance : DecidableEq JsNum := inferInstanceAs (DecidableEq ℚ)

instance : LE JsNum := inferInstanceAs (LE ℚ)

instance : LT JsNum := inferInstanceAs (LT ℚ)

instance (a b : JsNum) : Decidable (a ≤ b) :=
  inferInstanceAs (Decidable (JsNum.q a ≤ JsNum.q b))

instance (a b : JsNum) : Decidable (a < b) :=
  inferInstanceAs (Decidable (JsNum.q a < JsNum.q b))

protected def JsNum.add (a b : JsNum) : JsNum :=
  mkRat (a.q.num * b.q.den + b.q.num * a.q.den) (a.q.den * b.q.den)

protected def JsNum.sub (a b : JsNum) : JsNum :=
  mkRat (a.q.num * b.q.den - b.q.num * a.q.den) (a.q.den * b.q.den)

protected def JsNum.mul (a b : JsNum) : JsNum :=
  mkRat (a.q.num * b.q.num) (a.q.den * b.q.den)

protected def JsNum.div (a b : JsNum) : JsNum :=
  if 0 ≤ b.q.num then
    mkRat (a.q.num * b.q.den) (a.q.den * b.q.num.toNat)
  else
    mkRat (-(a.q.num * b.q.den)) (a.q.den * (-b.q.num).toNat)

instance : Add JsNum := ⟨JsNum.add⟩

instance : Sub JsNum := ⟨JsNum.sub⟩

instance : Mul JsNum := ⟨JsNum.mul⟩

instance : Div JsNum := ⟨JsNum.div⟩

instance : Neg JsNum := ⟨fun a => Rat.neg a.q⟩

instance (n : ℕ) : OfNat JsNum n := ⟨(OfNat.ofNat n : ℚ)⟩

instance : OfScientific JsNum :=
  ⟨fun m b e => if b then mkRat m (10 ^ e) else ((m * 10 ^ e : ℕ) : ℚ)⟩

/-- `Math.abs`. -/
def jsAbs (a : JsNum) : JsNum := if a < (0 : JsNum) then -a else a

/-- JavaScript `Math.round`: round half toward positive infinity.
For a rational `n/d` (with `d > 0`) this is `⌊x + 1/2⌋ = (2n + d) / (2d)`
under floor division. -/
def jsRound (a : JsNum) : ℤ := (2 * a.q.num + a.q.den) / (2 * (a.q.den : ℤ))

/-- The `Math.round(x * 100) / 100` idiom (2-decimal rounding). -/
def round2 (a : JsNum) : JsNum := mkRat (jsRound (a * (100 : JsNum))) 100

/-- The `Math.round(x * 1000) / 1000` idiom (3-decimal rounding). -/
def round3 (a : JsNum) : JsNum := mkRat (jsRound (a * (1000 : JsNum))) 1000

/-- The `Math.round(x * 10000) / 10000` idiom (4-decimal rounding). -/
def round4 (a : JsNum) : JsNum := mkRat (jsRound (a * (10000 : JsNum))) 10000

/-! Bridge lemmas relating `JsNum` arithmetic to ordinary `ℚ` arithmetic. -/

theorem JsNum.q_add (a b : JsNum) : (a + b).q = a.q + b.q :=
  (Rat.add_def' a.q b.q).symm

theorem JsNum.q_sub (a b : JsNum) : (a - b).q = a.q - b.q :=
  (Rat.sub_def' a.q b.q).symm

theorem JsNum.q_mul (a b : JsNum) : (a * b).q = a.q * b.q := by
  show mkRat _ _ = _
  rw [Rat.mul_def, Rat.normalize_eq_mkRat]

theorem JsNum.q_neg (a : JsNum) : (-a).q = -(a.q) := rfl

theorem JsNum.q_le (a b : JsNum) : a ≤ b ↔ a.q ≤ b.q := Iff.rfl

theorem JsNum.q_lt (a b : JsNum) : a < b ↔ a.q < b.q := Iff.rfl

theorem JsNum.q_div (a b : JsNum) (hb : b.q ≠ 0) : (a / b).q = a.q / b.q := by
  have hbnum : b.q.num ≠ 0 := Rat.num_ne_zero.mpr hb
  have hda : ((a.q.den : ℤ)) ≠ 0 := by exact_mod_cast a.q.den_nz
  have key : a.q / b.q = Rat.divInt (a.q.num * b.q.den) (a.q.den * b.q.num) := by
    conv_lhs => rw [← Rat.divInt_self a.q, ← Rat.divInt_self b.q]
    rw [Rat.div_def, Rat.inv_divInt, Rat.divInt_mul_divInt _ _ hda hbnum]
  show (JsNum.div a b).q = _
  rw [key]
  unfold JsNum.div
  rcases lt_or_le b.q.num 0 with hneg | hpos
  · rw [if_neg (by omega)]
    have hc : (((-b.q.num).toNat : ℕ) : ℤ) = -b.q.num := by omega
    have h2 : ((a.q.den : ℤ)) * b.q.num = -(((a.q.den * (-b.q.num).toNat : ℕ)) : ℤ) := by
      push_cast [hc]
      ring
    rw [h2, Rat.divInt_neg', Rat.divInt_ofNat]
    rfl
  · rw [if_pos hpos]
    have hc : ((b.q.num.toNat : ℕ) : ℤ) = b.q.num := by omega
    have h2 : ((a.q.den : ℤ)) * b.q.num = (((a.q.den * b.q.num.toNat : ℕ)) : ℤ) := by
      push_cast [hc]
      ring
    rw [h2, Rat.divInt_ofNat]
    rfl

theorem jsRound_eq_floor (a : JsNum) : jsRound a = ⌊a.q + 1/2⌋ := by
  unfold jsRound
  have hd : ((a.q.den : ℚ)) ≠ 0 := by exact_mod_cast a.q.den_nz
  have key : a.q + 1/2 =
      ((2 * a.q.num + (a.q.den : ℤ) : ℤ) : ℚ) / (((2 * a.q.den : ℕ)) : ℚ) := by
    conv_lhs => rw [← Rat.num_div_den a.q]
    push_cast
    field_simp
    ring
  rw [key, Rat.floor_intCast_div_natCast]
  have h2 : ((2 * a.q.den : ℕ) : ℤ) = 2 * ((a.q.den : ℕ) : ℤ) := by push_cast; ring
  rw [h2]

/-! ### A stable, kernel-computable sort (JavaScript `Array.prototype.sort`)

JavaScript's sort is stable (ES2019); any stable sort agrees with it on a
consistent comparator, and insertion sort is used here because it is
structurally recursive, hence executable by the kernel. -/

def jsInsert (le : α → α → Bool) (a : α) : List α → List α
  | [] => [a]
  | b :: l => if le a b then a :: b :: l else b :: jsInsert le a l

def jsSortLe (le : α → α → Bool) : List α → List α
  | [] => []
  | a :: l => jsInsert le a (jsSortLe le l)

theorem jsInsert_perm (le : α → α → Bool) (a : α) :
    ∀ l : List α, List.Perm (jsInsert le a l) (a :: l)
  | [] => List.Perm.refl _
  | b :: l => by
    unfold jsInsert
    by_cases h : le a b
    · simp [h]
    · simp only [h]
      rw [if_neg (by simp [h])]
      exact ((jsInsert_perm le a l).cons b).trans (List.Perm.swap a b l)

theorem jsSortLe_perm (le : α → α → Bool) : ∀ l : List α, List.Perm (jsSortLe le l) l
  | [] => List.Perm.refl _
  | a :: l =>
    (jsInsert_perm le a (jsSortLe le l)).trans ((jsSortLe_perm le l).cons a)

theorem jsInsert_pairwise (le : α → α → Bool)
    (htrans : ∀ a b c, le a b → le b c → le a c)
    (htotal : ∀ a b, le a b || le b a) (a : α) (l : List α)
    (hl : l.Pairwise (fun x y => le x y = true)) :
    (jsInsert le a l).Pairwise (fun x y => le x y = true) := by
  induction l with
  | nil => simp [jsInsert]
  | cons b l ih =>
    rcases List.pairwise_cons.mp hl with ⟨hb, hl'⟩
    unfold jsInsert
    by_cases h : le a b
    · rw [if_pos h]
      refine List.pairwise_cons.mpr ⟨?_, hl⟩
      intro x hx
      rcases List.mem_cons.mp hx with rfl | hx
      · exact h
      · exact htrans a b x h (hb x hx)
    · rw [if_neg h]
      have hba : le b a := by
        rcases Bool.or_eq_true_iff.mp (htotal a b) with hab | hba
        · exact absurd hab h
        · exact hba
      refine List.pairwise_cons.mpr ⟨?_, ih hl'⟩
      intro x hx
      rcases (jsInsert_perm le a l).mem_iff.mp hx with hx'
      rcases List.mem_cons.mp hx' with rfl | hx''
      · exact hba
      · exact hb x hx''

theorem jsSortLe_pairwise (le : α → α → Bool)
    (htrans : ∀ a b c, le a b → le b c → le a c)
    (htotal : ∀ a b, le a b || le b a) :
    ∀ l : List α, (jsSortLe le l).Pairwise (fun x y => le x y = true)
  | [] => List.Pairwise.nil
  | a :: l =>
    jsInsert_pairwise le htrans htotal a (jsSortLe le l)
      (jsSortLe_pairwise le htrans htotal l)

theorem jsSortLe_mem (le : α → α → Bool) (l : List α) (x : α) :
    x ∈ jsSortLe le l ↔ x ∈ l :=
  (jsSortLe_perm le l).mem_iff

/-! ### JavaScript string primitives -/

/-- JavaScript whitespace (the characters matched by `\s` and removed by
`String.prototype.trim`), restricted to the ones that can occur here. -/
def isJsSpace (c : Char) : Bool :=
  c = ' ' || c = '\t' || c = '\n' || c = '\r' ||
  c.toNat = 11 || c.toNat = 12 || c.toNat = 0xA0 || c.toNat = 0xFEFF

/-- Decimal digit test (`\d` / `[0-9]`). -/
def isDigit (c : Char) : Bool := '0' ≤ c && c ≤ '9'

/-- JavaScript `\w`: ASCII letters, digits and underscore. -/
def isWordChar (c : Char) : Bool := c.isAlphanum || c = '_'

/-- ASCII uppercase letter test. -/
def isUpperAZ (c : Char) : Bool := 'A' ≤ c && c ≤ 'Z'

/-- ASCII lowercase letter test. -/
def isLowerAZ (c : Char) : Bool := 'a' ≤ c && c ≤ 'z'

/-- `String.prototype.toLowerCase`, for the characters occurring in the
sources: ASCII plus the accented letters used by the French/Italian labels. -/
def jsToLowerChar (c : Char) : Char :=
  if isUpperAZ c then Char.ofNat (c.toNat + 32)
  else if c = 'À' then 'à' else if c = 'Â' then 'â'
  else if c = 'É' then 'é' else if c = 'È' then 'è'
  else if c = 'Ê' then 'ê' else if c = 'Ë' then 'ë'
  else if c = 'Î' then 'î' else if c = 'Ï' then 'ï'
  else if c = 'Ô' then 'ô' else if c = 'Ù' then 'ù'
  else if c = 'Û' then 'û' else if c = 'Ü' then 'ü'
  else if c = 'Ç' then 'ç' else if c = 'Í' then 'í'
  else c

/-- `String.prototype.toUpperCase` for the same character repertoire. -/
def jsToUpperChar (c : Char) : Char :=
  if isLowerAZ c then Char.ofNat (c.toNat - 32)
  else if c = 'à' then 'À' else if c = 'â' then 'Â'
  else if c = 'é' then 'É' else if c = 'è' then 'È'
  else if c = 'ê' then 'Ê' else if c = 'ë' then 'Ë'
  else if c = 'î' then 'Î' else if c = 'ï' then 'Ï'
  else if c = 'ô' then 'Ô' else if c = 'ù' then 'Ù'
  else if c = 'û' then 'Û' else if c = 'ü' then 'Ü'
  else if c = 'ç' then 'Ç' else if c = 'í' then 'Í'
  else c

def jsToLower (s : String) : String := String.mk (s.toList.map jsToLowerChar)

def jsToUpper (s : String) : String := String.mk (s.toList.map jsToUpperChar)

/-- `String.prototype.trim`. -/
def jsTrim (s : String) : String :=
  String.mk (((s.toList.dropWhile isJsSpace).reverse.dropWhile isJsSpace).reverse)

/-- Substring search on character lists (the heart of `String.includes`). -/
def listIncludes (hay needle : List Char) : Bool :=
  (List.range (hay.length + 1)).any (fun i => needle.isPrefixOf (hay.drop i))

/-- `String.prototype.includes`. -/
def jsIncludes (s sub : String) : Bool := listIncludes s.toList sub.toList

/-- `String.prototype.startsWith`. -/
def jsStartsWith (s pre : String) : Bool := pre.toList.isPrefixOf s.toList

/-- `s.replace(",", ".")`-style single-character replace: only the first
occurrence, as the non-global JavaScript `String.replace` does. -/
def replaceFirstChar (s : String) (target : Char) (repl : Char) : String :=
  String.mk (go s.toList)
where
  go : List Char → List Char
    | [] => []
    | c :: cs => if c = target then repl :: cs else c :: go cs

/-- `s.replace(/c/g, "")` for a character class: removes every matching char. -/
def removeChars (s : String) (p : Char → Bool) : String :=
  String.mk (s.toList.filter (fun c => !(p c)))

/-- `s.replace(/\s+/g, " ")`: collapse every whitespace run to one space.
The Boolean state records whether the scanner is inside a whitespace run. -/
def collapseSpacesGo : Bool → List Char → List Char
  | _, [] => []
  | inRun, c :: cs =>
    if isJsSpace c then
      if inRun then collapseSpacesGo true cs else ' ' :: collapseSpacesGo true cs
    else c :: collapseSpacesGo false cs

def collapseSpaces (s : String) : String :=
  String.mk (collapseSpacesGo false s.toList)

/-- Value of a list of decimal digit characters. -/
def digitsToNat (ds : List Char) : ℕ :=
  ds.foldl (fun acc c => acc * 10 + (c.toNat - '0'.toNat)) 0

/-- `parseInt(s, 10)`: skip whitespace, optional sign, then the maximal digit
prefix; `none` models `NaN`. -/
def jsParseInt (s : String) : Option ℤ :=
  let cs := s.toList.dropWhile isJsSpace
  let (neg, cs) :=
    match cs with
    | '-' :: rest => (true, rest)
    | '+' :: rest => (false, rest)
    | _ => (false, cs)
  let ds := cs.takeWhile isDigit
  if ds.isEmpty then none
  else some (if neg then -(digitsToNat ds : ℤ) else (digitsToNat ds : ℤ))

/-- `parseFloat(s)`: skip whitespace, optional sign, digits, optional fraction,
optional exponent; parses the longest valid numeric prefix; `none` models
`NaN`. -/
def jsParseFloat (s : String) : Option JsNum :=
  let cs := s.toList.dropWhile isJsSpace
  let (neg, cs) :=
    match cs with
    | '-' :: rest => (true, rest)
    | '+' :: rest => (false, rest)
    | _ => (false, cs)
  let intDs := cs.takeWhile isDigit
  let cs1 := cs.drop intDs.length
  let fracDs :=
    match cs1 with
    | '.' :: rest => rest.takeWhile isDigit
    | _ => []
  let cs2 :=
    match cs1 with
    | '.' :: rest => rest.drop fracDs.length
    | _ => cs1
  if intDs.isEmpty && fracDs.isEmpty then none
  else
    let mantissa : JsNum :=
      mkRat (digitsToNat intDs * 10 ^ fracDs.length + digitsToNat fracDs) (10 ^ fracDs.length)
    let expPart : ℤ :=
      match cs2 with
      | 'e' :: rest => readExp rest
      | 'E' :: rest => readExp rest
      | _ => 0
    let v : JsNum :=
      if 0 ≤ expPart then mantissa * JsNum.ofQ ((10 ^ expPart.toNat : ℕ) : ℚ)
      else mantissa / JsNum.ofQ ((10 ^ (-expPart).toNat : ℕ) : ℚ)
    some (if neg then -v else v)
where
  readExp (cs : List Char) : ℤ :=
    let (eneg, cs) :=
      match cs with
      | '-' :: rest => (true, rest)
      | '+' :: rest => (false, rest)
      | _ => (false, cs)
    let ds := cs.takeWhile isDigit
    if ds.isEmpty then 0
    else if eneg then -(digitsToNat ds : ℤ) else (digitsToNat ds : ℤ)

/-! ### Data model (section 3 of the specification) -/

/-- A positioned text run as produced by the text extractor (one element of
`allTexts` / one `items` entry of a text line). -/
structure Tok where
  x : JsNum
  y : JsNum
  text : String
  fontSize : Option JsNum := none
  page : ℕ := 1
  deriving DecidableEq

/-- A `TextLine`: a horizontal cluster of runs. -/
structure TextLine where
  yPosition : JsNum
  text : String
  items : List Tok
  deriving DecidableEq

/-- A parsed invoice line item. -/
structure LineItem where
  supplierSku : String
  description : Option String := none
  quantity : JsNum
  unitPrice : JsNum
  total : JsNum
  deriving DecidableEq

structure SupplierInfo where
  name : Option String := none
  address : Option String := none
  vatNumber : Option String := none
  deriving DecidableEq

/-- Invoice-level metadata.  `invoiceDate` holds the string handed to the
JavaScript `Date` constructor (dates themselves are not interpreted here). -/
structure InvoiceMetadata where
  invoiceNumber : Option String := none
  invoiceDate : Option String := none
  currency : String
  shippingFee : JsNum
  subtotal : Option JsNum := none
  total : Option JsNum := none
  deriving DecidableEq

structure ParsedInvoiceData where
  supplierInfo : SupplierInfo := {}
  invoiceMetadata : InvoiceMetadata
  lineItems : List LineItem
  rawText : Option (List String) := none
  deriving DecidableEq

/-- The uniform result envelope. -/
structure PdfExtractionResult where
  success : Bool
  data : Option ParsedInvoiceData := none
  error : Option String := none
  warnings : Option (List String) := none
  deriving DecidableEq

/-! ### Line Assembler (`extractStructuredText`, pdfParsing.server.ts 94–118)

The pure grouping stage that turns the flat run list into text lines.  The
JavaScript stores groups in an object keyed by the rounded y value and sorts
the assembled lines by `yPosition` at the end; since the keys are distinct,
the enumeration order of the keys does not affect the sorted output, and the
embedding enumerates them via `dedup` of the rounded values. -/

/-- `Math.round(item.y / tolerance) * tolerance` with `tolerance = 0.5`. -/
def roundedY (y : JsNum) : JsNum := JsNum.ofInt (jsRound (y / (0.5 : JsNum))) * (0.5 : JsNum)

/-- Assemble one line from the runs sharing a rounded y value. -/
def mkTextLine (runs : List Tok) (k : JsNum) : TextLine :=
  let group := runs.filter (fun r => roundedY r.y = k)
  let sorted := jsSortLe (fun a b => a.x ≤ b.x) group
  { yPosition := k
    items := sorted
    text := jsTrim (String.intercalate " " (sorted.map Tok.text)) }

/-- The Line Assembler: group by rounded y, sort each group by x, join texts
with single spaces and trim, drop empty lines, sort lines by y. -/
def groupIntoLines (runs : List Tok) : List TextLine :=
  let keys := (runs.map (fun r => roundedY r.y)).dedup
  jsSortLe (fun a b => a.yPosition ≤ b.yPosition)
    ((keys.map (mkTextLine runs)).filter (fun l => l.text ≠ ""))

/-! ### Claim C1: the Line Assembler -/

/-- The concrete run refuting the "text equals the items' texts space-joined"
conjunct: a run whose decoded text carries a leading space (such runs pass the
extractor's `decodedText.trim()` guard, which checks but does not strip). -/
def c1CxRuns : List Tok := [{ x := 0, y := 0, text := " a" }]

theorem groupIntoLines_mem (runs : List Tok) (l : TextLine)
    (hl : l ∈ groupIntoLines runs) :
    ∃ k, (k ∈ (runs.map (fun r => roundedY r.y)).dedup) ∧ l = mkTextLine runs k := by
  unfold groupIntoLines at hl
  rw [jsSortLe_mem] at hl
  rcases List.mem_filter.mp hl with ⟨hmem, _⟩
  rcases List.mem_map.mp hmem with ⟨k, hk, rfl⟩
  exact ⟨k, hk, rfl⟩

theorem mkTextLine_yPosition (runs : List Tok) (k : JsNum) :
    (mkTextLine runs k).yPosition = k := rfl

theorem mkTextLine_items (runs : List Tok) (k : JsNum) :
    (mkTextLine runs k).items =
      jsSortLe (fun a b => a.x ≤ b.x) (runs.filter (fun r => roundedY r.y = k)) := rfl

theorem mkTextLine_text (runs : List Tok) (k : JsNum) :
    (mkTextLine runs k).text =
      jsTrim (String.intercalate " " ((mkTextLine runs k).items.map Tok.text)) := rfl
/-- C1, counterexample: on the run list `c1CxRuns` (one run with text `" a"`)
the assembled line's text is the trimmed join `"a"`, not the plain space-join
`" a"` of its items' texts, so "the line's text equals the items' texts
space-joined" fails as stated. -/
theorem c1_text_is_trimmed_join_counterexample :
    (groupIntoLines c1CxRuns).map TextLine.text = ["a"] ∧
    (groupIntoLines c1CxRuns).map
        (fun l => String.intercalate " " (l.items.map Tok.text)) = [" a"] ∧
    ("a" : String) ≠ " a" := by
  refine ⟨by decide, by decide, by decide⟩

/-- C1 (amended: the line text is the space-join *trimmed*): the Line
Assembler's output consists of exactly the lines obtained by grouping runs
whose y rounds to the same multiple of the 0.5 tolerance, each line's items
being that group sorted ascending by x, its text the trimmed space-join of the
items' texts, empty-text lines discarded, and the lines sorted ascending by
yPosition (with pairwise-distinct y values). -/
theorem c1_line_assembler (runs : List Tok) :
    (groupIntoLines runs).Pairwise (fun a b => a.yPosition ≤ b.yPosition) ∧
    ((groupIntoLines runs).map TextLine.yPosition).Nodup ∧
    (∀ l ∈ groupIntoLines runs,
      l.items = jsSortLe (fun a b => a.x ≤ b.x)
          (runs.filter (fun r => roundedY r.y = l.yPosition)) ∧
      l.items.Pairwise (fun a b => a.x ≤ b.x) ∧
      List.Perm l.items (runs.filter (fun r => roundedY r.y = l.yPosition)) ∧
      l.text = jsTrim (String.intercalate " " (l.items.map Tok.text)) ∧
      l.text ≠ "" ∧
      (∃ r ∈ runs, roundedY r.y = l.yPosition)) ∧
    (∀ k, (∃ r ∈ runs, roundedY r.y = k) →
      jsTrim (String.intercalate " "
        ((jsSortLe (fun a b => a.x ≤ b.x)
            (runs.filter (fun r => roundedY r.y = k))).map Tok.text)) ≠ "" →
      ∃ l ∈ groupIntoLines runs, l.yPosition = k) := by
  have hletrans : ∀ a b c : TextLine,
      (fun a b : TextLine => decide (a.yPosition ≤ b.yPosition)) a b = true →
      (fun a b : TextLine => decide (a.yPosition ≤ b.yPosition)) b c = true →
      (fun a b : TextLine => decide (a.yPosition ≤ b.yPosition)) a c = true := by
    intro a b c hab hbc
    simp only [decide_eq_true_eq, JsNum.q_le] at *
    exact le_trans hab hbc
  have hletotal : ∀ a b : TextLine,
      ((fun a b : TextLine => decide (a.yPosition ≤ b.yPosition)) a b ||
       (fun a b : TextLine => decide (a.yPosition ≤ b.yPosition)) b a) = true := by
    intro a b
    simp only [Bool.or_eq_true, decide_eq_true_eq, JsNum.q_le]
    exact le_total _ _
  have hxtrans : ∀ a b c : Tok,
      (fun a b : Tok => decide (a.x ≤ b.x)) a b = true →
      (fun a b : Tok => decide (a.x ≤ b.x)) b c = true →
      (fun a b : Tok => decide (a.x ≤ b.x)) a c = true := by
    intro a b c hab hbc
    simp only [decide_eq_true_eq, JsNum.q_le] at *
    exact le_trans hab hbc
  have hxtotal : ∀ a b : Tok,
      ((fun a b : Tok => decide (a.x ≤ b.x)) a b ||
       (fun a b : Tok => decide (a.x ≤ b.x)) b a) = true := by
    intro a b
    simp only [Bool.or_eq_true, decide_eq_true_eq, JsNum.q_le]
    exact le_total _ _
  refine ⟨?_, ?_, ?_, ?_⟩
  · have h := jsSortLe_pairwise (fun a b : TextLine => decide (a.yPosition ≤ b.yPosition))
      hletrans hletotal
      (((runs.map (fun r => roundedY r.y)).dedup.map (mkTextLine runs)).filter
        (fun l => l.text ≠ ""))
    refine (List.Pairwise.imp ?_ h)
    intro a b hab
    exact of_decide_eq_true hab
  · have hperm := jsSortLe_perm (fun a b : TextLine => decide (a.yPosition ≤ b.yPosition))
      (((runs.map (fun r => roundedY r.y)).dedup.map (mkTextLine runs)).filter
        (fun l => l.text ≠ ""))
    have hmapperm := hperm.map TextLine.yPosition
    refine hmapperm.nodup_iff.mpr ?_
    have hsub : List.Sublist
        (((runs.map (fun r => roundedY r.y)).dedup.map (mkTextLine runs)).filter
          (fun l => l.text ≠ ""))
        ((runs.map (fun r => roundedY r.y)).dedup.map (mkTextLine runs)) :=
      List.filter_sublist _
    have hsub2 := hsub.map TextLine.yPosition
    have : ((runs.map (fun r => roundedY r.y)).dedup.map (mkTextLine runs)).map
        TextLine.yPosition = (runs.map (fun r => roundedY r.y)).dedup := by
      rw [List.map_map]
      have : (TextLine.yPosition ∘ mkTextLine runs) = id := by
        funext k
        rfl
      rw [this, List.map_id]
    rw [this] at hsub2
    exact List.Nodup.sublist hsub2 (List.nodup_dedup _)
  · intro l hl
    rcases groupIntoLines_mem runs l hl with ⟨k, hk, rfl⟩
    refine ⟨rfl, ?_, ?_, rfl, ?_, ?_⟩
    · have h := jsSortLe_pairwise (fun a b : Tok => decide (a.x ≤ b.x)) hxtrans hxtotal
        (runs.filter (fun r => roundedY r.y = (mkTextLine runs k).yPosition))
      rw [mkTextLine_items]
      refine (List.Pairwise.imp ?_ h)
      intro a b hab
      exact of_decide_eq_true hab
    · rw [mkTextLine_items]
      exact jsSortLe_perm _ _
    · unfold groupIntoLines at hl
      rw [jsSortLe_mem] at hl
      exact of_decide_eq_true (List.mem_filter.mp hl).2
    · rcases List.mem_dedup.mp hk with hk'
      rcases List.mem_map.mp hk' with ⟨r, hr, hrk⟩
      exact ⟨r, hr, hrk⟩
  · intro k hk htext
    refine ⟨mkTextLine runs k, ?_, rfl⟩
    unfold groupIntoLines
    rw [jsSortLe_mem]
    refine List.mem_filter.mpr ⟨?_, ?_⟩
    · refine List.mem_map.mpr ⟨k, ?_, rfl⟩
      refine List.mem_dedup.mpr ?_
      rcases hk with ⟨r, hr, hrk⟩
      exact List.mem_map.mpr ⟨r, hr, hrk⟩
    · simpa using htext

/-- Witness instantiating `c1_line_assembler` at a concrete run list and
discharging its hypotheses there. -/
theorem c1_line_assembler_witness :
    ∃ l ∈ groupIntoLines [{ x := 1, y := 1, text := "hi" }], l.yPosition = 1 := by
  have h := c1_line_assembler [{ x := 1, y := 1, text := "hi" }]
  exact h.2.2.2 1 (by decide) (by decide)

/-! ### Regular-expression models

Each helper embeds one concrete regular expression from the source; the
backtracking behaviour of the JavaScript engine is analysed at the definition
(for these patterns the greedy/lazy choices are forced, as noted). -/

/-- `\w*\d` scanning: some position holds a digit and everything before it is
a word character (the suffix semantics of `^(…)\w*\d+` after the prefix). -/
def wordStarDigit : List Char → Bool
  | [] => false
  | c :: cs => if isDigit c then true else if isWordChar c then wordStarDigit cs else false

/-- `/^(IAF|FITT|YAM)\w*\d+/.test` — the three alternatives start with
distinct letters, so alternation order does not matter. -/
def skuTest (s : String) : Bool :=
  (jsStartsWith s "IAF" && wordStarDigit (s.toList.drop 3)) ||
  (jsStartsWith s "FITT" && wordStarDigit (s.toList.drop 4)) ||
  (jsStartsWith s "YAM" && wordStarDigit (s.toList.drop 3))

def isSepChar (c : Char) : Bool := c = '.' || c = ','

/-- Full match of `-?\d+[.,]?\d*` (anchored on both sides). -/
def numShape (cs : List Char) : Bool :=
  let cs := match cs with
    | '-' :: rest => rest
    | _ => cs
  let ds := cs.takeWhile isDigit
  if ds.isEmpty then false
  else
    match cs.drop ds.length with
    | [] => true
    | c :: rest => isSepChar c && rest.all isDigit

/-- `/^-?\d+[.,]?\d*$/.test`. -/
def numFullTest (s : String) : Bool := numShape s.toList

/-- `/^PZ\s+(-?\d+[.,]?\d*)$/` — on success returns the captured group. -/
def pzQtyCapture (s : String) : Option String :=
  match s.toList with
  | 'P' :: 'Z' :: rest =>
    let sp := rest.takeWhile isJsSpace
    if sp.isEmpty then none
    else
      let num := rest.drop sp.length
      if numShape num then some (String.mk num) else none
  | _ => none

/-- `/^PZ\s+\d+/.test` (prefix test, unanchored on the right). -/
def pzIntTest (s : String) : Bool :=
  match s.toList with
  | 'P' :: 'Z' :: rest =>
    let sp := rest.takeWhile isJsSpace
    !sp.isEmpty && !((rest.drop sp.length).takeWhile isDigit).isEmpty
  | _ => false

/-- `([.,]\d{3})*[.,]\d{2}$`: separator groups of three digits ending in a
final separator group of exactly two digits. -/
def sepGroupsThenTwo : List Char → Bool
  | [sep, d1, d2] => isSepChar sep && isDigit d1 && isDigit d2
  | sep :: d1 :: d2 :: d3 :: rest =>
    isSepChar sep && isDigit d1 && isDigit d2 && isDigit d3 &&
      sepGroupsThenTwo rest
  | _ => false

/-- `/^-?\d{1,3}(?:[.,]\d{3})*[.,]\d{2}$/.test` — the Yamamoto price-token
shape.  The leading `\d{1,3}` must consume the whole first digit run (the next
pattern char is a separator), so the test reduces to run lengths. -/
def priceShapeTest (s : String) : Bool :=
  let cs := match s.toList with
    | '-' :: rest => rest
    | cs => cs
  let ds := cs.takeWhile isDigit
  decide (1 ≤ ds.length) && decide (ds.length ≤ 3) && sepGroupsThenTwo (cs.drop ds.length)

/-- `/^\d+[.,]\d{2}$/.test`. -/
def digitsSepTwoTest (s : String) : Bool :=
  let cs := s.toList
  let ds := cs.takeWhile isDigit
  if ds.isEmpty then false
  else
    match cs.drop ds.length with
    | [sep, d1, d2] => isSepChar sep && isDigit d1 && isDigit d2
    | _ => false

/-- `/^\d{8}$/.test`. -/
def eightDigitsTest (s : String) : Bool :=
  s.toList.length = 8 && s.toList.all isDigit

/-- `/^(NI\d+|ESC\d+)$/.test`. -/
def niEscTest (s : String) : Bool :=
  (jsStartsWith s "NI" && !(s.toList.drop 2).isEmpty && (s.toList.drop 2).all isDigit) ||
  (jsStartsWith s "ESC" && !(s.toList.drop 3).isEmpty && (s.toList.drop 3).all isDigit)

/-- `/^CUSTOM\s*'\s*S\s+TARIFF/.test` (prefix test). -/
def customTariffTest (s : String) : Bool :=
  match dropLit s.toList ['C','U','S','T','O','M'] with
  | none => false
  | some r1 =>
    let r2 := r1.dropWhile isJsSpace
    match r2 with
    | c :: r3 =>
      if c = '\x27' then
        let r4 := r3.dropWhile isJsSpace
        match r4 with
        | 'S' :: r5 =>
          let sp := r5.takeWhile isJsSpace
          if sp.isEmpty then false
          else
            match dropLit (r5.drop sp.length) ['T','A','R','I','F','F'] with
            | some _ => true
            | none => false
        | _ => false
      else false
    | [] => false
where
  dropLit : List Char → List Char → Option (List Char)
    | cs, [] => some cs
    | [], _ :: _ => none
    | c :: cs, l :: ls => if c = l then dropLit cs ls else none

/-- `/^[-\s]*$/.test`. -/
def dashSpaceTest (s : String) : Bool :=
  s.toList.all (fun c => c = '-' || isJsSpace c)

/-- Search for `(\d{2})\/(\d{2})\/(\d{4})` (unanchored, leftmost match);
returns the three captures. -/
def findDateDDMMYYYY (s : String) : Option (String × String × String) :=
  go s.toList
where
  matchAt : List Char → Option (String × String × String)
    | d1 :: d2 :: '/' :: m1 :: m2 :: '/' :: y1 :: y2 :: y3 :: y4 :: _ =>
      if isDigit d1 && isDigit d2 && isDigit m1 && isDigit m2 &&
          isDigit y1 && isDigit y2 && isDigit y3 && isDigit y4 then
        some (String.mk [d1, d2], String.mk [m1, m2], String.mk [y1, y2, y3, y4])
      else none
    | _ => none
  go : List Char → Option (String × String × String)
    | [] => none
    | c :: cs =>
      match matchAt (c :: cs) with
      | some r => some r
      | none => go cs

/-- Search for `/Invoice\s+(\w+)/i` (unanchored, leftmost match); returns the
captured word. -/
def findInvoiceNo (s : String) : Option String :=
  go s.toList
where
  matchAt (cs : List Char) : Option String :=
    match dropCi cs ['i','n','v','o','i','c','e'] with
    | none => none
    | some r =>
      let sp := r.takeWhile isJsSpace
      if sp.isEmpty then none
      else
        let w := (r.drop sp.length).takeWhile isWordChar
        if w.isEmpty then none else some (String.mk w)
  dropCi : List Char → List Char → Option (List Char)
    | cs, [] => some cs
    | [], _ :: _ => none
    | c :: cs, l :: ls => if jsToLowerChar c = l then dropCi cs ls else none
  go : List Char → Option String
    | [] => none
    | c :: cs =>
      match matchAt (c :: cs) with
      | some r => some r
      | none => go cs

/-- `String.prototype.lastIndexOf` for a single character (−1 if absent). -/
def lastIdxOf (s : String) (c : Char) : ℤ :=
  go s.toList 0 (-1)
where
  go : List Char → ℤ → ℤ → ℤ
    | [], _, best => best
    | d :: ds, i, best => go ds (i + 1) (if d = c then i else best)

/-- `s.split(/[.,]/)` (keeps empty fragments, as JavaScript does). -/
def splitSeps (s : String) : List String :=
  (go s.toList).map String.mk
where
  go : List Char → List (List Char)
    | [] => [[]]
    | c :: cs =>
      if isSepChar c then [] :: go cs
      else
        match go cs with
        | [] => [[c]]
        | p :: ps => (c :: p) :: ps

/-! ### YamamotoParser (pdfParsing.server.ts 262–647) -/

namespace YamamotoParser

/-- `extractMetadata` (lines 320–342): scan each line, set the invoice date on
the first `DD/MM/YYYY` match, overwrite the invoice number on each
`Invoice <word>` match; shipping fees stay line items (none extracted). -/
def extractMetadata (textLines : List TextLine) (result : ParsedInvoiceData) :
    ParsedInvoiceData :=
  textLines.foldl
    (fun acc line =>
      let md := acc.invoiceMetadata
      let md :=
        match findDateDDMMYYYY line.text, md.invoiceDate with
        | some (day, month, year), none =>
          { md with invoiceDate := some (year ++ "-" ++ month ++ "-" ++ day) }
        | _, _ => md
      let md :=
        match findInvoiceNo line.text with
        | some no => { md with invoiceNumber := some no }
        | none => md
      { acc with invoiceMetadata := md })
    result

/-- `setupColumnDetection` (lines 361–387): map header token positions to
semantic columns. -/
def setupColumnDetection (headerLine : TextLine) : List (String × JsNum) :=
  let headerElements := jsSortLe (fun a b => a.x ≤ b.x) headerLine.items
  headerElements.foldl
    (fun thresholds element =>
      let text := jsToUpper element.text
      if jsIncludes text "ITEM" || jsIncludes text "SKU" || jsIncludes text "CODE" then
        setKey thresholds "sku" element.x
      else if jsIncludes text "DESCRIPTION" || jsIncludes text "PRODUCT" then
        setKey thresholds "description" element.x
      else if jsIncludes text "Q" && !(jsIncludes text "UNIT") then
        setKey thresholds "quantity" element.x
      else if jsIncludes text "UNIT PRICE" || jsIncludes text "PREZZO" then
        setKey thresholds "unitPrice" element.x
      else if jsIncludes text "AMOUNT" || jsIncludes text "TOTAL" then
        setKey thresholds "total" element.x
      else thresholds)
    []
where
  setKey (l : List (String × JsNum)) (k : String) (v : JsNum) : List (String × JsNum) :=
    if l.any (fun p => p.1 = k) then
      l.map (fun p => if p.1 = k then (k, v) else p)
    else l ++ [(k, v)]

/-- `detectTableHeader` (lines 344–359): first line containing ITEM,
DESCRIPTION and UNIT PRICE sets up the column thresholds (state that the
SKU-based row extraction never reads). -/
def detectTableHeader (textLines : List TextLine) : List (String × JsNum) :=
  match textLines.find? (fun line =>
    let text := jsToUpper line.text
    jsIncludes text "ITEM" && jsIncludes text "DESCRIPTION" &&
      jsIncludes text "UNIT PRICE") with
  | some line => setupColumnDetection line
  | none => []

/-- `parseNumber` (lines 529–549): trim, strip a leading minus, first comma to
dot, `parseFloat`, 3-decimal rounding.  `none` models `NaN`. -/
def parseNumber (numberText : String) : Option JsNum :=
  let normalized := jsTrim numberText
  let isNegative := jsStartsWith normalized "-"
  let n1 := if isNegative then String.mk (normalized.toList.drop 1) else normalized
  let n2 := replaceFirstChar n1 ',' '.'
  match jsParseFloat n2 with
  | none => none
  | some r => some (round3 (if isNegative then -r else r))

/-- `parsePrice` (lines 602–646): resolve thousands/decimal separators, then
`parseFloat` and 2-decimal rounding.  `none` models `NaN`. -/
def parsePrice (priceText : String) : Option JsNum :=
  let normalized := jsTrim priceText
  let isNegative := jsStartsWith normalized "-"
  let n1 := if isNegative then String.mk (normalized.toList.drop 1) else normalized
  let sepCount := (n1.toList.filter isSepChar).length
  let n2 :=
    if sepCount > 1 then
      if jsIncludes n1 "," && lastIdxOf n1 ',' > lastIdxOf n1 '.' then
        replaceFirstChar (removeChars n1 (fun c => c = '.')) ',' '.'
      else if jsIncludes n1 "." && lastIdxOf n1 '.' > lastIdxOf n1 ',' then
        removeChars n1 (fun c => c = ',')
      else n1
    else
      let parts := splitSeps n1
      if parts.length = 2 && (parts.getD 1 "").length = 2 then
        replaceFirstChar n1 ',' '.'
      else n1
  match jsParseFloat n2 with
  | none => none
  | some r => some (round2 (if isNegative then -r else r))

/-- `extractDescription` (lines 476–498). -/
def extractDescription (elements : List Tok) : String :=
  let descriptions := elements.filterMap (fun element =>
    let text := element.text
    if skuTest text then none
    else if pzIntTest text then none
    else if digitsSepTwoTest text then none
    else if customTariffTest text then none
    else if eightDigitsTest text then none
    else if niEscTest text then none
    else if text.length > 2 && !(dashSpaceTest text) then some text
    else none)
  collapseSpaces (jsTrim (String.intercalate " " descriptions))

/-- `extractQuantity` (lines 500–527). -/
def extractQuantity (elements : List Tok) : Option JsNum :=
  match elements.findSome? (fun element =>
    match pzQtyCapture element.text with
    | some cap => some cap
    | none => none) with
  | some cap => parseNumber cap
  | none =>
    match elements.find? (fun el => el.text = "PZ") with
    | none => none
    | some pzElement =>
      let numberElements := elements.filter (fun el => numFullTest el.text)
      match numberElements with
      | [] => none
      | first :: rest =>
        let closest := rest.foldl
          (fun prev curr =>
            if jsAbs (curr.x - pzElement.x) < jsAbs (prev.x - pzElement.x) then curr
            else prev)
          first
        parseNumber closest.text

/-- `extractUnitPrice` (lines 551–580): among price-shaped tokens sorted by x,
take the middle one of three (or more), or the first of two. -/
def extractUnitPrice (elements : List Tok) : Option JsNum :=
  let priceElements := jsSortLe (fun a b => a.x ≤ b.x)
    (elements.filter (fun el => priceShapeTest (jsTrim el.text)))
  if priceElements.length ≥ 3 then
    match priceElements.drop 1 with
    | el :: _ => parsePrice el.text
    | [] => none
  else if priceElements.length = 2 then
    match priceElements with
    | el :: _ => parsePrice el.text
    | [] => none
  else none

/-- `extractTotal` (lines 582–600): the rightmost price-shaped token. -/
def extractTotal (elements : List Tok) : Option JsNum :=
  let priceElements := jsSortLe (fun a b => a.x ≤ b.x)
    (elements.filter (fun el => priceShapeTest (jsTrim el.text)))
  match priceElements.getLast? with
  | some el => parsePrice el.text
  | none => none

/-- `parseRowElements` (lines 433–474).  The quantity/price truthiness guard
(`!quantity || !unitPrice || !total`) rejects `NaN`/`null` (modelled `none`)
and the value `0`; the mismatch between `quantity × unitPrice` and the parsed
total is logged as a warning only, and the parsed total is kept. -/
def parseRowElements (skuElement : Tok) (rowElements : List Tok) : Option LineItem :=
  let sortedElements := jsSortLe (fun a b => a.x ≤ b.x) rowElements
  let sku := jsTrim skuElement.text
  let description := extractDescription sortedElements
  let quantity := extractQuantity sortedElements
  let unitPrice := extractUnitPrice sortedElements
  let total := extractTotal sortedElements
  match quantity, unitPrice, total with
  | some q, some u, some t =>
    if q = 0 || u = 0 || t = 0 then none
    else
      some { supplierSku := sku
             description := if description = "" then none else some description
             quantity := q
             unitPrice := u
             total := t }
  | _, _, _ => none

/-- `parseLineItemsBySku` (lines 389–431): flatten all elements (trimming each
text), anchor on SKU-shaped tokens, gather each anchor's row by `|y−y₀| ≤ 0.5`
and parse it. -/
def parseLineItemsBySku (textLines : List TextLine) : List LineItem :=
  let allTextElements := textLines.flatMap
    (fun line => line.items.map (fun it => { it with text := jsTrim it.text }))
  let skuElements := allTextElements.filter (fun element => skuTest element.text)
  skuElements.filterMap (fun skuElement =>
    let rowElements := allTextElements.filter
      (fun element => jsAbs (element.y - skuElement.y) ≤ (0.5 : JsNum))
    parseRowElements skuElement rowElements)

/-- `parse` (lines 266–318). -/
def parse (textLines : List TextLine) : PdfExtractionResult :=
  let result0 : ParsedInvoiceData :=
    { invoiceMetadata := { currency := "EUR", shippingFee := 0 }, lineItems := [] }
  let result1 := extractMetadata textLines result0
  let _thresholds := detectTableHeader textLines
  let lineItems := parseLineItemsBySku textLines
  { success := true
    data := some { result1 with lineItems := lineItems }
    warnings := if lineItems.length = 0 then some ["No line items found"] else none }

end YamamotoParser

/-! ### Rolling 32-bit hash and pseudo-SKU generators -/

/-- Truncation to a signed 32-bit integer (the JavaScript `| 0` / `x & x`
coercion). -/
def toInt32 (n : ℤ) : ℤ := (n + 2 ^ 31) % 2 ^ 32 - 2 ^ 31

/-- One step of the rolling hash `hash = ((hash << 5) - hash) + char;
hash = hash & hash` (the shift wraps at 32 bits, the final `&` coerces the
exact sum back to 32 bits).  Characters contribute their UTF-16 code unit,
modelled by the code point (all texts here are in the basic plane). -/
def simpleHashStep (hash : ℤ) (c : Char) : ℤ :=
  toInt32 (toInt32 (hash * 32) - hash + c.toNat)

/-- `simpleHash` (pdfParsing.server.ts 3702–3710, and the identical loop of
`PythonTableParser.generatePseudoSku`). -/
def simpleHash (s : String) : ℤ := s.toList.foldl simpleHashStep 0

/-- Digit characters for `Number.prototype.toString(radix)` (lowercase). -/
def radixDigit (n : ℕ) : Char :=
  if n < 10 then Char.ofNat ('0'.toNat + n) else Char.ofNat ('a'.toNat + n - 10)

/-- Base-`b` digits, least significant first; the fuel argument (any bound on
the digit count, here the number itself + 1) keeps the recursion structural. -/
def natToBaseGo (b : ℕ) : ℕ → ℕ → List Char
  | 0, _ => []
  | fuel + 1, n => if n = 0 then [] else radixDigit (n % b) :: natToBaseGo b fuel (n / b)

/-- `n.toString(b)` for natural `n`. -/
def natToBase (b : ℕ) (n : ℕ) : String :=
  if n = 0 then "0" else String.mk ((natToBaseGo b (n + 1) n).reverse)

/-- `generateSkuFromDescription` (pdfParsing.server.ts 3694–3699):
`GEN_` + first 10 alphanumerics uppercased + `_` + 3 base-36 hash chars. -/
def generateSkuFromDescription (description : String) : String :=
  let clean := String.mk ((jsToUpper (removeChars description
    (fun c => !(c.isAlphanum)))).toList.take 10)
  let hash := String.mk ((natToBase 36 (simpleHash description).natAbs).toList.take 3)
  "GEN_" ++ clean ++ "_" ++ hash

/-- `PythonTableParser.generatePseudoSku` (PDF_PARSING_README.md 1277–1289):
`RABEKO_` + first 8 uppercase hex chars of the absolute rolling hash. -/
def generatePseudoSku (description : String) : String :=
  let positiveHash := String.mk
    ((jsToUpper (natToBase 16 (simpleHash description).natAbs)).toList.take 8)
  "RABEKO_" ++ positiveHash

/-! ### The earlier text-based Yamamoto parser
(the related module at pdfParsing.server.ts 3554–3711) -/

namespace LegacyYamamoto

/-- Leftmost match of `^([A-Z0-9]+)\s+(.+?)\s+PZ`: group 1 is forced to the
maximal leading `[A-Z0-9]` run (a shorter run would put a class character
under `\s+`), the first `\s+` is greedy (longest first), the lazy `(.+?)`
shortest first; `.` excludes line terminators. -/
def skuSplitMatch (cs : List Char) : Option (List Char × List Char) :=
  let g1 := cs.takeWhile (fun c => isUpperAZ c || isDigit c)
  if g1.isEmpty then none
  else
    let rest := cs.drop g1.length
    let maxSp := (rest.takeWhile isJsSpace).length
    ((List.range maxSp).map (fun i => maxSp - i)).findSome? (fun s =>
      let tail := rest.drop s
      (List.range tail.length).findSome? (fun j =>
        let x := tail.take (j + 1)
        if x.all (fun c => c ≠ '\n' && c ≠ '\r') then
          let rem := tail.drop (j + 1)
          let sp2 := rem.takeWhile isJsSpace
          match sp2.isEmpty, rem.drop sp2.length with
          | false, 'P' :: 'Z' :: _ => some (g1, x)
          | _, _ => none
        else none))

/-- Leftmost match of `^(.+?)\s+PZ` (lazy group shortest first). -/
def noSkuMatch (cs : List Char) : Option (List Char) :=
  (List.range cs.length).findSome? (fun j =>
    let x := cs.take (j + 1)
    if x.all (fun c => c ≠ '\n' && c ≠ '\r') then
      let rem := cs.drop (j + 1)
      let sp2 := rem.takeWhile isJsSpace
      match sp2.isEmpty, rem.drop sp2.length with
      | false, 'P' :: 'Z' :: _ => some x
      | _, _ => none
    else none)

/-- Leftmost match of `PZ\s+(\d+[.,]\d+|\d+)` (unanchored search); the first
alternative is preferred, each `\d+` is greedy over its whole digit run. -/
def qtyMatch : List Char → Option (List Char)
  | [] => none
  | 'P' :: 'Z' :: rest =>
    let sp := rest.takeWhile isJsSpace
    let num := rest.drop sp.length
    let d1 := num.takeWhile isDigit
    if sp.isEmpty || d1.isEmpty then qtyMatch ('Z' :: rest)
    else
      match num.drop d1.length with
      | sep :: more =>
        let d2 := more.takeWhile isDigit
        if isSepChar sep && !d2.isEmpty then some (d1 ++ sep :: d2)
        else some d1
      | [] => some d1
  | _ :: rest => qtyMatch rest

/-- One attempt of `-?\d+[.,]\d{2}` at the current position; on success
returns the matched characters and the remainder after the match. -/
def matchPriceAt (cs : List Char) : Option (List Char × List Char) :=
  let (pre, body) :=
    match cs with
    | '-' :: rest => (['-'], rest)
    | _ => (([] : List Char), cs)
  let d1 := body.takeWhile isDigit
  if d1.isEmpty then none
  else
    match body.drop d1.length with
    | sep :: a :: b :: rest =>
      if isSepChar sep && isDigit a && isDigit b then
        some (pre ++ d1 ++ [sep, a, b], rest)
      else none
    | _ => none

/-- `text.match(/(-?\d+[.,]\d{2})/g)`: all non-overlapping leftmost matches.
The fuel (list length) keeps the recursion structural; each step consumes at
least one character. -/
def priceScanGo : ℕ → List Char → List (List Char)
  | 0, _ => []
  | _ + 1, [] => []
  | fuel + 1, c :: cs =>
    match matchPriceAt (c :: cs) with
    | some (m, rest) => m :: priceScanGo fuel rest
    | none => priceScanGo fuel cs

def priceMatches (s : String) : List String :=
  (priceScanGo s.toList.length s.toList).map String.mk

/-- `parseYamamotoLineItem` (lines 3638–3691).  The `parseFloat` calls cannot
fail on the captured shapes; the impossible branches return `none`. -/
def parseYamamotoLineItem (text : String) : Option LineItem :=
  let skuDesc : Option (String × String) :=
    match skuSplitMatch text.toList with
    | some (g1, g2) => some (String.mk g1, jsTrim (String.mk g2))
    | none =>
      match noSkuMatch text.toList with
      | some g1 =>
        let description := jsTrim (String.mk g1)
        some (generateSkuFromDescription description, description)
      | none => none
  match skuDesc with
  | none => none
  | some (sku, description) =>
    match qtyMatch text.toList with
    | none => none
    | some qcap =>
      let prices := priceMatches text
      if prices.length < 2 then none
      else
        match jsParseFloat (replaceFirstChar ((prices.drop (prices.length - 2)).headD "") ',' '.'),
              jsParseFloat (replaceFirstChar (prices.getLastD "") ',' '.'),
              jsParseFloat (replaceFirstChar (String.mk qcap) ',' '.') with
        | some unitPrice, some total, some quantity =>
          some { supplierSku := sku
                 description := if description = "" then none else some description
                 quantity := quantity
                 unitPrice := unitPrice
                 total := total }
        | _, _, _ => none

end LegacyYamamoto

/-! ### GenericParser (pdfParsing.server.ts 1795–1847) and parser selection -/

/-- Search for `(\d{1,2})[\/\-\.](\d{1,2})[\/\-\.](\d{4})` (leftmost match,
greedy day/month lengths backtracking 2 then 1). -/
def findDateLoose (s : String) : Option (String × String × String) :=
  go s.toList
where
  isDateSep (c : Char) : Bool := c = '/' || c = '-' || c = '.'
  grab (cs : List Char) (n : ℕ) : Option (List Char × List Char) :=
    let ds := cs.take n
    if ds.length = n && ds.all isDigit then some (ds, cs.drop n) else none
  tryAt (cs : List Char) : Option (String × String × String) :=
    ([2, 1] : List ℕ).findSome? (fun dl =>
      match grab cs dl with
      | none => none
      | some (day, r1) =>
        match r1 with
        | sep1 :: r2 =>
          if isDateSep sep1 then
            ([2, 1] : List ℕ).findSome? (fun ml =>
              match grab r2 ml with
              | none => none
              | some (month, r3) =>
                match r3 with
                | sep2 :: r4 =>
                  if isDateSep sep2 then
                    match grab r4 4 with
                    | some (year, _) => some (String.mk day, String.mk month, String.mk year)
                    | none => none
                  else none
                | [] => none)
          else none
        | [] => none)
  go : List Char → Option (String × String × String)
    | [] => none
    | c :: cs =>
      match tryAt (c :: cs) with
      | some r => some r
      | none => go cs

namespace GenericParser

/-- `parse` (lines 1796–1847): keep every line as raw text, extract at most a
first loosely-formatted date, and always warn that manual review is needed. -/
def parse (textLines : List TextLine) : PdfExtractionResult :=
  let invoiceDate :=
    match textLines.findSome? (fun line => findDateLoose line.text) with
    | some (day, month, year) => some (year ++ "-" ++ month ++ "-" ++ day)
    | none => none
  { success := true
    data := some
      { invoiceMetadata :=
          { currency := "EUR", shippingFee := 0, invoiceDate := invoiceDate }
        lineItems := []
        rawText := some (textLines.map TextLine.text) }
    warnings := some ["Generic parser used - manual review recommended"] }

end GenericParser

/-- The parsing strategies (`selectParser` returns one of these). -/
inductive ParserKind where
  | yamamoto
  | bolero
  | swanson
  | maiavie
  | addict
  | generic
  deriving DecidableEq

/-- `selectParser` (pdfParsing.server.ts 234–260). -/
def selectParser (supplierName : String) : ParserKind :=
  let normalizedName := jsTrim (jsToLower supplierName)
  if jsIncludes normalizedName "yamamoto" || jsIncludes normalizedName "iaf" then
    ParserKind.yamamoto
  else if jsIncludes normalizedName "bolero" then ParserKind.bolero
  else if jsIncludes normalizedName "swanson" then ParserKind.swanson
  else if jsIncludes normalizedName "maiavie" then ParserKind.maiavie
  else if jsIncludes normalizedName "addict" then ParserKind.addict
  else ParserKind.generic

/-! ### SwansonParser (pdfParsing.server.ts 649–1027) -/

namespace SwansonParser

/-- `/^SW[A-Z]*\d+/.test` — the maximal uppercase run after `SW` must be
followed by a digit. -/
def swSkuTest (s : String) : Bool :=
  jsStartsWith s "SW" &&
    (let r := s.toList.drop 2
     let u := r.takeWhile isUpperAZ
     !((r.drop u.length).takeWhile isDigit).isEmpty)

/-- `/^\d+$/.test`. -/
def allDigitsTest (s : String) : Bool :=
  !s.toList.isEmpty && s.toList.all isDigit

/-- Search for `Date:\s*(\d{4}-\d{2}-\d{2})` (leftmost). -/
def findSwansonDate (s : String) : Option String :=
  go s.toList
where
  matchAt (cs : List Char) : Option String :=
    match cs with
    | 'D' :: 'a' :: 't' :: 'e' :: ':' :: rest =>
      let r := rest.dropWhile isJsSpace
      match r with
      | y1 :: y2 :: y3 :: y4 :: '-' :: m1 :: m2 :: '-' :: d1 :: d2 :: _ =>
        if isDigit y1 && isDigit y2 && isDigit y3 && isDigit y4 &&
            isDigit m1 && isDigit m2 && isDigit d1 && isDigit d2 then
          some (String.mk [y1, y2, y3, y4, '-', m1, m2, '-', d1, d2])
        else none
      | _ => none
    | _ => none
  go : List Char → Option String
    | [] => none
    | c :: cs =>
      match matchAt (c :: cs) with
      | some r => some r
      | none => go cs

/-- Search for `No:\s*(\w+)` (leftmost). -/
def findSwansonNo (s : String) : Option String :=
  go s.toList
where
  matchAt (cs : List Char) : Option String :=
    match cs with
    | 'N' :: 'o' :: ':' :: rest =>
      let r := rest.dropWhile isJsSpace
      let w := r.takeWhile isWordChar
      if w.isEmpty then none else some (String.mk w)
    | _ => none
  go : List Char → Option String
    | [] => none
    | c :: cs =>
      match matchAt (c :: cs) with
      | some r => some r
      | none => go cs

/-- Search for `(\d+[.,]\d{2})` (leftmost; greedy digit run, separator, then
exactly two digits). -/
def findPriceToken (s : String) : Option String :=
  go s.toList
where
  matchAt (cs : List Char) : Option String :=
    let d1 := cs.takeWhile isDigit
    if d1.isEmpty then none
    else
      match cs.drop d1.length with
      | sep :: a :: b :: _ =>
        if isSepChar sep && isDigit a && isDigit b then
          some (String.mk (d1 ++ [sep, a, b]))
        else none
      | _ => none
  go : List Char → Option String
    | [] => none
    | c :: cs =>
      match matchAt (c :: cs) with
      | some r => some r
      | none => go cs

/-- `extractMetadata` (lines 709–749). -/
def extractMetadata (textLines : List TextLine) (result : ParsedInvoiceData) :
    ParsedInvoiceData :=
  textLines.foldl
    (fun acc line =>
      let text := line.text
      let md := acc.invoiceMetadata
      let md :=
        match findSwansonDate text, md.invoiceDate with
        | some d, none => { md with invoiceDate := some d }
        | _, _ => md
      let md :=
        match findSwansonNo text with
        | some no => { md with invoiceNumber := some no }
        | none => md
      let lowerText := jsToLower text
      let md :=
        if jsIncludes lowerText "shipping" || jsIncludes lowerText "delivery" ||
            jsIncludes lowerText "transport" || jsIncludes lowerText "freight" ||
            jsIncludes lowerText "spedizione" || jsIncludes lowerText "envío" ||
            jsIncludes lowerText "livraison" then
          match findPriceToken text with
          | some p =>
            match jsParseFloat (replaceFirstChar p ',' '.') with
            | some shippingAmount =>
              if (0 : JsNum) < shippingAmount then
                { md with shippingFee := shippingAmount }
              else md
            | none => md
          | none => md
        else md
      { acc with invoiceMetadata := md })
    result

/-- `setupColumnDetection` (lines 769–790). -/
def setupColumnDetection (headerLine : TextLine) : List (String × JsNum) :=
  let headerElements := jsSortLe (fun a b => a.x ≤ b.x) headerLine.items
  headerElements.foldl
    (fun thresholds element =>
      let text := jsToUpper element.text
      if jsIncludes text "SKU" then setKey thresholds "sku" element.x
      else if jsIncludes text "NAME" then setKey thresholds "description" element.x
      else if jsIncludes text "QTY" then setKey thresholds "quantity" element.x
      else if jsIncludes text "UNIT PRICE" || jsIncludes text "PRICE" then
        setKey thresholds "unitPrice" element.x
      else if jsIncludes text "AMOUNT" then setKey thresholds "total" element.x
      else thresholds)
    []
where
  setKey (l : List (String × JsNum)) (k : String) (v : JsNum) : List (String × JsNum) :=
    if l.any (fun p => p.1 = k) then
      l.map (fun p => if p.1 = k then (k, v) else p)
    else l ++ [(k, v)]

/-- `detectTableHeader` (lines 751–767). -/
def detectTableHeader (textLines : List TextLine) : List (String × JsNum) :=
  match textLines.find? (fun line =>
    let text := jsToUpper line.text
    jsIncludes text "SKU" && jsIncludes text "NAME" && jsIncludes text "QTY" &&
      jsIncludes text "UNIT PRICE") with
  | some line => setupColumnDetection line
  | none => []

/-- `reconstructSwansonSku` (lines 842–863). -/
def reconstructSwansonSku (skuElement : Tok) (rowElements : List Tok) : String :=
  let sortedElements := jsSortLe (fun a b => a.x ≤ b.x)
    (rowElements.filter (fun el => skuElement.x < el.x && el.x < skuElement.x + 5))
  match sortedElements.findSome? (fun element =>
    let text := jsTrim element.text
    if (text.length = 1 || text.length = 2) &&
        text.toList.all (fun c => isUpperAZ c || isDigit c) &&
        element.x < skuElement.x + 3 then
      some text
    else none) with
  | some frag => skuElement.text ++ frag
  | none => skuElement.text

/-- `/^\d+[.,]\d+\s*€?$/.test`. -/
def priceEuroTest (s : String) : Bool :=
  let cs := s.toList
  let d1 := cs.takeWhile isDigit
  if d1.isEmpty then false
  else
    match cs.drop d1.length with
    | sep :: rest =>
      let d2 := rest.takeWhile isDigit
      if !(isSepChar sep) || d2.isEmpty then false
      else
        let r2 := (rest.drop d2.length).dropWhile isJsSpace
        r2 = [] || r2 = ['€']
    | [] => false

/-- `/^\d{4}-\d{2}-\d{2}$/.test`. -/
def isoDateTest (s : String) : Bool :=
  match s.toList with
  | [y1, y2, y3, y4, '-', m1, m2, '-', d1, d2] =>
    isDigit y1 && isDigit y2 && isDigit y3 && isDigit y4 &&
      isDigit m1 && isDigit m2 && isDigit d1 && isDigit d2
  | _ => false

/-- `/^[-\s€]*$/.test`. -/
def dashSpaceEuroTest (s : String) : Bool :=
  s.toList.all (fun c => c = '-' || c = '€' || isJsSpace c)

/-- `extractSwansonDescription` (lines 913–933). -/
def extractSwansonDescription (elements : List Tok) : String :=
  let descriptions := elements.filterMap (fun element =>
    let text := element.text
    if swSkuTest text then none
    else if allDigitsTest text then none
    else if priceEuroTest text then none
    else if jsStartsWith text "€" then none
    else if isoDateTest text then none
    else if text.length > 1 && !(dashSpaceEuroTest text) then some text
    else none)
  collapseSpaces (jsTrim (String.intercalate " " descriptions))

/-- `/^\d+[.,]\d+$/.test`. -/
def decimalTest (s : String) : Bool :=
  let cs := s.toList
  let d1 := cs.takeWhile isDigit
  if d1.isEmpty then false
  else
    match cs.drop d1.length with
    | sep :: rest =>
      isSepChar sep && !rest.isEmpty && rest.all isDigit
    | [] => false

/-- `extractSwansonQuantity` (lines 935–968). -/
def extractSwansonQuantity (elements : List Tok) : Option JsNum :=
  let integerElements := jsSortLe (fun a b => a.2 ≤ b.2)
    ((elements.filter (fun el => allDigitsTest (jsTrim el.text))).filterMap
      (fun el =>
        match jsParseInt el.text with
        | some v => some (v, el.x)
        | none => none))
  if integerElements.isEmpty then none
  else
    let candidateQuantities := integerElements.filter
      (fun el => 10 ≤ el.1 && el.1 ≤ 1000)
    if !candidateQuantities.isEmpty then
      some (JsNum.ofInt (candidateQuantities.foldl (fun m el => max m el.1)
        (candidateQuantities.headD (0, 0)).1))
    else
      match integerElements.filter (fun el => 1 < el.1) with
      | el :: _ => some (JsNum.ofInt el.1)
      | [] => none

/-- `extractSwansonUnitPrice` (lines 970–986). -/
def extractSwansonUnitPrice (elements : List Tok) : Option JsNum :=
  let priceElements := jsSortLe (fun a b => a.x ≤ b.x)
    (elements.filter (fun el => decimalTest (jsTrim el.text)))
  match priceElements with
  | el :: _ => jsParseFloat (replaceFirstChar el.text ',' '.')
  | [] => none

/-- `/^€\s*(\d+(?:[.,]\d+)?)$/`: capture on success. -/
def euroAmountCapture (s : String) : Option String :=
  match s.toList with
  | '€' :: rest =>
    let r := rest.dropWhile isJsSpace
    let d1 := r.takeWhile isDigit
    if d1.isEmpty then none
    else
      match r.drop d1.length with
      | [] => some (String.mk d1)
      | sep :: more =>
        let d2 := more.takeWhile isDigit
        if isSepChar sep && !d2.isEmpty && more.drop d2.length = [] then
          some (String.mk (d1 ++ sep :: d2))
        else none
  | _ => none

/-- `calculateSwansonTotal` (lines 988–1026): the returned total is always the
computed `round2(unitPrice × quantity)`; the PDF total is only compared. -/
def calculateSwansonTotal (unitPrice quantity : JsNum) (elements : List Tok) :
    JsNum × Option JsNum × Option Bool :=
  let calculated := round2 (unitPrice * quantity)
  let pdfTotal := elements.foldl
    (fun acc el =>
      let text := jsTrim el.text
      let acc :=
        match euroAmountCapture text with
        | some cap =>
          match jsParseFloat (replaceFirstChar cap ',' '.') with
          | some value =>
            if unitPrice < value && quantity < value then some value else acc
          | none => acc
        | none => acc
      if decimalTest text then
        match jsParseFloat (replaceFirstChar text ',' '.') with
        | some value =>
          if unitPrice < value && quantity < value && (50 : JsNum) < value then some value
          else acc
        | none => acc
      else acc)
    none
  let matchesFlag :=
    match pdfTotal with
    | some t => if t = 0 then none else some (jsAbs (calculated - t) < (0.01 : JsNum))
    | none => none
  (calculated, pdfTotal, matchesFlag)

/-- `parseSwansonRowElements` (lines 865–911). -/
def parseSwansonRowElements (skuElement : Tok) (rowElements : List Tok)
    (completeSku : String) : Option LineItem :=
  let sortedElements := jsSortLe (fun a b => a.x ≤ b.x) rowElements
  let sku := completeSku
  let description := extractSwansonDescription sortedElements
  let quantity := extractSwansonQuantity sortedElements
  let unitPrice := extractSwansonUnitPrice sortedElements
  match quantity, unitPrice with
  | some q, some u =>
    if q = 0 || u = 0 then none
    else
      let totalInfo := calculateSwansonTotal u q sortedElements
      some { supplierSku := sku
             description := if description = "" then none else some description
             quantity := q
             unitPrice := u
             total := totalInfo.1 }
  | _, _ => none

/-- `parseLineItemsBySku` (lines 792–840). -/
def parseLineItemsBySku (textLines : List TextLine) : List LineItem :=
  let allTextElements := textLines.flatMap
    (fun line => line.items.map (fun it => { it with text := jsTrim it.text }))
  let skuElements := allTextElements.filter (fun element => swSkuTest element.text)
  skuElements.filterMap (fun skuElement =>
    let rowElements := allTextElements.filter
      (fun element => jsAbs (element.y - skuElement.y) ≤ (0.5 : JsNum))
    let completeSku := reconstructSwansonSku skuElement rowElements
    parseSwansonRowElements skuElement rowElements completeSku)

/-- `parse` (lines 653–707). -/
def parse (textLines : List TextLine) : PdfExtractionResult :=
  let result0 : ParsedInvoiceData :=
    { invoiceMetadata := { currency := "EUR", shippingFee := 0 }, lineItems := [] }
  let result1 := extractMetadata textLines result0
  let _thresholds := detectTableHeader textLines
  let lineItems := parseLineItemsBySku textLines
  { success := true
    data := some { result1 with lineItems := lineItems }
    warnings := if lineItems.length = 0 then some ["No line items found"] else none }

end SwansonParser

/-! ### Shared French-invoice helpers (Addict / Bolero / Maiavie) -/

/-- `([\s.,]\d{3})*[.,]\d{2,}$`: thousands groups (space, dot or comma
separated) ending in a decimal separator with two or more digits. -/
def groupsThenTwoPlus : List Char → Bool
  | [] => false
  | sep :: rest =>
    (isSepChar sep && decide (2 ≤ rest.length) && rest.all isDigit) ||
    (match rest with
     | d1 :: d2 :: d3 :: rest2 =>
       (isSepChar sep || isJsSpace sep) && isDigit d1 && isDigit d2 && isDigit d3 &&
         groupsThenTwoPlus rest2
     | _ => false)

/-- `isPriceLike` (pdfParsing.server.ts 3282–3290, and the identical versions
at 1765–1772 and 2851–2858): `/^-?\d{1,3}(?:[\s.,]\d{3})*[.,]\d{2,}$/` or
`/^-?\d+[.,]\d{2,}$/` on the trimmed text. -/
def isPriceLike (text : String) : Bool :=
  if text = "" then false
  else
    let t := (jsTrim text).toList
    let body := match t with
      | '-' :: rest => rest
      | _ => t
    let ds := body.takeWhile isDigit
    let withSpaces :=
      decide (1 ≤ ds.length) && decide (ds.length ≤ 3) && groupsThenTwoPlus (body.drop ds.length)
    let simple :=
      !ds.isEmpty &&
        (match body.drop ds.length with
         | sep :: rest => isSepChar sep && decide (2 ≤ rest.length) && rest.all isDigit
         | [] => false)
    withSpaces || simple

/-- `parsePrice` (pdfParsing.server.ts 3240–3280, identical at 1773–1792 and
2830–2849): strip currency/percent symbols and spaces, read an optional
leading minus, then interpret the string as euros+cents when a separator
sits three characters from the end (any other separators are thousands
grouping, non-digits are dropped), otherwise as whole euros. -/
def parsePriceFR (priceText : String) : JsNum :=
  let s := jsTrim priceText
  if s = "" then 0
  else
    let s := removeChars s (fun c => c = '€' || c = '$' || c = '£' || c = '%')
    let s := removeChars s isJsSpace
    let neg := jsStartsWith s "-"
    let s := if neg then String.mk (s.toList.drop 1) else s
    match s.toList.reverse with
    | b :: a :: sep :: prefixRev =>
      if isSepChar sep && isDigit a && isDigit b then
        let intDigits := prefixRev.reverse.filter isDigit
        if intDigits.isEmpty then 0
        else
          let cents : ℤ := (digitsToNat intDigits : ℤ) * 100 + (digitsToNat [a, b] : ℤ)
          mkRat (if neg then -cents else cents) 100
      else
        intEuros s neg
    | _ => intEuros s neg
where
  intEuros (s : String) (neg : Bool) : JsNum :=
    let d := s.toList.filter isDigit
    if d.isEmpty then 0
    else
      let cents : ℤ := (digitsToNat d : ℤ) * 100
      mkRat (if neg then -cents else cents) 100

/-- `parseNumber` (pdfParsing.server.ts 3234–3238, identical at 1760–1763 and
2824–2828): drop whitespace, first comma to dot, `parseFloat`. -/
def parseNumberFR (text : String) : Option JsNum :=
  jsParseFloat (replaceFirstChar (removeChars text isJsSpace) ',' '.')

/-- `/^-?\d+(?:[.,]\d+)?$/.test`. -/
def plainNumberTest (s : String) : Bool := numShapeStrict s.toList
where
  numShapeStrict (cs : List Char) : Bool :=
    let body := match cs with
      | '-' :: rest => rest
      | _ => cs
    let ds := body.takeWhile isDigit
    if ds.isEmpty then false
    else
      match body.drop ds.length with
      | [] => true
      | sep :: rest => isSepChar sep && !rest.isEmpty && rest.all isDigit

/-- `/^-?\d{1,3}(?:[.,]\d{3})*[.,]\d{2,}$/.test` (no space separators; used by
the continuation-description filters). -/
def priceNoSpaceTest (s : String) : Bool :=
  let t := s.toList
  let body := match t with
    | '-' :: rest => rest
    | _ => t
  let ds := body.takeWhile isDigit
  decide (1 ≤ ds.length) && decide (ds.length ≤ 3) && go (body.drop ds.length)
where
  go : List Char → Bool
    | [] => false
    | sep :: rest =>
      (isSepChar sep && decide (2 ≤ rest.length) && rest.all isDigit) ||
      (match rest with
       | d1 :: d2 :: d3 :: rest2 =>
         isSepChar sep && isDigit d1 && isDigit d2 && isDigit d3 && go rest2
       | _ => false)

/-- `/^q\.?$/i.test`. -/
def qDotTest (s : String) : Bool :=
  jsToLower s = "q" || jsToLower s = "q."

/-- Decimal rendering of the JavaScript number `a` (`${q}` interpolation).
All numbers interpolated by the embedded code are decimal fractions; the
final branch is unreachable for them. -/
def jsNumToString (a : JsNum) : String :=
  let sign := if a.q.num < 0 then "-" else ""
  let n := a.q.num.natAbs
  let d := a.q.den
  if d = 1 then sign ++ natToBase 10 n
  else
    match (List.range 30).findSome? (fun i =>
      let k := i + 1
      if d ∣ 10 ^ k then some k else none) with
    | some k =>
      let scaled := n * (10 ^ k / d)
      let ip := scaled / 10 ^ k
      let fp := scaled % 10 ^ k
      let fdigits := natToBase 10 fp
      let pad := String.mk (List.replicate (k - fdigits.length) '0')
      sign ++ natToBase 10 ip ++ "." ++ pad ++ fdigits
    | none => sign ++ natToBase 10 n ++ "/" ++ natToBase 10 d

/-- One attempt of the quantity-cleanup body at position `j`:
`q(\.0+)?(\s|$)`; returns the end of the match. -/
def stripQtyBodyAt (qcs cs : List Char) (j : ℕ) : Option ℕ :=
  if qcs.isPrefixOf (cs.drop j) then
    let j2 := j + qcs.length
    let cands :=
      match cs.drop j2 with
      | '.' :: more =>
        let zs := more.takeWhile (fun c => c = '0')
        if zs.isEmpty then [j2] else [j2 + 1 + zs.length, j2]
      | _ => [j2]
    cands.findSome? (fun e =>
      match cs.drop e with
      | [] => some e
      | c :: _ => if isJsSpace c then some (e + 1) else none)
  else none

/-- `description.replace(new RegExp("(?:^|\\s)" + q + "(?:\\.0+)?(?:\\s|$)"), " ")`:
remove the first standalone occurrence of the quantity token (the dynamic
regex built from the quantity in the row-cleanup code). -/
def stripQtyToken (qstr s : String) : String :=
  let cs := s.toList
  let qcs := qstr.toList
  match (List.range (cs.length + 1)).findSome? (fun i =>
    let viaStart :=
      if i = 0 then
        match stripQtyBodyAt qcs cs 0 with
        | some e => some (0, e)
        | none => none
      else none
    match viaStart with
    | some r => some r
    | none =>
      match cs.drop i with
      | c :: _ =>
        if isJsSpace c then
          match stripQtyBodyAt qcs cs (i + 1) with
          | some e => some (i, e)
          | none => none
        else none
      | [] => none) with
  | some (s0, e0) => String.mk (cs.take s0 ++ ' ' :: cs.drop e0)
  | none => s

/-! ### AddictParser (pdfParsing.server.ts 2861–3352) -/

namespace AddictParser

/-- `getNear` inside `parseRow`: trimmed nonempty texts of elements within 2.5
of the column x. -/
def getNear (els : List Tok) (target : Option JsNum) : List String :=
  match target with
  | none => []
  | some t =>
    ((els.filter (fun e => jsAbs (e.x - t) < (2.5 : JsNum))).map
      (fun e => jsTrim e.text)).filter (fun s => s ≠ "")

/-- `parsePriceNearColumn` (lines 3148–3206).  `parsePrice` always yields a
number here, so the candidate (or first window token) is always accepted. -/
def parsePriceNearColumn (elements : List Tok) (xThreshold : Option JsNum) :
    Option JsNum :=
  match xThreshold with
  | none => none
  | some t =>
    let within := ((jsSortLe (fun a b => a.x ≤ b.x)
        (elements.filter (fun e => jsAbs (e.x - t) < (3.5 : JsNum)))).map
      (fun e => (e.x, jsTrim e.text))).filter (fun e => e.2 ≠ "")
    if within.isEmpty then none
    else
      let singles := within.filter (fun tok => isPriceLike tok.2)
      let merged := (List.range (within.length - 1)).filterMap (fun i =>
        let a := within.getD i (0, "")
        let b := within.getD (i + 1) (0, "")
        let m := a.2 ++ b.2
        if isPriceLike m then some (((a.1 + b.1) / (2 : JsNum)), m) else none)
      let candidates := singles ++ merged
      match candidates with
      | first :: rest =>
        let best := rest.foldl
          (fun acc cur => if jsAbs (cur.1 - t) < jsAbs (acc.1 - t) then cur else acc)
          first
        some (parsePriceFR best.2)
      | [] =>
        match within with
        | tok :: _ => some (parsePriceFR tok.2)
        | [] => none

/-- `getContinuationDescription` (lines 3208–3232). -/
def getContinuationDescription (elements : List Tok)
    (descX qtyX : Option JsNum) : String :=
  match descX, qtyX with
  | some dx, some qx =>
    let texts := ((elements.filter (fun e =>
        dx - (0.5 : JsNum) ≤ e.x && e.x < qx - (0.5 : JsNum))).map
      (fun e => jsTrim e.text)).filter (fun t =>
        t ≠ "" && !(qDotTest t) && jsToLower t ≠ "pu" &&
          !(plainNumberTest t) && !(priceNoSpaceTest t))
    collapseSpaces (String.intercalate " " texts) |> jsTrim
  | _, _ => ""

/-- `parseRow` (lines 3052–3146). -/
def parseRow (elements : List Tok)
    (skuX descX qtyX unitX totalX : Option JsNum) : Option LineItem :=
  let els := jsSortLe (fun a b => a.x ≤ b.x) elements
  let sku :=
    match (getNear els skuX).find? (fun s =>
      !(jsIncludes (jsToLower s) "libell") && !(qDotTest s) && jsToLower s ≠ "pu") with
    | some s => s
    | none => ""
  if sku = "" then none
  else
    let description :=
      match descX, qtyX with
      | some dx, some qx =>
        let descTexts := ((els.filter (fun e =>
            dx - (0.5 : JsNum) ≤ e.x && e.x < qx - (0.5 : JsNum))).map
          (fun e => jsTrim e.text)).filter (fun t =>
            t ≠ "" && !(qDotTest t) && jsToLower t ≠ "pu" &&
              !(plainNumberTest t) && !(isPriceLike t))
        collapseSpaces (String.intercalate " " descTexts) |> jsTrim
      | _, _ => ""
    let quantity := (getNear els qtyX).findSome? parseNumberFR
    let unitPrice0 := parsePriceNearColumn els unitX
    let total0 := parsePriceNearColumn els totalX
    let priceTokens :=
      if unitPrice0.isNone || total0.isNone then
        ((els.filter (fun e =>
            match qtyX with
            | none => true
            | some qx => qx < e.x)).map (fun e => jsTrim e.text)).filter isPriceLike
      else []
    let unitPrice :=
      match unitPrice0 with
      | some u => some u
      | none =>
        match priceTokens with
        | t :: _ => some (parsePriceFR t)
        | [] => none
    let total :=
      match total0 with
      | some t => some t
      | none =>
        match priceTokens.getLast? with
        | some t => some (parsePriceFR t)
        | none => none
    match quantity, unitPrice, total with
    | some q, some u, some t =>
      some { supplierSku := sku
             description := if description = "" then none else some description
             quantity := q
             unitPrice := u
             total := t }
    | _, _, _ => none

/-- The per-line loop state of `parse` (lines 2938–3035). -/
structure LoopState where
  items : List LineItem
  pendingDesc : String
  shippingFee : JsNum
  stopped : Bool

/-- One iteration of the row loop of `parse` (lines 2947–3035). -/
def lineStep (headerY : JsNum)
    (skuX descX qtyX unitX totalX : Option JsNum)
    (st : LoopState) (line : TextLine) : LoopState :=
  if st.stopped then st
  else if line.yPosition ≤ headerY + (0.1 : JsNum) then st
  else
    let upper := jsToUpper line.text
    if jsIncludes upper "TOTAL HT" || jsIncludes upper "TOTAL TTC" ||
        jsIncludes upper "TVA" || jsIncludes upper "NET" then
      { st with stopped := true }
    else
      let contDesc := getContinuationDescription line.items descX qtyX
      match parseRow line.items skuX descX qtyX unitX totalX with
      | some row =>
        let descLower := jsToLower (row.description.getD "")
        let lineLower := jsToLower line.text
        let isShippingLine :=
          jsIncludes descLower "frais de port" ||
          jsIncludes descLower "port frais de port" ||
          jsIncludes lineLower "frais de port" ||
          jsIncludes lineLower "livraison"
        if isShippingLine then
          let fee :=
            if (0 : JsNum) < row.total then row.total
            else if (0 : JsNum) < row.unitPrice then row.unitPrice
            else 0
          if (0 : JsNum) < fee then { st with shippingFee := fee } else st
        else
          let row :=
            if st.pendingDesc ≠ "" then
              { row with description :=
                  let d := jsTrim (collapseSpaces
                    (st.pendingDesc ++ " " ++ row.description.getD ""))
                  if d = "" then none else some d }
            else row
          let row :=
            { row with description :=
                let d := jsTrim (collapseSpaces
                  (stripQtyToken (jsNumToString row.quantity) (row.description.getD "")))
                if d = "" then none else some d }
          -- `row.total == null` never holds here (parseRow only returns rows
          -- with all three numbers), so the compute-if-missing branch is gone
          { st with items := st.items ++ [row], pendingDesc := "" }
      | none =>
        if contDesc ≠ "" then
          match st.items.getLast? with
          | some last =>
            let last :=
              { last with description :=
                  let d := jsTrim (collapseSpaces (last.description.getD "" ++ " " ++ contDesc))
                  if d = "" then none else some d }
            { st with items := st.items.dropLast ++ [last] }
          | none =>
            { st with pendingDesc :=
                if st.pendingDesc ≠ "" then st.pendingDesc ++ " " ++ contDesc else contDesc }
        else st

/-- Header detection of `parse` (lines 2888–2928): the first line whose upper
case text shows the French labels fixes `headerY` and the column positions. -/
def findHeader (textLines : List TextLine) :
    Option (JsNum × Option JsNum × Option JsNum × Option JsNum × Option JsNum × Option JsNum) :=
  match textLines.find? (fun line =>
    let upper := jsToUpper line.text
    (jsIncludes upper "LIBELL" || jsIncludes upper "LIBELLÉ") &&
      (jsIncludes upper "PU" || jsIncludes upper "P.U") &&
      (jsIncludes upper "PRIX HT" || jsIncludes upper "MONTANT HT" ||
        jsIncludes upper "TOTAL HT")) with
  | none => none
  | some line =>
    let elements := jsSortLe (fun a b => a.x ≤ b.x) line.items
    let th := elements.foldl
      (fun (th : Option JsNum × Option JsNum × Option JsNum × Option JsNum × Option JsNum)
          el =>
        let t := jsToLower el.text
        let (skuX, descX, qtyX, unitX, totalX) := th
        if jsIncludes t "réf" || t = "ref" || jsIncludes t "code" then
          (some el.x, descX, qtyX, unitX, totalX)
        else if jsIncludes t "libell" then
          (skuX, some el.x, qtyX, unitX, totalX)
        else if t = "q." || jsStartsWith t "q " || jsIncludes t "quant" then
          (skuX, descX, some el.x, unitX, totalX)
        else if t = "pu" || (jsIncludes t "unit" && jsIncludes t "prix") then
          (skuX, descX, qtyX, some el.x, totalX)
        else if jsIncludes t "prix ht" || jsIncludes t "montant ht" ||
            jsIncludes t "total" then
          (skuX, descX, qtyX, unitX, some el.x)
        else th)
      (none, none, none, none, none)
    some (line.yPosition, th.1, th.2.1, th.2.2.1, th.2.2.2.1, th.2.2.2.2)

/-- `parse` (lines 2863–3050). -/
def parse (textLines : List TextLine) : PdfExtractionResult :=
  match findHeader textLines with
  | none =>
    { success := false
      error := some "Addict header not found (Libellé/PU/Prix HT)" }
  | some (headerY, skuX, descX, qtyX, unitX, totalX) =>
    let final := textLines.foldl (lineStep headerY skuX descX qtyX unitX totalX)
      { items := [], pendingDesc := "", shippingFee := 0, stopped := false }
    { success := true
      data := some
        { invoiceMetadata :=
            { currency := "EUR", shippingFee := final.shippingFee }
          lineItems := final.items }
      warnings :=
        if final.items.length = 0 then some ["No line items parsed for Addict"] else none }

end AddictParser

/-! ### BoleroParser (pdfParsing.server.ts 1029–1793) -/

namespace BoleroParser

/-- `/^[A-Za-z0-9_.\-]+$/.test`. -/
def skuCharsTest (s : String) : Bool :=
  !s.toList.isEmpty &&
    s.toList.all (fun c => c.isAlphanum || c = '_' || c = '.' || c = '-')

/-- `getNear` inside `parseRow` (lines 1309–1315). -/
def getNear (els : List Tok) (target : Option JsNum) : List String :=
  match target with
  | none => []
  | some x =>
    ((els.filter (fun e => jsAbs (e.x - x) < (2.5 : JsNum))).map
      (fun e => jsTrim e.text)).filter (fun s => s ≠ "")

/-- `parsePriceNearColumn` (lines 1719–1758), identical in structure to the
Addict version. -/
def parsePriceNearColumn (elements : List Tok) (xThreshold : Option JsNum) :
    Option JsNum :=
  match xThreshold with
  | none => none
  | some t =>
    let within := ((jsSortLe (fun a b => a.x ≤ b.x)
        (elements.filter (fun e => jsAbs (e.x - t) < (3.5 : JsNum)))).map
      (fun e => (e.x, jsTrim e.text))).filter (fun e => e.2 ≠ "")
    if within.isEmpty then none
    else
      let singles := within.filter (fun tok => isPriceLike tok.2)
      let merged := (List.range (within.length - 1)).filterMap (fun i =>
        let a := within.getD i (0, "")
        let b := within.getD (i + 1) (0, "")
        let m := a.2 ++ b.2
        if isPriceLike m then some (((a.1 + b.1) / (2 : JsNum)), m) else none)
      let candidates := singles ++ merged
      match candidates with
      | first :: rest =>
        let best := rest.foldl
          (fun acc cur => if jsAbs (cur.1 - t) < jsAbs (acc.1 - t) then cur else acc)
          first
        some (parsePriceFR best.2)
      | [] =>
        match within with
        | tok :: _ => some (parsePriceFR tok.2)
        | [] => none

/-- Column thresholds discovered from the Bolero header. -/
structure Thresholds where
  sku : Option JsNum := none
  description : Option JsNum := none
  quantity : Option JsNum := none
  unitPrice : Option JsNum := none
  total : Option JsNum := none

/-- Header detection (lines 1050–1093).  When no header matches, the code
calls `_inferBoleroThresholdsFromData` through `(this as any)… ?.()`; that
method exists only on the Addict class, so the optional call is a no-op and
the thresholds stay empty. -/
def findHeader (textLines : List TextLine) : Option JsNum × Thresholds :=
  match textLines.find? (fun line =>
    let up := jsToLower line.text
    jsIncludes up "description" &&
      (jsIncludes up "article" || jsIncludes up "code") &&
      (jsIncludes up "quantity" || jsIncludes up "qty") &&
      jsIncludes up "unit price" &&
      (jsIncludes up "subtotal" || jsIncludes up "sub total" ||
        jsIncludes up "sub-total" || jsIncludes up "total")) with
  | none => (none, {})
  | some line =>
    let items := jsSortLe (fun a b => a.x ≤ b.x) line.items
    let th := items.foldl
      (fun (th : Thresholds) el =>
        let t := jsToLower el.text
        if jsIncludes t "article" && jsIncludes t "code" then { th with sku := some el.x }
        else if jsIncludes t "description" then { th with description := some el.x }
        else if jsIncludes t "quantity" || t = "qty" then { th with quantity := some el.x }
        else if jsIncludes t "unit" && jsIncludes t "price" then
          { th with unitPrice := some el.x }
        else if jsIncludes t "subtotal" || jsIncludes t "sub total" ||
            jsIncludes t "sub-total" || (jsIncludes t "total" && !(jsIncludes t "unit")) then
          { th with total := some el.x }
        else th)
      {}
    (some line.yPosition, th)

/-- `parseRow` (lines 1304–1398). -/
def parseRow (elements : List Tok) (th : Thresholds) : Option LineItem :=
  let els := jsSortLe (fun a b => a.x ≤ b.x) elements
  let sku :=
    match (getNear els th.sku).find? (fun s =>
      let tl := jsToLower s
      !(jsIncludes tl "description") && !(jsIncludes tl "unit") &&
        !(jsIncludes tl "price") && !(qDotTest tl)) with
    | some s => s
    | none => ""
  if sku = "" then none
  else
    let description :=
      match th.description, th.quantity with
      | some dx, some qx =>
        let desc := ((els.filter (fun e =>
            dx - (0.5 : JsNum) ≤ e.x && e.x < qx - (0.5 : JsNum))).map
          (fun e => jsTrim e.text)).filter (fun t =>
            t ≠ "" && !(qDotTest t) &&
              !(jsIncludes (jsToLower t) "unit" && jsIncludes (jsToLower t) "price") &&
              !(isPriceLike t) && !(plainNumberTest t))
        collapseSpaces (String.intercalate " " desc) |> jsTrim
      | _, _ => ""
    let quantity :=
      match th.quantity with
      | some _ => (getNear els th.quantity).findSome? parseNumberFR
      | none =>
        let unitX :=
          match th.unitPrice with
          | some u => some u
          | none => th.total
        let intTokens := (els.map (fun e => (e.x, jsTrim e.text))).filter
          (fun e => !e.2.toList.isEmpty && e.2.toList.all isDigit)
        let best := intTokens.foldl
          (fun (best : Option (JsNum × String)) tok =>
            match unitX with
            | some ux =>
              if ux ≤ tok.1 then best
              else
                match best with
                | none => some tok
                | some b =>
                  if jsAbs (tok.1 - ux) < jsAbs (b.1 - ux) then some tok else some b
            | none =>
              match best with
              | none => some tok
              | some b => some b)
          none
        match best with
        | some b => parseNumberFR b.2
        | none => none
    let unitPrice := parsePriceNearColumn els th.unitPrice
    let total := parsePriceNearColumn els th.total
    match quantity, unitPrice, total with
    | some q, some u, some t =>
      some { supplierSku := sku
             description := if description = "" then none else some description
             quantity := q
             unitPrice := u
             total := t }
    | _, _, _ => none

/-- `getContinuationDescription` (lines 1400–1421). -/
def getContinuationDescription (elements : List Tok) (th : Thresholds) : String :=
  match th.description, th.quantity with
  | some dx, some qx =>
    let parts := ((elements.filter (fun e =>
        dx - (0.5 : JsNum) ≤ e.x && e.x < qx - (0.5 : JsNum))).map
      (fun e => jsTrim e.text)).filter (fun t =>
        t ≠ "" && !(qDotTest t) && !(isPriceLike t) && !(plainNumberTest t))
    collapseSpaces (String.intercalate " " parts) |> jsTrim
  | _, _ => ""

/-- `parseRowByHeuristics` (lines 1638–1718). -/
def parseRowByHeuristics (elements : List Tok) : Option LineItem :=
  let els := jsSortLe (fun a b => a.1 ≤ b.1)
    (((elements.map (fun e => (e.x, jsTrim e.text))).filter (fun e => e.2 ≠ "")))
  if els.isEmpty then none
  else
    let compactRow := jsToLower (String.join (els.map (fun e => e.2)))
    if jsIncludes compactRow "shipping" || jsIncludes compactRow "handling" ||
        jsIncludes compactRow "payment" then none
    else
      let prices := els.filter (fun e => isPriceLike e.2)
      match prices.getLast? with
      | none => none
      | some totalTok =>
        let unitTok := if 2 ≤ prices.length then prices.getD (prices.length - 2) (0, "") else (0, "")
        let hasUnit := 2 ≤ prices.length
        let total := parsePriceFR totalTok.2
        let unitPrice := if hasUnit then some (parsePriceFR unitTok.2) else none
        let priceX :=
          if hasUnit then (if unitTok.1 ≤ totalTok.1 then unitTok.1 else totalTok.1)
          else totalTok.1
        let qtyTokens := els.filter (fun e =>
          e.1 < priceX && !e.2.toList.isEmpty && e.2.toList.all isDigit)
        let quantity :=
          match (jsSortLe (fun a b => b.1 ≤ a.1) qtyTokens) with
          | tok :: _ => parseNumberFR tok.2
          | [] => none
        match quantity with
        | none => none
        | some q =>
          let qtyX :=
            match qtyTokens with
            | tok :: _ => tok.1
            | [] => priceX
          let skuArea := els.filter (fun e => e.1 < qtyX)
          match skuArea.find? (fun t => skuCharsTest t.2) with
          | none => none
          | some skuTok =>
            let sku := skuTok.2
            let skuX :=
              match skuArea.find? (fun e => e.2 = sku) with
              | some e => e.1
              | none =>
                match skuArea with
                | e :: _ => e.1
                | [] => 0
            let descParts := (els.filter (fun e => skuX < e.1 && e.1 < qtyX)).map
              (fun e => e.2) |>.filter (fun t =>
                !(isPriceLike t) && !(plainNumberTest t) && !(qDotTest (jsToLower t)) &&
                  !(jsIncludes (jsToLower t) "unit" && jsIncludes (jsToLower t) "price"))
            let description0 := collapseSpaces (String.intercalate " " descParts) |> jsTrim
            let description := jsTrim (collapseSpaces (stripQtyToken (jsNumToString q) description0))
            some { supplierSku := sku
                   description := if description = "" then none else some description
                   quantity := q
                   unitPrice := (unitPrice.getD 0)
                   total := total }

/-- Token scan after a `€` marker (`readAfterEuro` / `parseEuroAt`): concat
the following tokens while each contains a digit, dot or comma. -/
def euroTail : List (JsNum × String) → String
  | [] => ""
  | e :: rest =>
    if e.2.toList.any (fun c => isDigit c || isSepChar c) then e.2 ++ euroTail rest
    else ""

/-- `readValueAfterEuro` of `extractShippingAmount` (lines 1271–1292): like
`euroTail` but stops once two tokens containing digits have been seen after a
token that is exactly a separator. -/
def euroTailBounded : List (JsNum × String) → Bool → ℕ → String
  | [], _, _ => ""
  | e :: rest, seenSep, decimals =>
    if e.2.toList.any (fun c => isDigit c || isSepChar c) then
      let ch := e.2
      if ch = "," || ch = "." then ch ++ euroTailBounded rest true 0
      else if seenSep && ch.toList.any isDigit then
        if decimals + 1 ≥ 2 then ch
        else ch ++ euroTailBounded rest seenSep (decimals + 1)
      else ch ++ euroTailBounded rest seenSep decimals
    else ""

/-- `extractShippingAmount` (lines 1248–1302). -/
def extractShippingAmount (textLines : List TextLine) : Option JsNum :=
  match textLines.find? (fun line =>
    let compact := jsToLower (String.join (line.items.map (fun e => jsTrim e.text)))
    jsIncludes compact "shipping" && jsIncludes compact "handl") with
  | none => none
  | some line =>
    let els := jsSortLe (fun a b => a.1 ≤ b.1)
      ((line.items.map (fun e => (e.x, jsTrim e.text))).filter (fun e => e.2 ≠ ""))
    let euroVals := (List.range els.length).filterMap (fun i =>
      match els.getD i (0, "") with
      | (x, "€") => some (x, parsePriceFR (euroTailBounded (els.drop (i + 1)) false 0))
      | _ => none)
    if euroVals.isEmpty then some 0
    else
      match euroVals with
      | first :: rest =>
        some (rest.foldl (fun p c => if p.1 < c.1 then c else p) first).2
      | [] => some 0

/-- `parseByGlobalHeuristics` (lines 1423–1637). -/
def parseByGlobalHeuristics (textLines : List TextLine) : List LineItem :=
  let items := textLines.flatMap (fun line =>
    line.items.filterMap (fun it =>
      let t := jsTrim it.text
      if t = "" then none else some (it.x, it.y, t)))
  let keys := (items.map (fun it => roundedY it.2.1)).dedup
  let ys := jsSortLe (fun a b => a ≤ b) keys
  ys.flatMap (fun y =>
    let row := jsSortLe (fun a b => a.1 ≤ b.1)
      ((items.filter (fun it => roundedY it.2.1 = y)).map (fun it => (it.1, it.2.2)))
    if row.isEmpty then []
    else
      let compactRow := jsToLower (String.join (row.map (fun e => e.2)))
      if jsIncludes compactRow "shipping" || jsIncludes compactRow "handling" ||
          jsIncludes compactRow "payment" then []
      else
        let euroIdxs := (List.range row.length).filter (fun i => (row.getD i (0, "")).2 = "€")
        match euroIdxs with
        | [] => []
        | _ =>
          let euroValues := euroIdxs.map (fun i =>
            ((row.getD i (0, "")).1, parsePriceFR (euroTail (row.drop (i + 1)))))
          match euroValues, euroValues.getLast? with
          | firstEuro :: _, some lastEuro =>
            let total := lastEuro.2
            let unitPrice := firstEuro.2
            let priceX := firstEuro.1
            let intLeft := row.filter (fun e =>
              e.1 < priceX && !e.2.toList.isEmpty && e.2.toList.all isDigit)
            let quantity0 :=
              match jsSortLe (fun a b => b.1 ≤ a.1) intLeft with
              | tok :: _ => parseNumberFR tok.2
              | [] => none
            let quantity1 :=
              match quantity0 with
              | some v => if v = 0 then none else some v
              | none => none
            let quantity :=
              match quantity1 with
              | some v => some v
              | none =>
                if unitPrice ≠ 0 && total ≠ 0 then
                  let q := round2 (total / unitPrice)
                  let qi := jsRound q
                  if 0 < qi && jsAbs (q - JsNum.ofInt qi) < (0.05 : JsNum) then
                    some (JsNum.ofInt qi)
                  else none
                else none
            match quantity with
            | none => []
            | some q =>
              let lastLIdx := (List.range row.length).foldl
                (fun acc i =>
                  let e := row.getD i (0, "")
                  if jsToUpper e.2 = "L" && e.1 < priceX then some i else acc)
                none
              let startIdx :=
                match lastLIdx with
                | some i => i + 1
                | none => 0
              let codeTokens := (List.range row.length).filterMap (fun i =>
                let e := row.getD i (0, "")
                if startIdx ≤ i && e.1 < priceX &&
                    (e.2.toList.length = 1 &&
                      e.2.toList.all (fun c => isDigit c || c = '.')) then
                  some e.2
                else none)
              let sku := stripDots (collapseDots (String.join codeTokens))
              if sku = "" then []
              else
                let pipeIdxs := (List.range row.length).filter (fun i =>
                  let e := row.getD i (0, "")
                  e.2 = "|" && e.1 < priceX)
                let nameEndIdx :=
                  match pipeIdxs with
                  | i :: _ => i
                  | [] =>
                    match lastLIdx with
                    | some i => i + 1
                    | none => startIdx
                let nameTokens := row.take nameEndIdx
                let namePart := buildName nameTokens
                let size1 :=
                  match pipeIdxs with
                  | a :: rest =>
                    let stop :=
                      match rest with
                      | b :: _ => b
                      | [] =>
                        match lastLIdx with
                        | some i => i + 1
                        | none => a + 1
                    buildCompact ((row.take stop).drop (a + 1))
                  | [] => ""
                let size2 :=
                  match pipeIdxs with
                  | _ :: b :: _ =>
                    let stop :=
                      match lastLIdx with
                      | some i => i + 1
                      | none => b + 1
                    buildCompact ((row.take stop).drop (b + 1))
                  | _ => ""
                let description := jsTrim (collapseSpaces (String.intercalate " "
                  (([some namePart,
                     if size1 ≠ "" then some ("| " ++ size1) else none,
                     if size2 ≠ "" then some ("| " ++ size2) else none]).filterMap id |>.filter
                    (fun s => s ≠ ""))))
                [{ supplierSku := sku
                   description := if description = "" then none else some description
                   quantity := q
                   unitPrice := unitPrice
                   total := total }]
          | _, _ => [])
where
  stripDots (s : String) : String :=
    let l := match s.toList with
      | '.' :: rest => rest
      | l => l
    String.mk (match l.reverse with
      | '.' :: rest => rest.reverse
      | _ => l)
  collapseDots (s : String) : String := String.mk (collapseDotsGo false s.toList)
  collapseDotsGo : Bool → List Char → List Char
    | _, [] => []
    | inRun, c :: cs =>
      if c = '.' then
        if inRun then collapseDotsGo true cs else '.' :: collapseDotsGo true cs
      else c :: collapseDotsGo false cs
  buildNameStep (out : List Char) (raw : String) : List Char :=
    let out :=
      if !out.isEmpty && raw.toList.any isJsSpace && out.getLast? ≠ some ' ' then
        out ++ [' ']
      else out
    (raw.toList.filter (fun c => isUpperAZ c || isLowerAZ c)).foldl
      (fun out ch =>
        let out :=
          if !out.isEmpty && (match out.getLast? with
              | some last => isLowerAZ last && isUpperAZ ch
              | none => false) then
            out ++ [' ']
          else out
        out ++ [ch])
      out
  buildName (tokens : List (JsNum × String)) : String :=
    jsTrim (collapseSpaces (String.mk (tokens.foldl (fun out tk => buildNameStep out tk.2) [])))
  buildCompact (tokens : List (JsNum × String)) : String :=
    String.join ((tokens.map (fun t => t.2)).filter (fun t =>
      t.toList.length = 1 && t.toList.all (fun c => c.isAlphanum || c = ',')))

/-- The per-line loop state of `parse` (lines 1095–1148). -/
structure LoopState where
  items : List LineItem
  pendingDesc : String

/-- One iteration of the row loop of `parse` (lines 1103–1148). -/
def lineStep (headerY : Option JsNum) (th : Thresholds)
    (st : LoopState) (line : TextLine) : LoopState :=
  if (match headerY with
      | some hy => decide (line.yPosition ≤ hy + (0.1 : JsNum))
      | none => false) then st
  else
    let contDesc := getContinuationDescription line.items th
    let row0 :=
      match parseRow line.items th with
      | some r => some r
      | none => parseRowByHeuristics line.items
    match row0 with
    | some row =>
      let row :=
        if st.pendingDesc ≠ "" then
          { row with description :=
              let d := jsTrim (collapseSpaces (st.pendingDesc ++ " " ++ row.description.getD ""))
              if d = "" then none else some d }
        else row
      let row :=
        { row with description :=
            let d := jsTrim (collapseSpaces
              (stripQtyToken (jsNumToString row.quantity) (row.description.getD "")))
            if d = "" then none else some d }
      -- `row.total == null` never holds (both row producers fill all numbers),
      -- so the compute-if-missing branch is unreachable
      { items := st.items ++ [row], pendingDesc := "" }
    | none =>
      if contDesc ≠ "" then
        match st.items.getLast? with
        | some last =>
          let last :=
            { last with description :=
                let d := jsTrim (collapseSpaces (last.description.getD "" ++ " " ++ contDesc))
                if d = "" then none else some d }
          { st with items := st.items.dropLast ++ [last] }
        | none =>
          { st with pendingDesc :=
              if st.pendingDesc ≠ "" then st.pendingDesc ++ " " ++ contDesc else contDesc }
      else st

/-- `parse` (lines 1030–1175). -/
def parse (textLines : List TextLine) : PdfExtractionResult :=
  let (headerY, th) := findHeader textLines
  let final := textLines.foldl (lineStep headerY th) { items := [], pendingDesc := "" }
  let items :=
    if final.items.length = 0 then parseByGlobalHeuristics textLines else final.items
  let shippingFee :=
    match extractShippingAmount textLines with
    | some s => s
    | none => 0
  { success := true
    data := some
      { invoiceMetadata := { currency := "EUR", shippingFee := shippingFee }
        lineItems := items }
    warnings :=
      if items.length = 0 then some ["No line items parsed for Bolero"] else none }

end BoleroParser

/-! ### MaiavieParser (pdfParsing.server.ts 1849–2859) -/

namespace MaiavieParser

/-- `/^\d+(?:[.,]\d+)?%$/.test` on the space-stripped text. -/
def percentTest (s : String) : Bool :=
  let cs := (removeChars s isJsSpace).toList
  match cs.reverse with
  | '%' :: restRev =>
    let body := restRev.reverse
    let ds := body.takeWhile isDigit
    if ds.isEmpty then false
    else
      match body.drop ds.length with
      | [] => true
      | sep :: rest => isSepChar sep && !rest.isEmpty && rest.all isDigit
  | _ => false

/-- `/\bqty?\b/i.test` (the text is already lowercased by the caller). -/
def qtyWordTest (s : String) : Bool :=
  go s.toList true
where
  go : List Char → Bool → Bool
    | [], _ => false
    | c :: cs, atBoundary =>
      (atBoundary && c = 'q' &&
        (match cs with
         | 't' :: 'y' :: rest => rest.isEmpty || !(isWordChar (rest.headD ' '))
         | 't' :: rest => rest.isEmpty || !(isWordChar (rest.headD ' '))
         | _ => false)) ||
      go cs (!(isWordChar c))

/-- `isMeta` (lines 2163–2164, 2260–2261): `/\btva\b/i`, `/\bvat\b/i` or `%`. -/
def isMeta (t : String) : Bool :=
  wordTest (jsToLower t) ['t', 'v', 'a'] || wordTest (jsToLower t) ['v', 'a', 't'] ||
    jsIncludes t "%"
where
  go (w : List Char) : List Char → Bool → Bool
    | [], _ => false
    | c :: cs, atBoundary =>
      (atBoundary && (c :: cs).take 3 = w &&
        !(isWordChar ((c :: cs).getD 3 ' '))) ||
      go w cs (!(isWordChar c))
  wordTest (s : String) (w : List Char) : Bool := go w s.toList true

/-- `collectPlainText` (lines 2391–2409). -/
def collectPlainText (elements : List Tok) : String :=
  let texts := ((jsSortLe (fun a b => a.x ≤ b.x) elements).map
    (fun e => jsTrim e.text)).filter (fun t =>
      t ≠ "" &&
        !(percentTest t) &&
        !(isPriceLike t) &&
        !(plainNumberTest t) &&
        !(jsToLower t = "pu" || jsToLower t = "q." || qtyWordTest (jsToLower t)))
  jsTrim (collapseSpaces (String.intercalate " " texts))

/-- `isFrag` of `extractPricesWithX`: `/^[0-9]+$/` or `/^[.,]$/`. -/
def isFrag (s : String) : Bool :=
  (!s.toList.isEmpty && s.toList.all isDigit) ||
    (s.toList.length = 1 && s.toList.all isSepChar)

/-- `extractPricesWithX` (lines 2411–2452): regroup digit/separator fragments
(joined while the x-gap stays ≤ 1.2), keep price-like tokens as their own
groups, and parse every group. -/
def extractPricesWithX (elements : List Tok) : List (JsNum × JsNum) :=
  let toks := ((jsSortLe (fun a b => a.x ≤ b.x) elements).map
    (fun e => (e.x, jsTrim e.text))).filter (fun e => e.2 ≠ "")
  let (groups, cur) := toks.foldl
    (fun (st : List (JsNum × String) × Option (JsNum × String × JsNum)) tok =>
      let (groups, cur) := st
      if isFrag tok.2 then
        match cur with
        | some (sx, txt, px) =>
          if (1.2 : JsNum) < tok.1 - px then
            (groups ++ [(sx, txt)], some (tok.1, tok.2, tok.1))
          else (groups, some (sx, txt ++ tok.2, tok.1))
        | none => (groups, some (tok.1, tok.2, tok.1))
      else if isPriceLike tok.2 then
        (groups ++ [(tok.1, tok.2)], none)
      else
        match cur with
        | some (sx, txt, _) => (groups ++ [(sx, txt)], none)
        | none => (groups, none))
    ([], none)
  let groups :=
    match cur with
    | some (sx, txt, _) => groups ++ [(sx, txt)]
    | none => groups
  groups.map (fun g => (g.1, parsePriceFR g.2))

/-- `extractRightmostIntegerLeftOf` (lines 2454–2467). -/
def extractRightmostIntegerLeftOf (elements : List Tok) (limitX : JsNum) :
    Option JsNum :=
  let ints := ((jsSortLe (fun a b => a.x ≤ b.x) elements).map
    (fun e => (e.x, jsTrim e.text))).filter (fun e =>
      e.2 ≠ "" && e.1 < limitX && !e.2.toList.isEmpty && e.2.toList.all isDigit)
  match ints with
  | [] => none
  | first :: rest =>
    let right := rest.foldl (fun b c => if b.1 < c.1 then c else b) first
    match jsParseInt right.2 with
    | some n => some (JsNum.ofInt n)
    | none => none

/-- Column thresholds of the Maiavie header. -/
structure Thresholds where
  sku : Option JsNum := none
  description : Option JsNum := none
  quantity : Option JsNum := none
  unitPrice : Option JsNum := none
  total : Option JsNum := none

/-- Header detection (lines 1874–1942). -/
def findHeader (textLines : List TextLine) : Option JsNum × Thresholds :=
  match textLines.find? (fun line =>
    let up := jsToUpper line.text
    ((jsIncludes up "DÉSIGNATION" || jsIncludes up "DESIGNATION" ||
        jsIncludes up "LIBELL" || jsIncludes up "LIBELLÉ" ||
        jsIncludes up "LABEL" || jsIncludes up "DESCRIPTION") &&
      (jsIncludes up "PU" || jsIncludes up "UNIT" || jsIncludes up "P.U") &&
      (jsIncludes up "PRIX HT" || jsIncludes up "MONTANT HT" ||
        jsIncludes up "TOTAL HT" || jsIncludes up "AMOUNT" || jsIncludes up "TOTAL")) ||
    (jsIncludes up "REF" && (jsIncludes up "Q." || jsIncludes up "QTY") &&
      (jsIncludes up "PU" || jsIncludes up "UNIT"))) with
  | none => (none, {})
  | some line =>
    let items := jsSortLe (fun a b => a.x ≤ b.x) line.items
    let th := items.foldl
      (fun (th : Thresholds) el =>
        let t := jsToLower el.text
        if jsIncludes t "réf" || t = "ref" || jsIncludes t "code" || jsIncludes t "sku" then
          { th with sku := some el.x }
        else if jsIncludes t "libell" || jsIncludes t "label" ||
            jsIncludes t "description" || jsIncludes t "désign" || jsIncludes t "design" then
          { th with description := some el.x }
        else if t = "q." || jsStartsWith t "q " || jsIncludes t "quant" ||
            jsIncludes t "qty" || jsIncludes t "qt" || jsIncludes t "qte" ||
            jsIncludes t "qté" then
          { th with quantity := some el.x }
        else if t = "pu" || (jsIncludes t "unit" && jsIncludes t "price") ||
            jsIncludes t "p.u" then
          { th with unitPrice := some el.x }
        else if jsIncludes t "prix ht" || jsIncludes t "montant ht" ||
            jsIncludes t "total" || jsIncludes t "amount" then
          { th with total := some el.x }
        else th)
      {}
    (some line.yPosition, th)

/-- `isFooter` (lines 2017–2018). -/
def isFooter (s : String) : Bool :=
  let l := jsToLower s
  jsIncludes l "total ht" || jsIncludes l "total ttc" || jsIncludes l "tva" ||
    jsIncludes l "net" || jsIncludes l "règlement" || jsIncludes l "reglement"

/-- The accumulating row of `parseDolibarrByHeaderContinuations`. -/
structure Current where
  sku : String
  descParts : List String
  qty : Option JsNum
  unit : Option JsNum
  tot : Option JsNum

/-- Flush `current` into the output when all three numbers are present. -/
def flushCurrent (out : List LineItem) : Option Current → List LineItem
  | some cur =>
    match cur.qty, cur.unit, cur.tot with
    | some q, some u, some t =>
      out ++ [{ supplierSku := cur.sku
                description :=
                  let d := jsTrim (collapseSpaces (String.intercalate " " cur.descParts))
                  if d = "" then none else some d
                quantity := q
                unitPrice := u
                total := t }]
    | _, _, _ => out
  | none => out

/-- Loop state of `parseDolibarrByHeaderContinuations`. -/
structure ContState where
  out : List LineItem
  current : Option Current
  stopped : Bool

/-- One line of `parseDolibarrByHeaderContinuations` (lines 2020–2118). -/
def contStep (headerY : Option JsNum) (th : Thresholds)
    (st : ContState) (line : TextLine) : ContState :=
  if st.stopped then st
  else if (match headerY with
      | some hy => decide (line.yPosition ≤ hy + (0.1 : JsNum))
      | none => false) then st
  else if isFooter (jsToUpper line.text) then { st with stopped := true }
  else
    let els := ((jsSortLe (fun a b => a.x ≤ b.x) line.items).map
      (fun e => (e.x, jsTrim e.text))).filter (fun e => e.2 ≠ "")
    if els.isEmpty then st
    else
      let near := fun (x : Option JsNum) =>
        match x with
        | none => ([] : List String)
        | some t => (els.filter (fun (e : JsNum × String) =>
            jsAbs (e.1 - t) < (2.5 : JsNum))).map (fun (e : JsNum × String) => e.2)
      let unitHere := (near th.unitPrice).find? (fun t => isPriceLike t)
      let qtyHere := (near th.quantity).find? (fun t =>
        !t.toList.isEmpty && t.toList.all isDigit)
      let totalHere := (near th.total).find? (fun t => isPriceLike t)
      match unitHere, totalHere with
      | some uh, some th2 =>
        let out := flushCurrent st.out st.current
        let left :=
          match els with
          | e :: _ => e.2
          | [] => ""
        let dashIdx := left.toList.findIdx (fun c => c = '-')
        let (sku, firstDesc) :=
          if dashIdx < left.toList.length && 0 < dashIdx then
            (jsTrim (String.mk (left.toList.take dashIdx)),
             jsTrim (String.mk (left.toList.drop (dashIdx + 1))))
          else (jsTrim left, "")
        let unit := parsePriceFR uh
        let tot := parsePriceFR th2
        -- `parsePrice` always yields a number, so the
        -- `extractRightmostPriceFromLine` fallback for a null total is dead
        let qty0 :=
          match qtyHere with
          | some qh => parseNumberFR qh
          | none => none
        let qty1 :=
          match qty0 with
          | some v => if v = 0 then none else some v
          | none => none
        let qty2 :=
          match qty1 with
          | some v => some v
          | none =>
            if unit ≠ 0 then
              let q := round2 (tot / unit)
              let qi := jsRound q
              if 0 < qi && jsAbs (q - JsNum.ofInt qi) < (0.05 : JsNum) then
                some (JsNum.ofInt qi)
              else none
            else none
        let qty :=
          match qty2 with
          | some v => if v = 0 then some 1 else some v
          | none => some 1
        { out := out
          current := some
            { sku := sku
              descParts := if firstDesc ≠ "" then [firstDesc] else []
              qty := qty
              unit := some unit
              tot := some tot }
          stopped := false }
      | _, _ =>
        match st.current with
        | some cur =>
          let rightTouched := els.any (fun e =>
            (match th.unitPrice with
             | some ux => decide (ux - (1.0 : JsNum) ≤ e.1)
             | none => false) ||
            (match th.quantity with
             | some qx => decide (qx - (1.0 : JsNum) ≤ e.1)
             | none => false) ||
            (match th.total with
             | some tx => decide (tx - (1.0 : JsNum) ≤ e.1)
             | none => false))
          if !rightTouched then
            let extra := collectPlainText line.items
            if extra ≠ "" then
              { st with current := some { cur with descParts := cur.descParts ++ [extra] } }
            else st
          else st
        | none => st

/-- `parseDolibarrByHeaderContinuations` (lines 1980–2137). -/
def parseDolibarrByHeaderContinuations (textLines : List TextLine)
    (th : Thresholds) (headerY : Option JsNum) : List LineItem :=
  match th.description, th.unitPrice, th.total with
  | some _, some _, some _ =>
    let final := textLines.foldl (contStep headerY th)
      { out := [], current := none, stopped := false }
    flushCurrent final.out final.current
  | _, _, _ => []

end MaiavieParser

namespace MaiavieParser

/-- `lines` preparation shared by both hyphen passes (lines 2153–2162,
2264–2273): keep lines strictly below the header, sort items by x and
space-join the trimmed non-empty texts. `headerY = none` models the
`-Infinity` initial value, for which the filter keeps everything. -/
def prepLines (textLines : List TextLine) (headerY : Option JsNum) :
    List (List Tok × String) :=
  (textLines.filter (fun l =>
    match headerY with
    | some hy => decide (hy + (0.1 : JsNum) < l.yPosition)
    | none => true)).map (fun l =>
      let its := jsSortLe (fun a b => a.x ≤ b.x) l.items
      (its, String.intercalate " "
        ((its.map (fun e => jsTrim e.text)).filter (fun t => t ≠ ""))))

def isDashTok (s : String) : Bool := s = "-" || s = "–" || s = "—"

/-- `/^[A-Za-z0-9]+$/`. -/
def alnumTest (s : String) : Bool :=
  !s.toList.isEmpty && s.toList.all (fun c => isDigit c || isUpperAZ c || isLowerAZ c)

/-- `/^réf\.?$/i` or `/^ref\.?$/i` on the lowercased token. -/
def refWordTest (s : String) : Bool :=
  s = "réf" || s = "réf." || s = "ref" || s = "ref."

/-- The hyphen-title analysis of one line (lines 2282–2312, 2327–2356):
`some (some (sku, after))` when a dash token sits at index `> 0` and an
alphanumeric sku token precedes it, `some none` when the dash is there but no
sku token qualifies, `none` when there is no dash at a positive index. -/
def hyphenScan (items : List Tok) : Option (Option (String × String)) :=
  let toks := (items.map (fun e => jsTrim e.text)).filter (fun t => t ≠ "")
  let di := toks.findIdx isDashTok
  if di < toks.length && 0 < di then
    match (toks.take di).reverse.find? (fun s =>
        !refWordTest (jsToLower s) && alnumTest s) with
    | some sku =>
      some (some (sku, jsTrim (String.intercalate " " (toks.drop (di + 1)))))
    | none => some none
  else none

/-- Rightmost / leftmost price bookkeeping of a price row (lines 2266–2275,
2188–2203): `none` when the line has no price groups, otherwise
`(total, unit?, qty?)`. -/
def priceRowInfo (items : List Tok) : Option (JsNum × Option JsNum × Option JsNum) :=
  match extractPricesWithX items with
  | [] => none
  | p :: rest =>
    let prices := p :: rest
    let right := rest.foldl (fun b c => if b.1 < c.1 then c else b) p
    let tot := right.2
    let lefts := prices.filter (fun q => q.1 < right.1)
    let unit :=
      match lefts with
      | l :: ls => some ((ls.foldl (fun b c => if b.1 < c.1 then c else b) l).2)
      | [] => if 2 ≤ prices.length then some p.2 else none
    let firstPriceX := rest.foldl (fun b c => if c.1 < b then c.1 else b) p.1
    let qty := extractRightmostIntegerLeftOf items firstPriceX
    some (tot, unit, qty)

/-- The `qty` fallback chain shared by all three passes (lines 2203–2209,
2372–2376): derive `round(total/unit)` when close to an integer, else 1.
`unit && tot && unit !== 0` is JS truthiness on numbers. -/
def qtyFallback (qty0 : Option JsNum) (unit : Option JsNum) (tot : JsNum) : JsNum :=
  let qty1 :=
    match qty0 with
    | some v => if v = 0 then none else some v
    | none => none
  let qty2 :=
    match qty1 with
    | some v => some v
    | none =>
      match unit with
      | some u =>
        if u ≠ 0 && tot ≠ 0 then
          let q := round2 (tot / u)
          let qi := jsRound q
          if 0 < qi && jsAbs (q - JsNum.ofInt qi) < (0.05 : JsNum) then
            some (JsNum.ofInt qi)
          else none
        else none
      | none => none
  match qty2 with
  | some v => if v = 0 then 1 else v
  | none => 1

/-- Backward scan of `parseDolibarrHyphenStreaming` (lines 2278–2320) over the
descending index list: returns the found `(i, sku, after)` and the
`unshift`-accumulated plain-text parts (in their final, ascending order). -/
def backScanGo (lines : List (List Tok × String)) :
    List ℕ → List String → Option (ℕ × String × String) × List String
  | [], pre => (none, pre)
  | i :: rest, pre =>
    let (items, txt) := lines.getD i ([], "")
    let t := jsTrim txt
    if t = "" || isMeta t then backScanGo lines rest pre
    else
      match hyphenScan items with
      | some (some (sku, after)) => (some (i, sku, after), pre)
      | some none => backScanGo lines rest pre
      | none =>
        if (extractPricesWithX items).isEmpty then
          let extra := collectPlainText items
          if extra ≠ "" then backScanGo lines rest (extra :: pre)
          else backScanGo lines rest pre
        else backScanGo lines rest pre

/-- Forward sku scan of `parseDolibarrHyphenStreaming` (lines 2322–2357). -/
def fwdScanGo (lines : List (List Tok × String)) :
    List ℕ → Option (ℕ × String × String)
  | [] => none
  | i :: rest =>
    let (items, txt) := lines.getD i ([], "")
    let t := jsTrim txt
    if t = "" || isMeta t then fwdScanGo lines rest
    else
      match hyphenScan items with
      | some (some (sku, after)) => some (i, sku, after)
      | _ => fwdScanGo lines rest

/-- Description collection after a forward-found sku line (lines 2358–2369):
push plain text until the next line with price groups. -/
def collectUntilPrice (lines : List (List Tok × String)) : List ℕ → List String
  | [] => []
  | k :: rest =>
    let (items, _) := lines.getD k ([], "")
    if !(extractPricesWithX items).isEmpty then []
    else
      let extra := collectPlainText items
      (if extra ≠ "" then [extra] else []) ++ collectUntilPrice lines rest

/-- One anchor row of `parseDolibarrHyphenStreaming` (lines 2264–2382). -/
def streamingItemAt (lines : List (List Tok × String)) (j : ℕ) : Option LineItem :=
  let (items, _) := lines.getD j ([], "")
  match priceRowInfo items with
  | none => none
  | some (tot, unit, qty0) =>
    let backIdxs := (List.range' (j - 12) (j - (j - 12))).reverse
    let (found, pre) := backScanGo lines backIdxs []
    let skuDesc : Option (String × List String) :=
      match found with
      | some (i0, sku, after) =>
        some (sku,
          (if after ≠ "" then [after] else []) ++ pre ++
            -- the plain lines between the sku line and the price row are
            -- collected twice: once by the backward scan, once by this loop
            (((List.range' (i0 + 1) (j - (i0 + 1))).map (fun k =>
              collectPlainText (lines.getD k ([], "")).1)).filter (fun e => e ≠ "")))
      | none =>
        let fwdLimit := min (lines.length - 1) (j + 8)
        match fwdScanGo lines (List.range' (j + 1) (fwdLimit + 1 - (j + 1))) with
        | some (i0, sku, after) =>
          some (sku,
            pre ++ (if after ≠ "" then [after] else []) ++
              collectUntilPrice lines
                (List.range' (i0 + 1) (min lines.length (i0 + 6) - (i0 + 1))))
        | none => none
    match skuDesc with
    | none => none
    | some (sku, descParts) =>
      let qty := qtyFallback qty0 unit tot
      let d := jsTrim (collapseSpaces (String.intercalate " " descParts))
      some { supplierSku := sku
             description := if d = "" then none else some d
             quantity := qty
             unitPrice := unit.getD 0
             total := tot }

/-- `parseDolibarrHyphenStreaming` (lines 2228–2389). -/
def parseDolibarrHyphenStreaming (textLines : List TextLine)
    (headerY : Option JsNum) : List LineItem :=
  let lines := prepLines textLines headerY
  (List.range lines.length).filterMap (streamingItemAt lines)

end MaiavieParser

namespace MaiavieParser

/-- `/^\s*([A-Za-z0-9]+)\s*[-–—]\s*(.+)$/` on an already trimmed line (line
2175): the greedy alphanumeric run is the only viable capture, and since the
input is trimmed the `(.+)` tail is simply the non-empty remainder. -/
def forwardHeadMatch (t : String) : Option (String × String) :=
  let cs := t.toList.dropWhile isJsSpace
  let run := cs.takeWhile (fun c => isDigit c || isUpperAZ c || isLowerAZ c)
  if run.isEmpty then none
  else
    match (cs.drop run.length).dropWhile isJsSpace with
    | d :: rest2 =>
      if isDashTok (String.mk [d]) then
        let rest3 := rest2.dropWhile isJsSpace
        if rest3.isEmpty then none else some (String.mk run, String.mk rest3)
      else none
    | [] => none

/-- Inner scan of `parseDolibarrHyphenForward` (lines 2184–2211): walk forward
from the title line, collecting plain text until the first price row. -/
def innerScanGo (lines : List (List Tok × String)) :
    List ℕ → List String → List String × Option (ℕ × JsNum × Option JsNum × Option JsNum)
  | [], acc => (acc, none)
  | j :: rest, acc =>
    let (items, txt) := lines.getD j ([], "")
    let t := jsTrim txt
    if t = "" || isMeta t then innerScanGo lines rest acc
    else
      match priceRowInfo items with
      | none =>
        let extra := collectPlainText items
        innerScanGo lines rest (acc ++ (if extra ≠ "" then [extra] else []))
      | some (tot, unit, qty0) => (acc, some (j, tot, unit, qty0))

/-- `parseDolibarrHyphenForward`'s main loop (lines 2172–2225), index-recursive
with fuel; on a successful item the index jumps past the price row (`i = j`). -/
def forwardGo (lines : List (List Tok × String)) :
    ℕ → ℕ → List LineItem → List LineItem
  | 0, _, out => out
  | fuel + 1, i, out =>
    if lines.length ≤ i then out
    else
      let (_, txt) := lines.getD i ([], "")
      let t := jsTrim txt
      if t = "" || isMeta t then forwardGo lines fuel (i + 1) out
      else
        match forwardHeadMatch t with
        | none => forwardGo lines fuel (i + 1) out
        | some (sku, rest0) =>
          let descHead := [jsTrim rest0]
          let (extras, found) :=
            innerScanGo lines (List.range' (i + 1) (lines.length - (i + 1))) []
          match found with
          | some (j, tot, unit, qty0) =>
            match unit with
            | some u =>
              let qty := qtyFallback qty0 unit tot
              let d := jsTrim (collapseSpaces
                (String.intercalate " " (descHead ++ extras)))
              -- `sku || "-"` never falls back: the capture is non-empty
              forwardGo lines fuel (j + 1)
                (out ++ [{ supplierSku := sku
                           description := if d = "" then none else some d
                           quantity := qty
                           unitPrice := u
                           total := tot }])
            | none => forwardGo lines fuel (i + 1) out
          | none => forwardGo lines fuel (i + 1) out

/-- `parseDolibarrHyphenForward` (lines 2139–2225). -/
def parseDolibarrHyphenForward (textLines : List TextLine)
    (headerY : Option JsNum) : List LineItem :=
  let lines := prepLines textLines headerY
  forwardGo lines lines.length 0 []

/-- `MaiavieParser.parse` (lines 1851–1977). -/
def parse (textLines : List TextLine) : PdfExtractionResult :=
  let (headerY, th) := findHeader textLines
  let parsed := parseDolibarrByHeaderContinuations textLines th headerY
  let items :=
    if !parsed.isEmpty then parsed
    else
      let alt := parseDolibarrHyphenStreaming textLines headerY
      if !alt.isEmpty then alt
      else parseDolibarrHyphenForward textLines headerY
  { success := true
    data := some
      { supplierInfo := {}
        invoiceMetadata := { currency := "EUR", shippingFee := 0 }
        lineItems := items }
    error := none
    warnings := if items.isEmpty then some ["No line items parsed for Maiavie"] else none }

end MaiavieParser

/-! ### PythonTableParser (PDF_PARSING_README.md code listing)

Table cells are JavaScript `any` values coerced with `String(...)`; the
documents at hand produce string cells, so a cell is modelled as a `String`
with `""` standing for a missing/null cell (both are falsy under `if (cell)`
and both are filtered by the null checks). -/

namespace PythonTableParser

structure PyTable where
  data : List (List String)
  headers : List String
  deriving DecidableEq

/-- A python-side line item: every field is optional, as the row objects are
built incrementally. -/
structure PyLineItem where
  supplierSku : Option String := none
  description : Option String := none
  quantity : Option JsNum := none
  unitPrice : Option JsNum := none
  total : Option JsNum := none
  deriving DecidableEq

/-- `s.split(c)` for one separator character (keeps empty fragments). -/
def splitOnChar (sep : Char) : List Char → List (List Char)
  | [] => [[]]
  | c :: cs =>
    if c = sep then [] :: splitOnChar sep cs
    else
      match splitOnChar sep cs with
      | [] => [[c]]
      | p :: ps => (c :: p) :: ps

/-- `s.replace(',', '')` (first occurrence only). -/
def removeFirstComma : List Char → List Char
  | [] => []
  | c :: cs => if c = ',' then cs else c :: removeFirstComma cs

/-- `parsePrice` (README lines 918–993).  In the two-separator branches the
code joins the comma/period-split parts without touching the other
separator, so residual separators survive into the `parseFloat` call. -/
def parsePrice (priceStr : String) (allowMultiDigitDecimals : Bool) : Option JsNum :=
  let cleanStr := jsTrim priceStr
  let (isNegative, cleanStr) :=
    if jsStartsWith cleanStr "-" then (true, String.mk (cleanStr.toList.drop 1))
    else (false, cleanStr)
  let cleanStr := jsTrim (removeChars cleanStr
    (fun c => c = '€' || c = '$' || c = '£' || c = '¥'))
  let cs := cleanStr.toList
  let cs :=
    if cs.contains ',' && cs.contains '.' then
      if lastIdxOf cleanStr '.' < lastIdxOf cleanStr ',' then
        let parts := splitOnChar ',' cs
        let last := parts.getLastD []
        if last.length ≤ 3 then (parts.dropLast).flatten ++ '.' :: last
        else cs.filter (fun c => c ≠ ',')
      else
        let parts := splitOnChar '.' cs
        let last := parts.getLastD []
        if last.length ≤ 3 then (parts.dropLast).flatten ++ '.' :: last
        else cs.filter (fun c => c ≠ '.')
    else if cs.contains ',' then
      let parts := splitOnChar ',' cs
      match parts with
      | [p0, p1] => if p1.length ≤ 3 then p0 ++ '.' :: p1 else cs.filter (fun c => c ≠ ',')
      | _ => cs.filter (fun c => c ≠ ',')
    else cs
  match jsParseFloat (String.mk cs) with
  | none => none
  | some price =>
    let result := if isNegative then -price else price
    some (if allowMultiDigitDecimals then round4 result else round2 result)

/-- `parseYamamotoQuantity` (README lines 604–624). -/
def parseYamamotoQuantity (qtyStr : String) : Option JsNum :=
  let cleanStr := jsTrim qtyStr
  let viaComma : Option (Option JsNum) :=
    if cleanStr.toList.contains ',' then
      match splitOnChar ',' cleanStr.toList with
      | [p0, p1] =>
        if p1 = ['0', '0'] || p1 = ['0'] then
          some ((jsParseInt (String.mk p0)).map JsNum.ofInt)
        else none
      | _ => none
    else none
  match viaComma with
  | some r => r
  | none => (jsParseInt cleanStr).map JsNum.ofInt

/-- `isShippingRow` (README lines 631–640). -/
def isShippingRow (row : List String) : Bool :=
  row.any (fun cell =>
    let text := jsToLower cell
    jsIncludes text "shipping" || jsIncludes text "spedizione" ||
      jsIncludes text "envío" || jsIncludes text "livraison" ||
      jsIncludes text "transport" || jsIncludes text "fracht" ||
      jsIncludes text "frais")

/-- First capture of `/(\d+(?:[.,]\d+)?)/`: the first digit run, extended by
one separator and a further digit run when present.  (An optional `€?\s*` or
`(?:€|eur)?\s*` prefix in the surrounding regex does not change the capture.) -/
def firstNumCapture : List Char → Option (List Char)
  | [] => none
  | c :: rest =>
    if isDigit c then
      let run := c :: rest.takeWhile isDigit
      let tail := rest.drop (run.length - 1)
      match tail with
      | s :: tail2 =>
        let run2 := tail2.takeWhile isDigit
        if isSepChar s && !run2.isEmpty then some (run ++ s :: run2) else some run
      | [] => some run
    else firstNumCapture rest

/-- First capture of `/(\d+[.,]\d{2,})/`: a digit run directly followed by a
separator and at least two digits.  The scan advances one position on failure
exactly as a regex engine does (positions inside a failed run fail for the
same reason). -/
def firstDecimal2Capture : List Char → Option (List Char)
  | [] => none
  | c :: rest =>
    if isDigit c then
      let run := c :: rest.takeWhile isDigit
      let tail := rest.drop (run.length - 1)
      match tail with
      | s :: tail2 =>
        let run2 := tail2.takeWhile isDigit
        if isSepChar s && 2 ≤ run2.length then some (run ++ s :: run2)
        else firstDecimal2Capture rest
      | [] => none
    else firstDecimal2Capture rest

/-- The per-cell fee extraction of `extractShippingFee` (README lines
655–668, 673–690): the € pattern first, then the plain decimal pattern, each
accepted only when the parsed value is truthy and positive. -/
def cellFee (cell : String) : Option JsNum :=
  let text := jsTrim cell
  let first :=
    match firstNumCapture text.toList with
    | some cap =>
      match parsePrice (String.mk cap) false with
      | some v => if 0 < v then some v else none
      | none => none
    | none => none
  match first with
  | some v => some v
  | none =>
    match firstDecimal2Capture text.toList with
    | some cap =>
      match parsePrice (String.mk cap) false with
      | some v => if 0 < v then some v else none
      | none => none
    | none => none

structure ColumnMap where
  sku : Option ℕ := none
  description : Option ℕ := none
  quantity : Option ℕ := none
  unitPrice : Option ℕ := none
  total : Option ℕ := none
  expDate : Option ℕ := none
  deriving DecidableEq

/-- `extractShippingFee` (README lines 648–699). -/
def extractShippingFee (row : List String) (columnMap : ColumnMap) : JsNum :=
  let fromTotal :=
    match columnMap.total with
    | some ti =>
      let cell := row.getD ti ""
      if cell ≠ "" then cellFee cell else none
    | none => none
  match fromTotal with
  | some v => v
  | none =>
    match row.findSome? (fun cell => if cell ≠ "" then cellFee cell else none) with
    | some v => v
    | none => 0

end PythonTableParser

namespace PythonTableParser

/-- `/^(IAF|FITT|YAM|SW)[A-Z0-9]*\d+/.test` (inferColumnsFromData). -/
def skuTestSW (s : String) : Bool :=
  (jsStartsWith s "IAF" && wordStarDigit (s.toList.drop 3)) ||
  (jsStartsWith s "FITT" && wordStarDigit (s.toList.drop 4)) ||
  (jsStartsWith s "YAM" && wordStarDigit (s.toList.drop 3)) ||
  (jsStartsWith s "SW" && wordStarDigit (s.toList.drop 2))

/-- `/^[A-Za-z0-9\-_.]{3,}$/.test(val) && !/^\d+$/.test(val)`. -/
def genericCodeTest (s : String) : Bool :=
  (3 ≤ s.toList.length && s.toList.all (fun c =>
    isDigit c || isUpperAZ c || isLowerAZ c || c = '-' || c = '_' || c = '.')) &&
  !(!s.toList.isEmpty && s.toList.all isDigit)

/-- `/^\d+(?:[.,]\d+)?$/.test`. -/
def qtyShapeTest (s : String) : Bool :=
  let cs := s.toList
  let ds := cs.takeWhile isDigit
  !ds.isEmpty &&
    (match cs.drop ds.length with
     | [] => true
     | sep :: rest => isSepChar sep && !rest.isEmpty && rest.all isDigit)

/-- `/^-?\d+[.,]\d{2,}$/.test`. -/
def priceStrict2Test (s : String) : Bool :=
  let cs := match s.toList with
    | '-' :: rest => rest
    | cs => cs
  let ds := cs.takeWhile isDigit
  !ds.isEmpty &&
    (match cs.drop ds.length with
     | sep :: rest => isSepChar sep && 2 ≤ rest.length && rest.all isDigit
     | [] => false)

/-- `/^€?\s*-?\d+[.,]?\d*$/.test`. -/
def euroNumShapeTest (s : String) : Bool :=
  let cs := match s.toList with
    | '€' :: rest => rest
    | cs => cs
  numShape (cs.dropWhile isJsSpace)

/-- The already-assigned column indices, `Object.values(columnMap)`. -/
def ColumnMap.values (cm : ColumnMap) : List ℕ :=
  [cm.sku, cm.description, cm.quantity, cm.unitPrice, cm.total, cm.expDate].filterMap id

/-- `inferColumnsFromData` (README lines 769–819).  The 60% / 80% thresholds
are exact here: with at most five sample values the floating-point products
`values.length * 0.6` and `* 0.8` admit the same integer comparisons as the
rational ones. -/
def inferColumnsFromData (dataRows : List (List String)) (cm0 : ColumnMap) : ColumnMap :=
  match dataRows with
  | [] => cm0
  | firstRow :: _ =>
    let sampleRows := dataRows.take 5
    (List.range firstRow.length).foldl
      (fun cm col =>
        if cm.values.contains col then cm
        else
          let values := sampleRows.filterMap (fun row =>
            if col < row.length then some (jsTrim (row.getD col "")) else none)
          if values.isEmpty then cm
          else
            let n := values.length
            if 3 * n ≤ 5 * (values.filter skuTestSW).length then
              { cm with sku := some col }
            else if (match cm.sku with
                | none => true
                | some i => decide (i = 0)) &&
                3 * n ≤ 5 * (values.filter genericCodeTest).length then
              -- `!columnMap.sku` is truthiness: index 0 counts as unset
              { cm with sku := some col }
            else if 4 * n ≤ 5 * (values.filter qtyShapeTest).length then
              { cm with quantity := some col }
            else if 3 * n ≤ 5 * (values.filter
                (fun v => priceStrict2Test v || euroNumShapeTest v)).length then
              if cm.unitPrice = none then { cm with unitPrice := some col }
              else if cm.total = none then { cm with total := some col }
              else cm
            else cm)
      cm0

/-- `identifyColumns` (README lines 707–762): later headers overwrite earlier
assignments of the same field; fewer than three mapped fields trigger the
data-based inference. -/
def identifyColumns (headers : List String) (dataRows : List (List String)) : ColumnMap :=
  let cm := headers.enum.foldl
    (fun (cm : ColumnMap) (p : ℕ × String) =>
      let normalized := jsToLower p.2
      if jsIncludes normalized "item" || jsIncludes normalized "sku" ||
          jsIncludes normalized "code" || jsIncludes normalized "réf" ||
          jsIncludes normalized "ref" then
        { cm with sku := some p.1 }
      else if jsIncludes normalized "description" || jsIncludes normalized "libell" ||
          jsIncludes normalized "product" || jsIncludes normalized "name" then
        { cm with description := some p.1 }
      else if jsIncludes normalized "qty" || jsIncludes normalized "quantity" ||
          normalized = "q." || jsStartsWith normalized "q " then
        { cm with quantity := some p.1 }
      else if (jsIncludes normalized "unit" && jsIncludes normalized "price") ||
          jsIncludes normalized "unit price" || normalized = "pu" then
        { cm with unitPrice := some p.1 }
      else if jsIncludes normalized "amount" || jsIncludes normalized "total" ||
          jsIncludes normalized "prix ht" || jsIncludes normalized "montant ht" then
        { cm with total := some p.1 }
      else if jsIncludes normalized "exp" && jsIncludes normalized "date" then
        { cm with expDate := some p.1 }
      else cm)
    {}
  if cm.values.length < 3 then inferColumnsFromData dataRows cm else cm

/-- `isHeaderRow` (README lines 827–835). -/
def isHeaderRow (row : List String) (headers : List String) : Bool :=
  headers.length = row.length &&
    (headers.zip row).all (fun p => jsToLower p.1 = jsToLower p.2)

/-- `parseRow` (README lines 844–910): a row yields an item only when both a
sku and a truthy quantity were extracted; with a unit price present the total
is always recomputed as `round2(unitPrice * quantity)`, otherwise a parsed
total back-derives the unit price at 4 decimals. -/
def parseRow (row : List String) (columnMap : ColumnMap) (isSwansonTable : Bool) :
    Option PyLineItem :=
  let skuF : Option String :=
    match columnMap.sku with
    | some i =>
      let cell := row.getD i ""
      if cell ≠ "" then
        let skuValue := jsTrim cell
        if skuValue ≠ "" then some skuValue else none
      else none
    | none => none
  let descF : Option String :=
    match columnMap.description with
    | some i =>
      let cell := row.getD i ""
      if cell ≠ "" then some (jsTrim cell) else none
    | none => none
  let qtyF : Option JsNum :=
    match columnMap.quantity with
    | some i =>
      let cell := row.getD i ""
      if cell ≠ "" then
        -- `qtyValue.replace(/\s/g, '').replace(',', '.')` then `parseFloat`
        jsParseFloat (replaceFirstChar (removeChars (jsTrim cell) isJsSpace) ',' '.')
      else none
    | none => none
  let priceAt : Option ℕ → Option JsNum := fun c =>
    match c with
    | some i =>
      let cell := row.getD i ""
      if cell ≠ "" then parsePrice (jsTrim cell) isSwansonTable else none
    | none => none
  let unitF := priceAt columnMap.unitPrice
  let totF := priceAt columnMap.total
  match skuF, qtyF with
  | some sku, some qty =>
    if qty ≠ 0 then
      match unitF with
      | some u =>
        some { supplierSku := some sku, description := descF, quantity := some qty,
               unitPrice := some u, total := some (round2 (u * qty)) }
      | none =>
        match totF with
        | some t =>
          some { supplierSku := some sku, description := descF, quantity := some qty,
                 unitPrice := some (round4 (t / qty)), total := some t }
        | none =>
          some { supplierSku := some sku, description := descF, quantity := some qty }
    else none
  | _, _ => none

end PythonTableParser

namespace PythonTableParser

def splitLines (cell : String) : List String :=
  (splitOnChar '\x0a' cell.toList).map String.mk

/-- `isYamamotoFormat` (README lines 482–502): exactly two rows, with at
least three of the second row's first eight cells containing newlines. -/
def isYamamotoFormat (dataRows : List (List String)) : Bool :=
  dataRows.length = 2 &&
    (let dataRow := dataRows.getD 1 []
     3 ≤ ((dataRow.take 8).filter
       (fun cell => cell ≠ "" && jsIncludes cell "\x0a")).length)

/-- `parseYamamotoFormat` (README lines 509–597): explode the single data row
into newline-separated columns; the emitted total is the calculated
`round2(quantity * unitPrice)` (the parsed amount is only computed for
logging). -/
def parseYamamotoFormat (dataRows : List (List String)) : List PyLineItem :=
  if dataRows.length < 2 then []
  else
    let dataRow := dataRows.getD 1 []
    let colAt := fun (i : ℕ) =>
      let c := dataRow.getD i ""
      if c ≠ "" then splitLines c else []
    let skus := colAt 0
    let descriptions := colAt 1
    let quantities := colAt 3
    let unitPrices := colAt 4
    let amounts := colAt 6
    let itemCount := min (min skus.length quantities.length)
      (min unitPrices.length amounts.length)
    (List.range itemCount).filterMap (fun i =>
      let sku := jsTrim (skus.getD i "")
      if sku = "" || !skuTest sku then none
      else
        let description :=
          if i < descriptions.length then
            let d := jsTrim (descriptions.getD i "")
            if i + 1 < descriptions.length then
              let nextLine := jsTrim (descriptions.getD (i + 1) "")
              if jsIncludes nextLine "tariff:" || jsIncludes nextLine "Custom" ||
                  jsIncludes nextLine "custom" then
                d ++ " " ++ nextLine
              else d
            else d
          else ""
        let quantityStr := jsTrim (quantities.getD i "")
        let unitPriceStr := jsTrim (unitPrices.getD i "")
        let amountStr := jsTrim (amounts.getD i "")
        match parseYamamotoQuantity quantityStr, parsePrice unitPriceStr true with
        | some quantity, some unitPrice =>
          let calculatedTotal := round2 (quantity * unitPrice)
          let _parsedTotal := parsePrice amountStr true
          some { supplierSku := some sku, description := some description,
                 quantity := some quantity, unitPrice := some unitPrice,
                 total := some calculatedTotal }
        | _, _ => none)

/-- `isRabekoFormat` (README lines 1117–1151). -/
def isRabekoFormat (headers : List String) (dataRows : List (List String)) : Bool :=
  (4 ≤ headers.length &&
    (let headerText := jsToLower (String.intercalate " " headers)
     jsIncludes headerText "description" && jsIncludes headerText "quantité" &&
       jsIncludes headerText "unitaire" && jsIncludes headerText "total")) ||
  (2 < dataRows.length &&
    ((dataRows.drop 1).take (min 5 dataRows.length - 1)).any (fun row =>
      4 ≤ row.length &&
        (let description := jsToLower (row.getD 0 "")
         jsIncludes description "zero confiture" || jsIncludes description "sirop zero" ||
           jsIncludes description "sauce zero" || jsIncludes description "choco sirop" ||
           jsIncludes description "salted caramel")))

structure RabekoMap where
  description : Option ℕ := none
  quantity : Option ℕ := none
  unitPrice : Option ℕ := none
  vat : Option ℕ := none
  total : Option ℕ := none
  deriving DecidableEq

/-- `parseRabekoFormat` (README lines 1159–1270): note that a parsed total
from the table's own total column is kept as-is (not recomputed), and items
get a pseudo-SKU generated from the description. -/
def parseRabekoFormat (dataRows : List (List String)) (headers : List String) :
    List PyLineItem :=
  if dataRows.length < 2 then []
  else
    let cm := headers.enum.foldl
      (fun (cm : RabekoMap) (p : ℕ × String) =>
        let normalized := jsToLower p.2
        if jsIncludes normalized "description" then { cm with description := some p.1 }
        else if jsIncludes normalized "quantité" then { cm with quantity := some p.1 }
        else if jsIncludes normalized "unitaire" then { cm with unitPrice := some p.1 }
        else if jsIncludes normalized "tva" then { cm with vat := some p.1 }
        else if jsIncludes normalized "total" then { cm with total := some p.1 }
        else cm)
      {}
    (dataRows.drop 1).filterMap (fun row =>
      if row.all (fun cell => cell = "" || jsTrim cell = "") then none
      else
        let description :=
          match cm.description with
          | some i =>
            let c := row.getD i ""
            if c ≠ "" then jsTrim c else ""
          | none => ""
        if description = "" then none
        else if jsIncludes (jsToLower description) "transport" then none
        else
          let quantity : JsNum :=
            match cm.quantity with
            | some i =>
              let c := row.getD i ""
              if c ≠ "" then
                match jsParseInt (String.mk (removeFirstComma (jsTrim c).toList)) with
                | some v => if 0 < v then JsNum.ofInt v else 1
                | none => 1
              else 1
            | none => 1
          let unitPrice : JsNum :=
            match cm.unitPrice with
            | some i =>
              let c := row.getD i ""
              if c ≠ "" then (parsePrice (jsTrim c) true).getD 0 else 0
            | none => 0
          let total : JsNum :=
            match cm.total with
            | some i =>
              let c := row.getD i ""
              if c ≠ "" then (parsePrice (jsTrim c) true).getD 0
              else round2 (quantity * unitPrice)
            | none => round2 (quantity * unitPrice)
          if quantity = 0 && unitPrice = 0 && total = 0 then none
          else
            some { supplierSku := some (generatePseudoSku description),
                   description := some description, quantity := some quantity,
                   unitPrice := some unitPrice, total := some total })

/-- `parseTableForLineItems` (README lines 407–475). -/
def parseTableForLineItems (table : PyTable) : List PyLineItem :=
  let headers := table.headers
  let dataRows := table.data
  if isYamamotoFormat dataRows then parseYamamotoFormat dataRows
  else if isRabekoFormat headers dataRows then parseRabekoFormat dataRows headers
  else
    let columnMap := identifyColumns headers dataRows
    let isSwansonTable := headers.any (fun h =>
      jsIncludes (jsToLower h) "exp. date" || jsIncludes (jsToLower h) "unit price")
    let isAddictTable := headers.any (fun h =>
      let hl := jsToLower h
      jsIncludes hl "libell" || jsIncludes hl "prix ht" || hl = "pu" || hl = "q.")
    dataRows.enum.filterMap (fun (p : ℕ × List String) =>
      if p.1 = 0 && isHeaderRow p.2 headers then none
      else if isSwansonTable && isShippingRow p.2 then
        -- the fee extracted here is discarded (shipping is metadata-level)
        let _shippingFee := extractShippingFee p.2 columnMap
        none
      else
        match parseRow p.2 columnMap isSwansonTable with
        | some lineItem =>
          if isAddictTable then
            match lineItem.unitPrice, lineItem.quantity with
            | some u, some q => some { lineItem with total := some (round2 (u * q)) }
            | _, _ => some lineItem
          else some lineItem
        | none => none)

end PythonTableParser

namespace PythonTableParser

/-- First match of `/(\d{4})[\/\-\.](\d{1,2})[\/\-\.](\d{1,2})/` with the
greedy `{1,2}` backtracking order (two digits first, then one). -/
def findDateYMDLoose (s : String) : Option (String × String × String) :=
  go s.toList
where
  isDateSep (c : Char) : Bool := c = '/' || c = '-' || c = '.'
  grab (cs : List Char) (n : ℕ) : Option (List Char × List Char) :=
    let ds := cs.take n
    if ds.length = n && ds.all isDigit then some (ds, cs.drop n) else none
  tryAt (cs : List Char) : Option (String × String × String) :=
    match grab cs 4 with
    | none => none
    | some (year, r1) =>
      match r1 with
      | sep1 :: r2 =>
        if isDateSep sep1 then
          ([2, 1] : List ℕ).findSome? (fun ml =>
            match grab r2 ml with
            | none => none
            | some (month, r3) =>
              match r3 with
              | sep2 :: r4 =>
                if isDateSep sep2 then
                  ([2, 1] : List ℕ).findSome? (fun dl =>
                    match grab r4 dl with
                    | some (day, _) =>
                      some (String.mk year, String.mk month, String.mk day)
                    | none => none)
                else none
              | [] => none)
        else none
      | [] => none
  go : List Char → Option (String × String × String)
    | [] => none
    | c :: cs =>
      match tryAt (c :: cs) with
      | some r => some r
      | none => go cs

/-- The character class `[A-Z0-9\-_]` under the `/i` flag. -/
def isInvNumChar (c : Char) : Bool :=
  isDigit c || isUpperAZ c || isLowerAZ c || c = '-' || c = '_'

/-- Case-insensitive literal-word match (the word given lowercase), returning
the remainder. -/
def ciPrefix : List Char → List Char → Option (List Char)
  | [], cs => some cs
  | _ :: _, [] => none
  | a :: as', c :: cs => if jsToLowerChar c = a then ciPrefix as' cs else none

/-- `[\s:]*([A-Z0-9\-_]+)` with `/i`: skip spaces and colons, then a
non-empty run of the class is the capture. -/
def captureAfter (cs : List Char) : Option (List Char) :=
  let rest := cs.dropWhile (fun c => isJsSpace c || c = ':')
  let run := rest.takeWhile isInvNumChar
  if run.isEmpty then none else some run

/-- One position of `/(?:invoice|no\.?|n\.?|number)[\s:]*([A-Z0-9\-_]+)/i`:
the alternatives are tried in order; the optional dot is consumed when
present (backtracking to the dotless branch cannot succeed, since a leading
dot matches neither `[\s:]` nor the capture class). -/
def invAltAt (cs : List Char) : Option (List Char) :=
  let afterDot := fun (r : List Char) =>
    match r with
    | '.' :: r2 => r2
    | _ => r
  match (ciPrefix "invoice".toList cs).bind captureAfter with
  | some cap => some cap
  | none =>
    match (ciPrefix "no".toList cs).map afterDot |>.bind captureAfter with
    | some cap => some cap
    | none =>
      match (ciPrefix "n".toList cs).map afterDot |>.bind captureAfter with
      | some cap => some cap
      | none => (ciPrefix "number".toList cs).bind captureAfter

/-- First capture of `/(?:invoice|no\.?|n\.?|number)[\s:]*([A-Z0-9\-_]+)/i`. -/
def findInvoiceNumber1 : List Char → Option (List Char)
  | [] => none
  | c :: cs =>
    match invAltAt (c :: cs) with
    | some cap => some cap
    | none => findInvoiceNumber1 cs

/-- First capture of `/No:[\s]*([A-Z0-9\-_]+)/i`. -/
def findInvoiceNumber2 : List Char → Option (List Char)
  | [] => none
  | c :: cs =>
    (match ciPrefix "no:".toList (c :: cs) with
     | some r =>
       let rest := r.dropWhile isJsSpace
       let run := rest.takeWhile isInvNumChar
       if run.isEmpty then none else some run
     | none => none).orElse
      (fun _ => findInvoiceNumber2 cs)

/-- The mutable metadata of `extractMetadataFromTables`. -/
structure MetaState where
  date : Option String := none
  num : Option String := none
  maxFee : JsNum := 0
  deriving DecidableEq

/-- One cell of the header-driven shipping scan (README lines 1010–1024). -/
def headerShipCellStep (st : MetaState) (cell : String) : MetaState :=
  let cellText := jsTrim cell
  match firstDecimal2Capture cellText.toList with
  | some cap =>
    match parsePrice (String.mk cap) false with
    | some v => if v ≠ 0 && st.maxFee < v then { st with maxFee := v } else st
    | none => st
  | none => st

/-- One cell of the shipping-row scan (README lines 1028–1055). -/
def shipRowCellStep (st : MetaState) (cell : String) : MetaState :=
  let cellText := jsTrim cell
  match firstNumCapture cellText.toList with
  | some cap =>
    match parsePrice (String.mk cap) false with
    | some v => if v ≠ 0 && st.maxFee < v then { st with maxFee := v } else st
    | none => st
  | none =>
    -- `else if (!euroMatch)`: the plain pattern has the same capture, so this
    -- 10–200 range branch can never fire; kept for fidelity
    match firstNumCapture cellText.toList with
    | some cap =>
      match parsePrice (String.mk cap) false with
      | some v =>
        if v ≠ 0 && 10 ≤ v && v ≤ 200 && st.maxFee < v then { st with maxFee := v }
        else st
      | none => st
    | none => st

/-- One cell of the date / invoice-number / shipping-keyword scan (README
lines 1058–1102).  `new Date(s)` is modelled by its argument string. -/
def metaCellStep (st : MetaState) (cell : String) : MetaState :=
  let cellText := jsTrim cell
  let st :=
    match st.date with
    | some _ => st
    | none =>
      match findDateLoose cellText with
      | some (m1, m2, m3) => { st with date := some (m3 ++ "-" ++ m2 ++ "-" ++ m1) }
      | none =>
        match findDateYMDLoose cellText with
        | some (m1, m2, m3) => { st with date := some (m1 ++ "-" ++ m2 ++ "-" ++ m3) }
        | none => st
  let st :=
    match st.num with
    | some _ => st
    | none =>
      match (match findInvoiceNumber1 cellText.toList with
             | some cap => some cap
             | none => findInvoiceNumber2 cellText.toList) with
      | some cap => { st with num := some (String.mk cap) }
      | none => st
  let lowerText := jsToLower cellText
  if jsIncludes lowerText "shipping" || jsIncludes lowerText "spedizione" ||
      jsIncludes lowerText "envío" || jsIncludes lowerText "livraison" ||
      jsIncludes lowerText "transport" || jsIncludes lowerText "fracht" ||
      jsIncludes lowerText "frais" then
    match firstDecimal2Capture cellText.toList with
    | some cap =>
      match parsePrice (String.mk cap) false with
      | some v => if v ≠ 0 && st.maxFee < v then { st with maxFee := v } else st
      | none => st
    | none => st
  else st

/-- `extractMetadataFromTables` (README lines 1000–1109); `if (table.headers)`
is always taken since arrays are truthy in JavaScript. -/
def extractMetadataFromTables (tables : List PyTable) : MetaState :=
  tables.foldl
    (fun st table =>
      let st :=
        let headerText := jsToLower (String.intercalate " " table.headers)
        if jsIncludes headerText "shipping" || jsIncludes headerText "spedizione" then
          table.data.foldl (fun st row => row.foldl headerShipCellStep st) st
        else st
      let st := table.data.foldl
        (fun st row => if isShippingRow row then row.foldl shipRowCellStep st else st) st
      table.data.foldl (fun st row => row.foldl metaCellStep st) st)
    {}

structure PyParsedData where
  supplierInfo : SupplierInfo := {}
  invoiceMetadata : InvoiceMetadata
  lineItems : List PyLineItem
  deriving DecidableEq

/-- `convertTablesToInvoiceData` (README lines 373–400). -/
def convertTablesToInvoiceData (tables : List PyTable) : PyParsedData :=
  let lineItems := (tables.map parseTableForLineItems).flatten
  let meta := extractMetadataFromTables tables
  { supplierInfo := {}
    invoiceMetadata :=
      { currency := "EUR"
        shippingFee := if 0 < meta.maxFee then meta.maxFee else 0
        invoiceDate := meta.date
        invoiceNumber := meta.num }
    lineItems := lineItems }

/-- The python result envelope (data is python-shaped). -/
structure PyExtractionOutcome where
  success : Bool
  data : Option PyParsedData := none
  error : Option String := none
  deriving DecidableEq

/-- `PythonTableParser.parse` (README lines 335–365): `none` models a result
with no `tables` field. -/
def parse (tableResult : Option (List PyTable)) : PyExtractionOutcome :=
  match tableResult with
  | none => { success := false, error := some "No tables found in PDF using Python extraction" }
  | some tables =>
    if tables.isEmpty then
      { success := false, error := some "No tables found in PDF using Python extraction" }
    else { success := true, data := some (convertTablesToInvoiceData tables) }

end PythonTableParser

/-! ### The orchestrator `parseInvoiceFromPdf` (pdfParsing.server.ts 144–216) -/

/-- Outcome of `extractStructuredText` as consumed by the orchestrator. -/
structure ExtractionOutcome where
  success : Bool
  textLines : Option (List TextLine) := none
  error : Option String := none
  deriving DecidableEq

/-- The orchestrator's result is either the python-shaped result returned
as-is, or a strategy result. -/
inductive OrchestratorResult where
  | python (r : PythonTableParser.PyExtractionOutcome)
  | js (r : PdfExtractionResult)
  deriving DecidableEq

/-- Dispatch on the selected strategy. -/
def runStrategy (k : ParserKind) (textLines : List TextLine) : PdfExtractionResult :=
  match k with
  | ParserKind.yamamoto => YamamotoParser.parse textLines
  | ParserKind.bolero => BoleroParser.parse textLines
  | ParserKind.swanson => SwansonParser.parse textLines
  | ParserKind.maiavie => MaiavieParser.parse textLines
  | ParserKind.addict => AddictParser.parse textLines
  | ParserKind.generic => GenericParser.parse textLines

/-- `parseInvoiceFromPdf` (lines 144–216) as a pure function of the supplier
name, the python flag, the python backend's table output and the text
extractor's output (the two out-of-process calls). -/
def parseInvoiceFromPdf (supplierName : String) (usePythonParser : Bool)
    (pythonTables : Option (List PythonTableParser.PyTable))
    (extractionResult : ExtractionOutcome) : OrchestratorResult :=
  let lowerName := jsToLower supplierName
  let forcePythonParser :=
    jsIncludes lowerName "yamamoto" || jsIncludes lowerName "iaf" ||
      jsIncludes lowerName "swanson" || jsIncludes lowerName "rabeko"
  let pythonStage : Option OrchestratorResult :=
    if usePythonParser || forcePythonParser then
      let result := PythonTableParser.parse pythonTables
      if forcePythonParser then some (OrchestratorResult.python result)
      else if result.success &&
          (match result.data with
           | some d => !d.lineItems.isEmpty
           | none => false) then
        some (OrchestratorResult.python result)
      else none
    else none
  match pythonStage with
  | some r => r
  | none =>
    if !extractionResult.success || extractionResult.textLines = none then
      OrchestratorResult.js
        { success := false
          error := some
            (match extractionResult.error with
             | some e => if e ≠ "" then e else "Failed to extract text from PDF"
             | none => "Failed to extract text from PDF") }
    else
      match extractionResult.textLines with
      | some textLines =>
        OrchestratorResult.js (runStrategy (selectParser supplierName) textLines)
      | none => OrchestratorResult.js { success := false }

/-! ### Auxiliary lemmas on characters, lists and the string primitives -/

theorem isDigit_not_space {c : Char} (h : isDigit c = true) : isJsSpace c = false := by
  simp only [isDigit, Bool.and_eq_true, decide_eq_true_eq] at h
  obtain ⟨h1, h2⟩ := h
  rw [Char.le_def, UInt32.le_def, BitVec.le_def] at h1 h2
  have e0 : ('0' : Char).val.toBitVec.toNat = 48 := rfl
  have e9 : ('9' : Char).val.toBitVec.toNat = 57 := rfl
  rw [e0] at h1
  rw [e9] at h2
  simp only [isJsSpace, Bool.or_eq_false_iff, decide_eq_false_iff_not]
  refine ⟨⟨⟨⟨⟨⟨⟨?_, ?_⟩, ?_⟩, ?_⟩, ?_⟩, ?_⟩, ?_⟩, ?_⟩ <;>
    (first
      | (intro hc; subst hc; revert h1 h2; decide)
      | (intro hc; exact absurd (show c.val.toBitVec.toNat = _ from hc) (by omega)))

theorem isDigit_not_sep {c : Char} (h : isDigit c = true) : isSepChar c = false := by
  simp only [isDigit, Bool.and_eq_true, decide_eq_true_eq] at h
  obtain ⟨h1, h2⟩ := h
  rw [Char.le_def, UInt32.le_def, BitVec.le_def] at h1 h2
  have e0 : ('0' : Char).val.toBitVec.toNat = 48 := rfl
  have e9 : ('9' : Char).val.toBitVec.toNat = 57 := rfl
  rw [e0] at h1
  rw [e9] at h2
  simp only [isSepChar, Bool.or_eq_false_iff, decide_eq_false_iff_not]
  constructor <;> (intro hc; subst hc; revert h1 h2; decide)

theorem isDigit_ne_dash {c : Char} (h : isDigit c = true) : c ≠ '-' := by
  intro hc
  subst hc
  exact absurd h (by decide)

theorem isSep_not_space {c : Char} (h : isSepChar c = true) : isJsSpace c = false := by
  simp only [isSepChar, Bool.or_eq_true, decide_eq_true_eq] at h
  rcases h with h | h <;> subst h <;> decide

theorem isSep_ne_dash {c : Char} (h : isSepChar c = true) : c ≠ '-' := by
  simp only [isSepChar, Bool.or_eq_true, decide_eq_true_eq] at h
  rcases h with h | h <;> subst h <;> decide

theorem toList_mk (cs : List Char) : (String.mk cs).toList = cs := rfl

theorem dropWhile_eq_self_of {p : Char → Bool} {l : List Char}
    (h : ∀ c ∈ l, p c = false) : l.dropWhile p = l := by
  cases l with
  | nil => rfl
  | cons c cs => simp [List.dropWhile_cons, h c (List.mem_cons_self c cs)]

theorem jsTrim_eq_self {cs : List Char} (h : ∀ c ∈ cs, isJsSpace c = false) :
    jsTrim (String.mk cs) = String.mk cs := by
  unfold jsTrim
  rw [toList_mk, dropWhile_eq_self_of h, dropWhile_eq_self_of, List.reverse_reverse]
  intro c hc
  exact h c (List.mem_reverse.mp hc)

theorem startsWith_dash_eq_false {cs : List Char} (h : ∀ c ∈ cs, c ≠ '-') :
    jsStartsWith (String.mk cs) "-" = false := by
  unfold jsStartsWith
  rw [toList_mk]
  cases cs with
  | nil => rfl
  | cons c cs =>
    show (('-' = c : Bool) && List.isPrefixOf [] cs) = false
    simp [h c (List.mem_cons_self c cs), Ne.symm (h c (List.mem_cons_self c cs))]

theorem takeWhile_eq_self_of {p : Char → Bool} {l : List Char}
    (h : ∀ c ∈ l, p c = true) : l.takeWhile p = l := by
  induction l with
  | nil => rfl
  | cons c cs ih =>
    simp only [List.takeWhile_cons, h c (List.mem_cons_self c cs), if_true]
    rw [ih (fun d hd => h d (List.mem_cons_of_mem c hd))]

theorem takeWhile_append_of {p : Char → Bool} {l1 l2 : List Char} {x : Char}
    (h1 : ∀ c ∈ l1, p c = true) (hx : p x = false) :
    (l1 ++ x :: l2).takeWhile p = l1 := by
  induction l1 with
  | nil => simp [List.takeWhile_cons, hx]
  | cons c cs ih =>
    simp only [List.cons_append, List.takeWhile_cons,
      h1 c (List.mem_cons_self c cs), if_true]
    rw [ih (fun d hd => h1 d (List.mem_cons_of_mem c hd))]

theorem filter_eq_nil_of {p : Char → Bool} {l : List Char}
    (h : ∀ c ∈ l, p c = false) : l.filter p = [] := by
  induction l with
  | nil => rfl
  | cons c cs ih =>
    simp only [List.filter_cons, h c (List.mem_cons_self c cs)]
    exact ih (fun d hd => h d (List.mem_cons_of_mem c hd))

theorem listIncludes_infix_iff {hay needle : List Char} :
    listIncludes hay needle = true ↔ needle <:+: hay := by
  unfold listIncludes
  rw [List.any_eq_true]
  constructor
  · rintro ⟨i, _, hpre⟩
    rw [List.isPrefixOf_iff_prefix] at hpre
    obtain ⟨t, ht⟩ := hpre
    exact ⟨hay.take i, t, by rw [List.append_assoc, ht, List.take_append_drop]⟩
  · rintro ⟨s, t, hst⟩
    refine ⟨s.length, ?_, ?_⟩
    · rw [List.mem_range]
      have : s.length ≤ hay.length := by
        rw [← hst]
        simp only [List.length_append]
        omega
      omega
    · rw [List.isPrefixOf_iff_prefix, ← hst, List.append_assoc, List.drop_left]
      exact ⟨t, rfl⟩

theorem listIncludes_single_of_mem {hay : List Char} {c : Char} (h : c ∈ hay) :
    listIncludes hay [c] = true := by
  rw [listIncludes_infix_iff]
  obtain ⟨s, t, rfl⟩ := List.append_of_mem h
  exact ⟨s, t, by simp⟩

theorem splitSeps_go_no_sep {l : List Char} (h : ∀ c ∈ l, isSepChar c = false) :
    splitSeps.go l = [l] := by
  induction l with
  | nil => rfl
  | cons c cs ih =>
    unfold splitSeps.go
    rw [h c (List.mem_cons_self c cs)]
    simp only [Bool.false_eq_true, if_false]
    rw [ih (fun d hd => h d (List.mem_cons_of_mem c hd))]

theorem splitSeps_go_append {l1 l2 : List Char} {s : Char}
    (h1 : ∀ c ∈ l1, isSepChar c = false) (hs : isSepChar s = true) :
    splitSeps.go (l1 ++ s :: l2) = l1 :: splitSeps.go l2 := by
  induction l1 with
  | nil =>
    rw [List.nil_append]
    unfold splitSeps.go
    rw [hs]
    simp only [if_true]
    exact congrArg (List.cons []) (splitSeps.go.eq_def l2)
  | cons c cs ih =>
    rw [List.cons_append]
    unfold splitSeps.go
    rw [h1 c (List.mem_cons_self c cs)]
    simp only [Bool.false_eq_true, if_false]
    rw [ih (fun d hd => h1 d (List.mem_cons_of_mem c hd))]
    show (c :: cs) :: splitSeps.go l2 = _
    exact congrArg (List.cons (c :: cs)) (splitSeps.go.eq_def l2)

theorem lastIdxOf_go_of_not_mem {c : Char} {l : List Char} {i best : ℤ}
    (h : c ∉ l) : lastIdxOf.go c l i best = best := by
  induction l generalizing i best with
  | nil => rfl
  | cons d ds ih =>
    unfold lastIdxOf.go
    have hd : d ≠ c := fun hdc => h (hdc ▸ List.mem_cons_self d ds)
    rw [if_neg hd]
    exact ih (fun hm => h (List.mem_cons_of_mem d hm))

theorem lastIdxOf_go_append {c : Char} {l1 l2 : List Char} {i best : ℤ} :
    lastIdxOf.go c (l1 ++ l2) i best =
      lastIdxOf.go c l2 (i + l1.length) (lastIdxOf.go c l1 i best) := by
  induction l1 generalizing i best with
  | nil => simp [lastIdxOf.go]
  | cons d ds ih =>
    rw [List.cons_append]
    show lastIdxOf.go c (ds ++ l2) (i + 1) (if d = c then i else best) = _
    rw [ih]
    show _ = lastIdxOf.go c l2 (i + ((ds.length : ℤ) + 1))
      (lastIdxOf.go c ds (i + 1) (if d = c then i else best))
    congr 1
    ring

theorem lastIdxOf_go_le {c : Char} {l : List Char} {i best : ℤ} :
    lastIdxOf.go c l i best ≤ max best (i + l.length - 1) := by
  induction l generalizing i best with
  | nil => simp [lastIdxOf.go]
  | cons d ds ih =>
    unfold lastIdxOf.go
    refine le_trans ih ?_
    simp only [List.length_cons]
    by_cases hd : d = c
    · rw [if_pos hd]
      have : (0 : ℤ) ≤ ds.length := Int.ofNat_nonneg _
      omega
    · rw [if_neg hd]
      omega

/-- The last index of the separator `d` in `intPart ++ d :: frac`, when `frac`
avoids `d`, is exactly `intPart.length`. -/
theorem lastIdxOf_junction {intPart frac : List Char} {d : Char}
    (hfrac : d ∉ frac) :
    lastIdxOf (String.mk (intPart ++ d :: frac)) d = intPart.length := by
  unfold lastIdxOf
  rw [toList_mk, lastIdxOf_go_append]
  show lastIdxOf.go d (d :: frac) (0 + intPart.length) _ = _
  unfold lastIdxOf.go
  rw [if_pos rfl, lastIdxOf_go_of_not_mem hfrac]
  omega

/-- Any occurrence-free tail bounds `lastIdxOf` by the prefix length. -/
theorem lastIdxOf_lt_of_tail_free {intPart tail : List Char} {o : Char}
    (htail : o ∉ tail) :
    lastIdxOf (String.mk (intPart ++ tail)) o < intPart.length := by
  unfold lastIdxOf
  rw [toList_mk, lastIdxOf_go_append, lastIdxOf_go_of_not_mem htail]
  have h := @lastIdxOf_go_le o intPart 0 (-1)
  have : (0 : ℤ) ≤ intPart.length := Int.ofNat_nonneg _
  omega

theorem replaceFirst_go_append {l1 l2 : List Char} {target repl : Char}
    (h : ∀ c ∈ l1, c ≠ target) :
    replaceFirstChar.go target repl (l1 ++ target :: l2) = l1 ++ repl :: l2 := by
  induction l1 with
  | nil => simp [replaceFirstChar.go]
  | cons c cs ih =>
    rw [List.cons_append]
    unfold replaceFirstChar.go
    rw [if_neg (h c (List.mem_cons_self c cs)), ih (fun d hd => h d (List.mem_cons_of_mem c hd))]
    rfl

theorem replaceFirst_go_of_not_mem {l : List Char} {target repl : Char}
    (h : target ∉ l) : replaceFirstChar.go target repl l = l := by
  induction l with
  | nil => rfl
  | cons c cs ih =>
    unfold replaceFirstChar.go
    have hc : c ≠ target := fun hct => h (hct ▸ List.mem_cons_self c cs)
    rw [if_neg hc, ih (fun hm => h (List.mem_cons_of_mem c hm))]

theorem isSep_not_digit {c : Char} (h : isSepChar c = true) : isDigit c = false := by
  by_contra hc
  rw [Bool.not_eq_false] at hc
  exact absurd h (by rw [isDigit_not_sep hc]; exact Bool.false_ne_true)

/-- Removing every occurrence of the grouping separator `o` from a token
`intPart · d · frac` leaves the integer digits, the decimal mark and the
fraction. -/
theorem removeChars_junction {intPart frac : List Char} {d o : Char}
    (ho : isSepChar o = true) (hdo : d ≠ o)
    (hint : ∀ c ∈ intPart, isDigit c = true ∨ c = o)
    (hfrac : ∀ c ∈ frac, isDigit c = true) :
    (removeChars (String.mk (intPart ++ d :: frac)) fun c => decide (c = o)) =
      String.mk (intPart.filter isDigit ++ d :: frac) := by
  unfold removeChars
  rw [toList_mk, List.filter_append]
  congr 1
  congr 1
  · apply List.filter_congr
    intro c hc
    rcases hint c hc with h' | h'
    · have hcne : c ≠ o := by
        intro hce
        rw [hce] at h'
        exact absurd h' (by rw [isSep_not_digit ho]; exact Bool.false_ne_true)
      simp [h', hcne]
    · subst h'
      simp [isSep_not_digit ho]
  · rw [List.filter_cons]
    have hfd : (fun c => !decide (c = o)) d = true := by simp [hdo]
    rw [if_pos hfd]
    congr 1
    apply List.filter_eq_self.mpr
    intro c hc
    have hcne : c ≠ o := by
      intro hce
      rw [hce] at hc
      exact absurd (hfrac o hc) (by rw [isSep_not_digit ho]; exact Bool.false_ne_true)
    simp [hcne]

/-- `YamamotoParser.parsePrice` treats the rightmost separator of a
two-separator token as the decimal mark when the rightmost kind occurs only
once: the result equals parsing the canonical de-grouped token. -/
theorem parsePrice_bothSeps (intPart frac : List Char) (d o : Char)
    (hd : isSepChar d = true) (ho : isSepChar o = true) (hdo : d ≠ o)
    (hmem : o ∈ intPart)
    (hint : ∀ c ∈ intPart, isDigit c = true ∨ c = o)
    (hfrac : ∀ c ∈ frac, isDigit c = true) :
    YamamotoParser.parsePrice (String.mk (intPart ++ d :: frac)) =
      YamamotoParser.parsePrice (String.mk (intPart.filter isDigit ++ '.' :: frac)) := by
  have hcsmem : ∀ c ∈ intPart ++ d :: frac, isDigit c = true ∨ isSepChar c = true := by
    intro c hc
    rcases List.mem_append.mp hc with h | h
    · rcases hint c h with h' | h'
      · exact Or.inl h'
      · exact Or.inr (h' ▸ ho)
    · rcases List.mem_cons.mp h with h' | h'
      · exact Or.inr (h' ▸ hd)
      · exact Or.inl (hfrac c h')
  have hcanmem : ∀ c ∈ intPart.filter isDigit ++ '.' :: frac,
      isDigit c = true ∨ isSepChar c = true := by
    intro c hc
    rcases List.mem_append.mp hc with h | h
    · exact Or.inl (List.mem_filter.mp h).2
    · rcases List.mem_cons.mp h with h' | h'
      · exact Or.inr (h' ▸ (by decide))
      · exact Or.inl (hfrac c h')
  have hnospace1 : ∀ c ∈ intPart ++ d :: frac, isJsSpace c = false := fun c hc =>
    (hcsmem c hc).elim isDigit_not_space isSep_not_space
  have hnodash1 : ∀ c ∈ intPart ++ d :: frac, c ≠ '-' := fun c hc =>
    (hcsmem c hc).elim isDigit_ne_dash isSep_ne_dash
  have hnospace2 : ∀ c ∈ intPart.filter isDigit ++ '.' :: frac, isJsSpace c = false :=
    fun c hc => (hcanmem c hc).elim isDigit_not_space isSep_not_space
  have hnodash2 : ∀ c ∈ intPart.filter isDigit ++ '.' :: frac, c ≠ '-' := fun c hc =>
    (hcanmem c hc).elim isDigit_ne_dash isSep_ne_dash
  have hfilterL : (intPart ++ d :: frac).filter isSepChar =
      intPart.filter isSepChar ++ [d] := by
    rw [List.filter_append]
    congr 1
    rw [List.filter_cons, if_pos hd,
      filter_eq_nil_of (fun c hc => isDigit_not_sep (hfrac c hc))]
  have hsepL : 1 < ((intPart ++ d :: frac).filter isSepChar).length := by
    rw [hfilterL, List.length_append]
    have hm : o ∈ intPart.filter isSepChar := List.mem_filter.mpr ⟨hmem, ho⟩
    have := List.length_pos.mpr (List.ne_nil_of_mem hm)
    simp only [List.length_cons, List.length_nil]
    omega
  have hsepR : ¬ (1 < ((intPart.filter isDigit ++ '.' :: frac).filter isSepChar).length) := by
    rw [List.filter_append,
      filter_eq_nil_of (fun c hc => isDigit_not_sep (List.mem_filter.mp hc).2),
      List.filter_cons, if_pos (by decide : isSepChar '.' = true),
      filter_eq_nil_of (fun c hc => isDigit_not_sep (hfrac c hc))]
    simp
  unfold YamamotoParser.parsePrice
  simp only [jsTrim_eq_self hnospace1, jsTrim_eq_self hnospace2,
    startsWith_dash_eq_false hnodash1, startsWith_dash_eq_false hnodash2,
    Bool.false_eq_true, if_false, toList_mk]
  rw [if_pos hsepL, if_neg hsepR]
  have hrep2 : replaceFirstChar (String.mk (intPart.filter isDigit ++ '.' :: frac)) ',' '.' =
      String.mk (intPart.filter isDigit ++ '.' :: frac) := by
    unfold replaceFirstChar
    rw [toList_mk, replaceFirst_go_of_not_mem]
    intro hm
    rcases List.mem_append.mp hm with h | h
    · exact absurd (List.mem_filter.mp h).2 (by decide)
    · rcases List.mem_cons.mp h with h' | h'
      · exact absurd h' (by decide)
      · exact absurd (hfrac ',' h') (by decide)
  conv_rhs => rw [hrep2]
  rw [ite_self]
  have hoor : o = '.' ∨ o = ',' := by
    simpa [isSepChar, decide_eq_true_eq] using ho
  have hdor : d = '.' ∨ d = ',' := by
    simpa [isSepChar, decide_eq_true_eq] using hd
  rcases hdor with hdeq | hdeq
  · have hoeq : o = ',' := by
      rcases hoor with h | h
      · exact absurd (hdeq.trans h.symm) hdo
      · exact h
    subst hdeq
    subst hoeq
    have hdotfrac : '.' ∉ frac := fun hm => absurd (hfrac '.' hm) (by decide)
    have hcommafree : ',' ∉ ('.' :: frac) := by
      intro hm
      rcases List.mem_cons.mp hm with h' | h'
      · exact absurd h' (by decide)
      · exact absurd (hfrac ',' h') (by decide)
    have hlastdot : lastIdxOf (String.mk (intPart ++ '.' :: frac)) '.' = intPart.length :=
      lastIdxOf_junction hdotfrac
    have hlastcomma : lastIdxOf (String.mk (intPart ++ '.' :: frac)) ',' < intPart.length :=
      lastIdxOf_lt_of_tail_free hcommafree
    have hcond1 : (jsIncludes (String.mk (intPart ++ '.' :: frac)) "," &&
        decide (lastIdxOf (String.mk (intPart ++ '.' :: frac)) ',' >
          lastIdxOf (String.mk (intPart ++ '.' :: frac)) '.')) = false := by
      have : ¬ (lastIdxOf (String.mk (intPart ++ '.' :: frac)) ',' >
          lastIdxOf (String.mk (intPart ++ '.' :: frac)) '.') := by
        rw [hlastdot]
        omega
      rw [decide_eq_false this, Bool.and_false]
    have hinc2 : jsIncludes (String.mk (intPart ++ '.' :: frac)) "." = true :=
      listIncludes_single_of_mem
        (List.mem_append.mpr (Or.inr (List.mem_cons_self '.' frac)))
    have hcond2 : (jsIncludes (String.mk (intPart ++ '.' :: frac)) "." &&
        decide (lastIdxOf (String.mk (intPart ++ '.' :: frac)) '.' >
          lastIdxOf (String.mk (intPart ++ '.' :: frac)) ',')) = true := by
      have hgt : lastIdxOf (String.mk (intPart ++ '.' :: frac)) '.' >
          lastIdxOf (String.mk (intPart ++ '.' :: frac)) ',' := by
        rw [hlastdot]
        omega
      rw [hinc2, decide_eq_true hgt]
      rfl
    rw [hcond1]
    simp only [Bool.false_eq_true, if_false]
    rw [hcond2]
    simp only [if_true]
    rw [removeChars_junction (by decide) (by decide) hint hfrac]
  · have hoeq : o = '.' := by
      rcases hoor with h | h
      · exact h
      · exact absurd (hdeq.trans h.symm) hdo
    subst hdeq
    subst hoeq
    have hcommafrac : ',' ∉ frac := fun hm => absurd (hfrac ',' hm) (by decide)
    have hdotfree : '.' ∉ (',' :: frac) := by
      intro hm
      rcases List.mem_cons.mp hm with h' | h'
      · exact absurd h' (by decide)
      · exact absurd (hfrac '.' h') (by decide)
    have hlastcomma : lastIdxOf (String.mk (intPart ++ ',' :: frac)) ',' = intPart.length :=
      lastIdxOf_junction hcommafrac
    have hlastdot : lastIdxOf (String.mk (intPart ++ ',' :: frac)) '.' < intPart.length :=
      lastIdxOf_lt_of_tail_free hdotfree
    have hinc1 : jsIncludes (String.mk (intPart ++ ',' :: frac)) "," = true :=
      listIncludes_single_of_mem
        (List.mem_append.mpr (Or.inr (List.mem_cons_self ',' frac)))
    have hcond1 : (jsIncludes (String.mk (intPart ++ ',' :: frac)) "," &&
        decide (lastIdxOf (String.mk (intPart ++ ',' :: frac)) ',' >
          lastIdxOf (String.mk (intPart ++ ',' :: frac)) '.')) = true := by
      have hgt : lastIdxOf (String.mk (intPart ++ ',' :: frac)) ',' >
          lastIdxOf (String.mk (intPart ++ ',' :: frac)) '.' := by
        rw [hlastcomma]
        omega
      rw [hinc1, decide_eq_true hgt]
      rfl
    rw [hcond1]
    simp only [if_true]
    rw [removeChars_junction (by decide) (by decide) hint hfrac]
    have hrep1 : replaceFirstChar (String.mk (intPart.filter isDigit ++ ',' :: frac)) ',' '.' =
        String.mk (intPart.filter isDigit ++ '.' :: frac) := by
      unfold replaceFirstChar
      rw [toList_mk, replaceFirst_go_append]
      intro c hc
      exact fun hce => absurd (hce ▸ (List.mem_filter.mp hc).2) (by decide)
    rw [hrep1]

/-- `YamamotoParser.parsePrice` treats a single separator followed by exactly
two digits as the decimal mark, whichever separator it is. -/
theorem parsePrice_singleSep (a b : List Char) (s : Char) (hs : isSepChar s = true)
    (ha : ∀ c ∈ a, isDigit c = true) (hb : ∀ c ∈ b, isDigit c = true)
    (hb2 : b.length = 2) :
    YamamotoParser.parsePrice (String.mk (a ++ s :: b)) =
      YamamotoParser.parsePrice (String.mk (a ++ '.' :: b)) := by
  have hmem1 : ∀ c ∈ a ++ s :: b, isDigit c = true ∨ isSepChar c = true := by
    intro c hc
    rcases List.mem_append.mp hc with h | h
    · exact Or.inl (ha c h)
    · rcases List.mem_cons.mp h with h' | h'
      · exact Or.inr (h' ▸ hs)
      · exact Or.inl (hb c h')
  have hmem2 : ∀ c ∈ a ++ '.' :: b, isDigit c = true ∨ isSepChar c = true := by
    intro c hc
    rcases List.mem_append.mp hc with h | h
    · exact Or.inl (ha c h)
    · rcases List.mem_cons.mp h with h' | h'
      · exact Or.inr (h' ▸ (by decide))
      · exact Or.inl (hb c h')
  have hfilt : ∀ (x : Char), isSepChar x = true →
      (a ++ x :: b).filter isSepChar = [x] := by
    intro x hx
    rw [List.filter_append, filter_eq_nil_of (fun c hc => isDigit_not_sep (ha c hc)),
      List.filter_cons, if_pos hx,
      filter_eq_nil_of (fun c hc => isDigit_not_sep (hb c hc))]
    rfl
  have hsplit : ∀ (x : Char), isSepChar x = true →
      splitSeps (String.mk (a ++ x :: b)) = [String.mk a, String.mk b] := by
    intro x hx
    unfold splitSeps
    rw [toList_mk, splitSeps_go_append (fun c hc => isDigit_not_sep (ha c hc)) hx,
      splitSeps_go_no_sep (fun c hc => isDigit_not_sep (hb c hc))]
    rfl
  unfold YamamotoParser.parsePrice
  simp only [jsTrim_eq_self (fun c hc => (hmem1 c hc).elim isDigit_not_space isSep_not_space),
    jsTrim_eq_self (fun c hc => (hmem2 c hc).elim isDigit_not_space isSep_not_space),
    startsWith_dash_eq_false (fun c hc => (hmem1 c hc).elim isDigit_ne_dash isSep_ne_dash),
    startsWith_dash_eq_false (fun c hc => (hmem2 c hc).elim isDigit_ne_dash isSep_ne_dash),
    Bool.false_eq_true, if_false, toList_mk]
  conv_lhs => rw [if_neg (show ¬ (List.filter isSepChar (a ++ s :: b)).length > 1 from by
    rw [hfilt s hs]; simp)]
  conv_rhs => rw [if_neg (show ¬ (List.filter isSepChar (a ++ '.' :: b)).length > 1 from by
    rw [hfilt '.' (by decide)]; simp)]
  rw [hsplit s hs, hsplit '.' (by decide)]
  have hcond : (decide (([String.mk a, String.mk b] : List String).length = 2) &&
      decide ((([String.mk a, String.mk b] : List String).getD 1 "").length = 2)) = true := by
    have hlen : (String.mk b).length = 2 := hb2
    simp [hlen]
  rw [hcond]
  simp only [if_true]
  have hrepR : replaceFirstChar (String.mk (a ++ '.' :: b)) ',' '.' =
      String.mk (a ++ '.' :: b) := by
    unfold replaceFirstChar
    rw [toList_mk, replaceFirst_go_of_not_mem]
    intro hm
    rcases List.mem_append.mp hm with h | h
    · exact absurd (ha ',' h) (by decide)
    · rcases List.mem_cons.mp h with h' | h'
      · exact absurd h' (by decide)
      · exact absurd (hb ',' h') (by decide)
  rw [hrepR]
  have hsor : s = '.' ∨ s = ',' := by simpa [isSepChar, decide_eq_true_eq] using hs
  rcases hsor with hseq | hseq
  · subst hseq
    rw [hrepR]
  · subst hseq
    have hrepL : replaceFirstChar (String.mk (a ++ ',' :: b)) ',' '.' =
        String.mk (a ++ '.' :: b) := by
      unfold replaceFirstChar
      rw [toList_mk, replaceFirst_go_append]
      intro c hc
      exact fun hce => absurd (hce ▸ ha c hc) (by decide)
    rw [hrepL]

set_option maxRecDepth 1000000

/-- C2: the claim as stated is falsified by the cited code: the
`PythonTableParser` normalizer maps the headline token "1.234,56" to 1.23
(the two-separator branch re-joins the comma-split parts without removing the
periods, and `parseFloat` stops at the second period) and "1,234.56" to 1;
and the text normalizer breaks the rightmost-separator rule on a token whose
rightmost separator kind also occurs earlier ("1.234,567.89" yields 1.23, not
1234567.89). -/
theorem c2_price_normalizer_counterexample :
    PythonTableParser.parsePrice "1.234,56" false = some (mkRat 123 100) ∧
    PythonTableParser.parsePrice "1.234,56" false ≠ some (mkRat 123456 100) ∧
    PythonTableParser.parsePrice "1,234.56" false = some 1 ∧
    PythonTableParser.parsePrice "1,234.56" false ≠ some (mkRat 123456 100) ∧
    YamamotoParser.parsePrice "1.234,567.89" = some (mkRat 123 100) ∧
    YamamotoParser.parsePrice "1.234,567.89" ≠ some (mkRat 123456789 100) := by
  refine ⟨by decide, by decide, by decide, by decide, by decide, by decide⟩

/-- C2 (amended): for the text-based normalizer `YamamotoParser.parsePrice`,
(1) a token with both separators in which the rightmost separator's kind
occurs only once parses like the canonical token with grouping removed and a
period decimal mark; (2) a single separator followed by exactly two digits is
a decimal mark, whichever of the two separators it is; (3) the tokens
"1.234,56" and "1,234.56" both normalize to 1234.56, and "123,45" to 123.45.
(The README's `PythonTableParser.parsePrice` does not satisfy these examples;
see the counterexample.) -/
theorem c2_price_normalizer :
    (∀ (intPart frac : List Char) (d o : Char), isSepChar d = true →
      isSepChar o = true → d ≠ o → o ∈ intPart →
      (∀ c ∈ intPart, isDigit c = true ∨ c = o) →
      (∀ c ∈ frac, isDigit c = true) →
      YamamotoParser.parsePrice (String.mk (intPart ++ d :: frac)) =
        YamamotoParser.parsePrice (String.mk (intPart.filter isDigit ++ '.' :: frac))) ∧
    (∀ (a b : List Char) (s : Char), isSepChar s = true →
      (∀ c ∈ a, isDigit c = true) → (∀ c ∈ b, isDigit c = true) → b.length = 2 →
      YamamotoParser.parsePrice (String.mk (a ++ s :: b)) =
        YamamotoParser.parsePrice (String.mk (a ++ '.' :: b))) ∧
    YamamotoParser.parsePrice "1.234,56" = some (mkRat 123456 100) ∧
    YamamotoParser.parsePrice "1,234.56" = some (mkRat 123456 100) ∧
    YamamotoParser.parsePrice "123,45" = some (mkRat 12345 100) :=
  ⟨parsePrice_bothSeps, parsePrice_singleSep, by decide, by decide, by decide⟩

/-- C2 witness: the general clauses applied at "1.234,56" and "123,45". -/
theorem c2_price_normalizer_witness :
    YamamotoParser.parsePrice (String.mk (['1', '.', '2', '3', '4'] ++ ',' :: ['5', '6'])) =
      YamamotoParser.parsePrice
        (String.mk (List.filter isDigit ['1', '.', '2', '3', '4'] ++ '.' :: ['5', '6'])) ∧
    YamamotoParser.parsePrice (String.mk (['1', '2', '3'] ++ ',' :: ['4', '5'])) =
      YamamotoParser.parsePrice (String.mk (['1', '2', '3'] ++ '.' :: ['4', '5'])) :=
  ⟨c2_price_normalizer.1 ['1', '.', '2', '3', '4'] ['5', '6'] ',' '.'
      (by decide) (by decide) (by decide) (by decide) (by decide) (by decide),
    c2_price_normalizer.2.1 ['1', '2', '3'] ['4', '5'] ','
      (by decide) (by decide) (by decide) (by decide)⟩

/-- The concrete Yamamoto row used against C3: quantity 2, unit price 10,00,
but the rightmost price token (the parsed total) reads 30,00. -/
def c3Line : TextLine :=
  { yPosition := 10, text := "IAF123 PZ 2 10,00 30,00",
    items := [{ x := 1, y := 10, text := "IAF123" }, { x := 10, y := 10, text := "PZ 2" },
      { x := 20, y := 10, text := "10,00" }, { x := 30, y := 10, text := "30,00" }] }

/-- A Rabeko-format table whose total column (30,00) disagrees with
`quantity × unitPrice` (2 × 10,00). -/
def c3RabekoTable : PythonTableParser.PyTable :=
  { headers := ["Description", "Quantité", "Prix unitaire", "Total"],
    data := [["Description", "Quantité", "Prix unitaire", "Total"],
             ["Sirop Zero Fraise", "2", "10,00", "30,00"]] }

/-- C3, counterexample: the Yamamoto text strategy keeps the parsed rightmost
price as the item total even when it disagrees with `round2(unitPrice ×
quantity)` (the mismatch is only logged); and the table interpreter's Rabeko
branch likewise keeps the parsed total-cell value.  In both items quantity
and unit price were parsed directly from the document, yet `round2(u × q) =
20 ≠ 30 = total`. -/
theorem c3_total_recompute_counterexample :
    YamamotoParser.parseLineItemsBySku [c3Line] =
      [{ supplierSku := "IAF123", description := none, quantity := 2,
         unitPrice := 10, total := 30 }] ∧
    (PythonTableParser.parseTableForLineItems c3RabekoTable).map
        (fun it => (it.quantity, it.unitPrice, it.total)) =
      [(some 2, some 10, some 30)] ∧
    round2 ((10 : JsNum) * 2) = 20 ∧
    (30 : JsNum) ≠ 20 := by
  refine ⟨by decide, by decide, by decide, by decide⟩

/-- C3 (amended): in the table interpreter's generic row path
(`PythonTableParser.parseRow`), whenever the unit-price cell parses to a
price, the emitted total is always `round2(unitPrice × quantity)`, overriding
any value read from the total column.  (The Yamamoto text strategy and the
Rabeko table branch keep the parsed total instead; see the counterexample.) -/
theorem c3_total_recompute (row : List String) (cm : PythonTableParser.ColumnMap)
    (sw : Bool) (u : JsNum)
    (hu : (match cm.unitPrice with
           | some i => if row.getD i "" ≠ "" then
               PythonTableParser.parsePrice (jsTrim (row.getD i "")) sw
             else none
           | none => none) = some u) :
    ∀ item, PythonTableParser.parseRow row cm sw = some item →
      ∃ q, item.quantity = some q ∧ item.unitPrice = some u ∧
        item.total = some (round2 (u * q)) := by
  intro item hitem
  unfold PythonTableParser.parseRow at hitem
  simp only [] at hitem
  rw [hu] at hitem
  split at hitem
  next sku qty hsku hqty =>
    split at hitem
    next hqz =>
      injection hitem with hitem
      exact ⟨qty, by rw [← hitem]; exact ⟨rfl, rfl, rfl⟩⟩
    next => exact absurd hitem (by simp)
  next => exact absurd hitem (by simp)

/-- C3 witness: a concrete generic-path row with sku "SW1", quantity 3 and
unit price "10,00" emits total `round2(10 × 3) = 30`. -/
theorem c3_total_recompute_witness :
    ∃ q, ∀ item,
      PythonTableParser.parseRow ["SW1", "3", "10,00"]
        { sku := some 0, quantity := some 1, unitPrice := some 2 } true = some item →
      ∃ q2, item.quantity = some q2 ∧ item.unitPrice = some q ∧
        item.total = some (round2 (q * q2)) :=
  ⟨10, c3_total_recompute ["SW1", "3", "10,00"]
    { sku := some 0, quantity := some 1, unitPrice := some 2 } true 10 (by decide)⟩

/-- The Swanson line used against C4: the SKU row doubles as a transport row. -/
def c4Line : TextLine :=
  { yPosition := 10, text := "SW141 TRANSPORT CASE 150 10,13",
    items := [{ x := 1, y := 10, text := "SW141" }, { x := 10, y := 10, text := "TRANSPORT" },
      { x := 20, y := 10, text := "CASE" }, { x := 30, y := 10, text := "150" },
      { x := 40, y := 10, text := "10,13" }] }

/-- C4, counterexample: on `c4Line` the Swanson strategy sets
`shippingFee = 10.13 > 0` (the line contains "transport") while the same line
is parsed as a line item whose description "TRANSPORT CASE" matches the
shipping keyword set. -/
theorem c4_shipping_exclusion_counterexample :
    (SwansonParser.parse [c4Line]).data.map
        (fun d => (d.invoiceMetadata.shippingFee, d.lineItems.map LineItem.description)) =
      some (mkRat 1013 100, [some "TRANSPORT CASE"]) ∧
    (0 : JsNum) < mkRat 1013 100 ∧
    jsIncludes (jsToLower "TRANSPORT CASE") "transport" = true := by
  refine ⟨by decide, by decide, by decide⟩

/-- `YamamotoParser.extractMetadata` never touches the shipping fee. -/
theorem extractMetadata_shippingFee (lines : List TextLine) (acc : ParsedInvoiceData) :
    (YamamotoParser.extractMetadata lines acc).invoiceMetadata.shippingFee =
      acc.invoiceMetadata.shippingFee := by
  induction lines generalizing acc with
  | nil => rfl
  | cons l ls ih =>
    show (YamamotoParser.extractMetadata ls _).invoiceMetadata.shippingFee = _
    rw [ih]
    simp only []
    repeat' split
    all_goals rfl

/-- C4 (amended): the Yamamoto strategy always reports `shippingFee = 0` (its
metadata extraction never sets one, so the exclusion holds vacuously there),
and the Addict loop never appends a parsed row whose line mentions
`frais de port` or `livraison` — such rows only update the fee.  The Swanson
strategy violates the exclusion (see the counterexample). -/
theorem c4_shipping_exclusion :
    (∀ textLines, (YamamotoParser.parse textLines).data.map
        (fun d => d.invoiceMetadata.shippingFee) = some 0) ∧
    (∀ (headerY : JsNum) (skuX descX qtyX unitX totalX : Option JsNum)
        (st : AddictParser.LoopState) (line : TextLine) (row : LineItem),
      AddictParser.parseRow line.items skuX descX qtyX unitX totalX = some row →
      (jsIncludes (jsToLower line.text) "frais de port" ||
        jsIncludes (jsToLower line.text) "livraison") = true →
      (AddictParser.lineStep headerY skuX descX qtyX unitX totalX st line).items =
        st.items) := by
  constructor
  · intro textLines
    unfold YamamotoParser.parse
    simp only [Option.map_some']
    rw [extractMetadata_shippingFee]
  · intro headerY skuX descX qtyX unitX totalX st line row hrow hship
    have hs : (jsIncludes (jsToLower (row.description.getD "")) "frais de port" ||
        jsIncludes (jsToLower (row.description.getD "")) "port frais de port" ||
        jsIncludes (jsToLower line.text) "frais de port" ||
        jsIncludes (jsToLower line.text) "livraison") = true := by
      rcases Bool.or_eq_true_iff.mp hship with h | h
      · simp [h]
      · simp [h]
    unfold AddictParser.lineStep
    rw [hrow]
    simp only [hs]
    repeat' split
    all_goals first | rfl | simp_all

/-- A concrete Addict shipping line: `frais de port` with a parsed fee row. -/
def c4AddictLine : TextLine :=
  { yPosition := 10, text := "FP1 Frais de port 1 12,00 12,00",
    items := [{ x := 1, y := 10, text := "FP1" }, { x := 6, y := 10, text := "Frais de port" },
      { x := 20, y := 10, text := "1" }, { x := 30, y := 10, text := "12,00" },
      { x := 40, y := 10, text := "12,00" }] }

/-- C4 witness: the Yamamoto clause at the empty document, and the Addict
skip clause on `c4AddictLine`, whose row parses but is not appended. -/
theorem c4_shipping_exclusion_witness :
    (YamamotoParser.parse []).data.map (fun d => d.invoiceMetadata.shippingFee) = some 0 ∧
    (AddictParser.lineStep 0 (some 1) (some 5) (some 20) (some 30) (some 40)
      { items := [], pendingDesc := "", shippingFee := 0, stopped := false }
      c4AddictLine).items = [] :=
  ⟨c4_shipping_exclusion.1 [],
    c4_shipping_exclusion.2 0 (some 1) (some 5) (some 20) (some 30) (some 40)
      { items := [], pendingDesc := "", shippingFee := 0, stopped := false }
      c4AddictLine
      { supplierSku := "FP1", description := some "Frais de port",
        quantity := 1, unitPrice := 12, total := 12 }
      (by decide) (by decide)⟩

/-- C5: the price parser maps "-0,31" to -0.31, and the cited line-item
builder parses Scenario B's discount line into supplierSku "FITT003",
quantity 1, unitPrice -0.31 and total -0.31 — the leading minus survives into
the item's total. -/
theorem c5_negative_preservation :
    YamamotoParser.parsePrice "-0,31" = some (mkRat (-31) 100) ∧
    LegacyYamamoto.parseYamamotoLineItem
        "FITT003 Sconto extra PZ 1,00 -0,31 -0,31 ESC15" =
      some { supplierSku := "FITT003", description := some "Sconto extra",
             quantity := 1, unitPrice := mkRat (-31) 100, total := mkRat (-31) 100 } ∧
    (mkRat (-31) 100 : JsNum) < 0 := by
  refine ⟨by decide, by decide, by decide⟩

/-- C6: every strategy is a total function into `PdfExtractionResult` (the
embedding is total, mirroring the per-strategy try/catch boundary), and every
strategy except Addict reports `success = true` on all inputs; whenever a
strategy succeeds with an empty item list, its result carries a non-empty
warning list; and the Addict strategy, which requires a header, returns
`success = false` with the descriptive header error when no line matches. -/
theorem c6_failure_semantics :
    (∀ (k : ParserKind) (textLines : List TextLine), k ≠ ParserKind.addict →
      (runStrategy k textLines).success = true) ∧
    (∀ (k : ParserKind) (textLines : List TextLine) (d : ParsedInvoiceData),
      (runStrategy k textLines).success = true →
      (runStrategy k textLines).data = some d →
      d.lineItems = [] →
      ∃ w, (runStrategy k textLines).warnings = some w ∧ w ≠ []) ∧
    (∀ textLines, AddictParser.findHeader textLines = none →
      AddictParser.parse textLines =
        { success := false,
          error := some "Addict header not found (Libellé/PU/Prix HT)" }) := by
  refine ⟨?_, ?_, ?_⟩
  · intro k tl hk
    cases k
    case addict => exact absurd rfl hk
    all_goals rfl
  · intro k textLines d hsucc hdata hempty
    cases k
    case yamamoto =>
      unfold runStrategy YamamotoParser.parse at hdata ⊢
      simp only [] at hdata ⊢
      injection hdata with hdata
      subst hdata
      simp only [] at hempty
      refine ⟨["No line items found"], ?_, by simp⟩
      rw [if_pos (by rw [hempty]; rfl)]
    case swanson =>
      unfold runStrategy SwansonParser.parse at hdata ⊢
      simp only [] at hdata ⊢
      injection hdata with hdata
      subst hdata
      simp only [] at hempty
      refine ⟨["No line items found"], ?_, by simp⟩
      rw [if_pos (by rw [hempty]; rfl)]
    case bolero =>
      unfold runStrategy BoleroParser.parse at hdata ⊢
      simp only [] at hdata ⊢
      injection hdata with hdata
      subst hdata
      simp only [] at hempty
      refine ⟨["No line items parsed for Bolero"], ?_, by simp⟩
      rw [if_pos (by rw [hempty]; rfl)]
    case maiavie =>
      unfold runStrategy MaiavieParser.parse at hdata ⊢
      simp only [] at hdata ⊢
      injection hdata with hdata
      subst hdata
      simp only [] at hempty
      refine ⟨["No line items parsed for Maiavie"], ?_, by simp⟩
      rw [if_pos (by rw [hempty]; rfl)]
    case addict =>
      show ∃ w, (AddictParser.parse textLines).warnings = some w ∧ w ≠ []
      replace hdata : (AddictParser.parse textLines).data = some d := hdata
      rcases hfh : AddictParser.findHeader textLines with _ |
        ⟨hy, skuX, descX, qtyX, unitX, totalX⟩
      · have hp : AddictParser.parse textLines =
            { success := false,
              error := some "Addict header not found (Libellé/PU/Prix HT)" } := by
          unfold AddictParser.parse
          rw [hfh]
        rw [hp] at hdata
        exact absurd hdata (by simp)
      · have hp : AddictParser.parse textLines =
            (let final := textLines.foldl
                (AddictParser.lineStep hy skuX descX qtyX unitX totalX)
                { items := [], pendingDesc := "", shippingFee := 0, stopped := false }
             { success := true
               data := some
                 { invoiceMetadata := { currency := "EUR", shippingFee := final.shippingFee }
                   lineItems := final.items }
               warnings :=
                 if final.items.length = 0 then some ["No line items parsed for Addict"]
                 else none }) := by
          unfold AddictParser.parse
          rw [hfh]
        rw [hp] at hdata ⊢
        simp only [] at hdata ⊢
        injection hdata with hdata
        subst hdata
        simp only [] at hempty
        refine ⟨["No line items parsed for Addict"], ?_, by simp⟩
        rw [if_pos (by rw [hempty]; rfl)]
    case generic =>
      exact ⟨["Generic parser used - manual review recommended"], rfl, by simp⟩
  · intro textLines h
    unfold AddictParser.parse
    rw [h]

/-- C6 witness: the Yamamoto strategy on the empty document succeeds with no
items and carries a warning; the Addict strategy on the empty document fails
with the header error. -/
theorem c6_failure_semantics_witness :
    (runStrategy ParserKind.generic []).success = true ∧
    (∃ w, (runStrategy ParserKind.yamamoto []).warnings = some w ∧ w ≠ []) ∧
    AddictParser.parse [] =
      { success := false,
        error := some "Addict header not found (Libellé/PU/Prix HT)" } :=
  ⟨c6_failure_semantics.1 ParserKind.generic []
      (fun h => ParserKind.noConfusion h),
    c6_failure_semantics.2.1 ParserKind.yamamoto []
      { invoiceMetadata := { currency := "EUR", shippingFee := 0 }, lineItems := [] }
      (by decide) (by decide) (by decide),
    c6_failure_semantics.2.2 [] rfl⟩

/-- The parser-selection cascade as the specification words it: after
lowercasing and trimming, match the ordered fragment list — yamamoto/iaf,
then bolero, then swanson, then maiavie, then addict — first match wins, no
match falls back to the generic strategy. -/
def selectParserSpec (supplierName : String) : ParserKind :=
  let n := jsTrim (jsToLower supplierName)
  if jsIncludes n "yamamoto" || jsIncludes n "iaf" then ParserKind.yamamoto
  else if jsIncludes n "bolero" then ParserKind.bolero
  else if jsIncludes n "swanson" then ParserKind.swanson
  else if jsIncludes n "maiavie" then ParserKind.maiavie
  else if jsIncludes n "addict" then ParserKind.addict
  else ParserKind.generic

/-- C7: `selectParser` coincides with the spec-worded first-match cascade on
every supplier name, and the Generic strategy always succeeds, fixes every
metadata field except a best-effort first date, emits no line items, returns
every line's text as raw debug text, and warns that manual review is
recommended. -/
theorem c7_parser_selection :
    (∀ supplierName, selectParser supplierName = selectParserSpec supplierName) ∧
    (∀ textLines, ∃ dateOpt,
      GenericParser.parse textLines =
        { success := true
          data := some
            { invoiceMetadata :=
                { currency := "EUR", shippingFee := 0, invoiceDate := dateOpt }
              lineItems := []
              rawText := some (textLines.map TextLine.text) }
          warnings := some ["Generic parser used - manual review recommended"] }) :=
  ⟨fun _ => rfl,
    fun textLines =>
      ⟨match textLines.findSome? (fun line => findDateLoose line.text) with
        | some (day, month, year) => some (year ++ "-" ++ month ++ "-" ++ day)
        | none => none,
       rfl⟩⟩

def c8Table : PythonTableParser.PyTable := { data := [], headers := [] }

def c8Ext : ExtractionOutcome := { success := false, error := some "boom" }

/-- C8, counterexample: for the non-pinned supplier "bolero" with the backend
flag set, the table backend SUCCEEDS (an empty table yields success with zero
items) yet the orchestrator still falls back and surfaces the text
extractor's failure as the final result — a failure is surfaced although an
attempted backend succeeded. -/
theorem c8_orchestrator_counterexample :
    (PythonTableParser.parse (some [c8Table])).success = true ∧
    parseInvoiceFromPdf "bolero" true (some [c8Table]) c8Ext =
      OrchestratorResult.js { success := false, error := some "boom" } := by
  refine ⟨by decide, by decide⟩

/-- C8 (amended): for every supplier name containing yamamoto/iaf/swanson/
rabeko the orchestrator returns the table backend's result verbatim,
including failures; for every other supplier invoked with the backend flag, a
backend FAILURE is recoverable: the run is indistinguishable from one without
the backend flag (the text pipeline decides the result).  The "only surfacing
a failure when every attempted backend fails" clause is false: a backend
success with zero items also falls back (see the counterexample). -/
theorem c8_orchestrator :
    (∀ (supplierName : String) (usePythonParser : Bool)
        (pythonTables : Option (List PythonTableParser.PyTable))
        (ext : ExtractionOutcome),
      (jsIncludes (jsToLower supplierName) "yamamoto" ||
        jsIncludes (jsToLower supplierName) "iaf" ||
        jsIncludes (jsToLower supplierName) "swanson" ||
        jsIncludes (jsToLower supplierName) "rabeko") = true →
      parseInvoiceFromPdf supplierName usePythonParser pythonTables ext =
        OrchestratorResult.python (PythonTableParser.parse pythonTables)) ∧
    (∀ (supplierName : String)
        (pythonTables : Option (List PythonTableParser.PyTable))
        (ext : ExtractionOutcome),
      (jsIncludes (jsToLower supplierName) "yamamoto" ||
        jsIncludes (jsToLower supplierName) "iaf" ||
        jsIncludes (jsToLower supplierName) "swanson" ||
        jsIncludes (jsToLower supplierName) "rabeko") = false →
      (PythonTableParser.parse pythonTables).success = false →
      parseInvoiceFromPdf supplierName true pythonTables ext =
        parseInvoiceFromPdf supplierName false pythonTables ext) := by
  constructor
  · intro supplierName usePythonParser pythonTables ext hforce
    unfold parseInvoiceFromPdf
    simp only [hforce, Bool.or_true, if_true]
  · intro supplierName pythonTables ext hforce hfail
    unfold parseInvoiceFromPdf
    simp only [hforce, hfail, Bool.or_false, Bool.false_or, Bool.true_or, Bool.false_and,
      Bool.false_eq_true, if_false, if_true]

/-- C8 witness: the pinned clause at "yamamoto" with a missing backend result
(the backend failure becomes the final result), and the recoverable clause at
"bolero" with a failing backend. -/
theorem c8_orchestrator_witness :
    parseInvoiceFromPdf "yamamoto" false none c8Ext =
      OrchestratorResult.python (PythonTableParser.parse none) ∧
    parseInvoiceFromPdf "bolero" true none c8Ext =
      parseInvoiceFromPdf "bolero" false none c8Ext :=
  ⟨c8_orchestrator.1 "yamamoto" false none c8Ext (by decide),
    c8_orchestrator.2 "bolero" none c8Ext (by decide) (by decide)⟩

theorem startsWith_append (pre s : String) : jsStartsWith (pre ++ s) pre = true := by
  unfold jsStartsWith
  rw [List.isPrefixOf_iff_prefix]
  show pre.data <+: (pre ++ s).data
  rw [String.data_append]
  exact List.prefix_append _ _

/-- C9: pseudo-SKU generation is a total function of the description alone;
for every description both generators return a non-empty string carrying
their marker ("RABEKO_" / "GEN_"), and identical descriptions always produce
identical codes; Scenario C's description gets a stable "RABEKO_"-prefixed
code. -/
theorem c9_pseudo_sku :
    (∀ description : String,
      jsStartsWith (generatePseudoSku description) "RABEKO_" = true ∧
      generatePseudoSku description ≠ "" ∧
      jsStartsWith (generateSkuFromDescription description) "GEN_" = true ∧
      generateSkuFromDescription description ≠ "") ∧
    (∀ d1 d2 : String, d1 = d2 →
      generatePseudoSku d1 = generatePseudoSku d2 ∧
      generateSkuFromDescription d1 = generateSkuFromDescription d2) ∧
    generatePseudoSku "Protein Powder 25kg" = "RABEKO_1E4C7E89" := by
  refine ⟨?_, ?_, by decide⟩
  · intro description
    refine ⟨?_, ?_, ?_, ?_⟩
    · exact startsWith_append "RABEKO_" _
    · intro h
      have h2 : ("RABEKO_" ++ String.mk ((jsToUpper (natToBase 16
          (simpleHash description).natAbs)).toList.take 8)).data = "".data :=
        congrArg String.data h
      rw [String.data_append, List.append_eq_nil] at h2
      exact absurd h2.1 (by decide)
    · show jsStartsWith ("GEN_" ++ _ ++ "_" ++ _) "GEN_" = true
      rw [String.append_assoc, String.append_assoc]
      exact startsWith_append "GEN_" _
    · intro h
      have h2 : ("GEN_" ++ String.mk ((jsToUpper (removeChars description
            (fun c => !(c.isAlphanum)))).toList.take 10) ++ "_" ++
          String.mk ((natToBase 36 (simpleHash description).natAbs).toList.take 3)).data =
          "".data := congrArg String.data h
      rw [String.append_assoc, String.append_assoc, String.data_append,
        List.append_eq_nil] at h2
      exact absurd h2.1 (by decide)
  · intro d1 d2 h
    rw [h]
    exact ⟨rfl, rfl⟩

/-- C9 witness: the universal clauses applied at Scenario C's description. -/
theorem c9_pseudo_sku_witness :
    generatePseudoSku "Protein Powder 25kg" =
      generatePseudoSku "Protein Powder 25kg" ∧
    generateSkuFromDescription "Protein Powder 25kg" =
      generateSkuFromDescription "Protein Powder 25kg" :=
  c9_pseudo_sku.2.1 "Protein Powder 25kg" "Protein Powder 25kg" rfl

/-- `YamamotoParser.extractMetadata` never touches the currency. -/
theorem yamamotoMetadata_currency (lines : List TextLine) (acc : ParsedInvoiceData) :
    (YamamotoParser.extractMetadata lines acc).invoiceMetadata.currency =
      acc.invoiceMetadata.currency := by
  induction lines generalizing acc with
  | nil => rfl
  | cons l ls ih =>
    show (YamamotoParser.extractMetadata ls _).invoiceMetadata.currency = _
    rw [ih]
    simp only []
    repeat' split
    all_goals rfl

/-- `SwansonParser.extractMetadata` never touches the currency. -/
theorem swansonMetadata_currency (lines : List TextLine) (acc : ParsedInvoiceData) :
    (SwansonParser.extractMetadata lines acc).invoiceMetadata.currency =
      acc.invoiceMetadata.currency := by
  induction lines generalizing acc with
  | nil => rfl
  | cons l ls ih =>
    show (SwansonParser.extractMetadata ls _).invoiceMetadata.currency = _
    rw [ih]
    simp only []
    repeat' split
    all_goals rfl

/-- C10: every strategy result that carries data reports currency "EUR", and
the table interpreter's converted data always reports currency "EUR" — the
field is initialized to "EUR" and no code path reassigns it. -/
theorem c10_currency_eur :
    (∀ (k : ParserKind) (textLines : List TextLine) (d : ParsedInvoiceData),
      (runStrategy k textLines).data = some d →
      d.invoiceMetadata.currency = "EUR") ∧
    (∀ tables : List PythonTableParser.PyTable,
      (PythonTableParser.convertTablesToInvoiceData tables).invoiceMetadata.currency =
        "EUR") := by
  constructor
  · intro k textLines d hdata
    cases k
    case yamamoto =>
      unfold runStrategy YamamotoParser.parse at hdata
      simp only [] at hdata
      injection hdata with hdata
      subst hdata
      show (YamamotoParser.extractMetadata textLines _).invoiceMetadata.currency = "EUR"
      rw [yamamotoMetadata_currency]
    case swanson =>
      unfold runStrategy SwansonParser.parse at hdata
      simp only [] at hdata
      injection hdata with hdata
      subst hdata
      show (SwansonParser.extractMetadata textLines _).invoiceMetadata.currency = "EUR"
      rw [swansonMetadata_currency]
    case bolero =>
      unfold runStrategy BoleroParser.parse at hdata
      simp only [] at hdata
      injection hdata with hdata
      subst hdata
      rfl
    case maiavie =>
      unfold runStrategy MaiavieParser.parse at hdata
      simp only [] at hdata
      injection hdata with hdata
      subst hdata
      rfl
    case addict =>
      replace hdata : (AddictParser.parse textLines).data = some d := hdata
      rcases hfh : AddictParser.findHeader textLines with _ |
        ⟨hy, skuX, descX, qtyX, unitX, totalX⟩
      · have hp : AddictParser.parse textLines =
            { success := false,
              error := some "Addict header not found (Libellé/PU/Prix HT)" } := by
          unfold AddictParser.parse
          rw [hfh]
        rw [hp] at hdata
        exact absurd hdata (by simp)
      · have hp : AddictParser.parse textLines =
            (let final := textLines.foldl
                (AddictParser.lineStep hy skuX descX qtyX unitX totalX)
                { items := [], pendingDesc := "", shippingFee := 0, stopped := false }
             { success := true
               data := some
                 { invoiceMetadata := { currency := "EUR", shippingFee := final.shippingFee }
                   lineItems := final.items }
               warnings :=
                 if final.items.length = 0 then some ["No line items parsed for Addict"]
                 else none }) := by
          unfold AddictParser.parse
          rw [hfh]
        rw [hp] at hdata
        simp only [] at hdata
        injection hdata with hdata
        subst hdata
        rfl
    case generic =>
      unfold runStrategy GenericParser.parse at hdata
      simp only [] at hdata
      injection hdata with hdata
      subst hdata
      rfl
  · intro tables
    rfl

/-- C10 witness: the strategy clause at the Generic strategy on the empty
document. -/
theorem c10_currency_eur_witness :
    ({ invoiceMetadata :=
        { currency := "EUR", shippingFee := 0, invoiceDate := none }
       lineItems := []
       rawText := some [] } : ParsedInvoiceData).invoiceMetadata.currency = "EUR" :=
  c10_currency_eur.1 ParserKind.generic []
    { invoiceMetadata := { currency := "EUR", shippingFee := 0, invoiceDate := none }
      lineItems := []
      rawText := some [] } (by decide)
